import Mathlib

/-!
Galera replication provider: key encoding and replicator control flow.

A shallow embedding of `galera/src/key.hpp` and of the control flow of
`galera/src/replicator_smm.cpp`, with theorems about the embedded code.

Conventions of the embedding:

* a byte (`gu::byte_t`, an `unsigned char`) is a `Fin 256`; a cast of a wider
  integer to a byte is `to_byte`, reduction modulo 256; sizes and offsets
  (`size_t`) are natural numbers, as no buffer reaches `2^64` bytes;
* a buffer (`gu::Buffer`, a `std::vector<byte_t>`) is a list of bytes; a
  pointer into a buffer is the list of bytes from the pointed position on;
* an output buffer `(buf, buflen)` is a list of length `buflen`; code that
  writes into it returns the buffer after the call together with its result,
  so that what was written before a `throw` stays visible;
* a C++ exception is the `error` case of `Except`;
* a loop is a recursion on an iteration bound; the bound is shown to be
  enough, and reaching it is the error `loop_bound`;
* the replicator code is embedded as functions on the fields it reads and
  writes; every call to a collaborator (monitor, certification index,
  write-set cache, group layer, application callback) is appended to the
  record `calls_`, and what the collaborator answers is an input of the
  function; a collaborator whose answer the code does not look at is taken to
  return normally;
* `assert` is not embedded: the functions behave as the release build.
-/

/-! ## Definitions -/

namespace gu

/-- The type `gu::byte_t` of gu_buffer.hpp. -/
abbrev byte_t := Fin 256

/-- The type `gu::Buffer` of gu_buffer.hpp. -/
abbrev Buffer := List byte_t

/-- Conversion of an unsigned integer to `byte_t`, which keeps the low 8 bits. -/
def to_byte (n : Nat) : byte_t := ⟨n % 256, Nat.mod_lt n (by decide)⟩

/-- Exceptions thrown by the embedded code. -/
inductive Exn where
  /-- Thrown by `gu_throw_error(EINVAL)`. -/
  | EINVAL
  /-- Thrown by `gu_throw_fatal`. -/
  | fatal
  /-- A read past the end of a buffer, which the source does not guard. -/
  | out_of_bounds
  /-- The iteration bound of a loop of the embedding was reached; no run of
  the source ends so. -/
  | loop_bound
  deriving DecidableEq, Repr

deriving instance DecidableEq for Except

/-- Modelled from the spec: `gu::uleb128_size` (gu_vlq.hpp, not among the
sources). The spec names the length prefix "a variable-length unsigned integer
(ULEB128)": the value is cut into groups of 7 bits, least significant first,
one byte per group. This is the loop counting the groups; the first argument
bounds the number of iterations. -/
def uleb128_size_loop : Nat → Nat → Nat
  | 0, _ => 1
  | fuel + 1, value =>
    if value / 128 = 0 then 1 else 1 + uleb128_size_loop fuel (value / 128)

/-- Modelled from the spec: `gu::uleb128_size(value)`, the number of bytes of
the ULEB128 encoding of `value`. -/
def uleb128_size (value : Nat) : Nat := uleb128_size_loop value value

/-- Modelled from the spec: the bytes of the ULEB128 encoding of a value:
7 bits per byte, least significant group first, bit 7 set on every byte but
the last. The first argument bounds the number of iterations. -/
def uleb128_bytes_loop : Nat → Nat → Buffer
  | 0, value => [to_byte (value % 128)]
  | fuel + 1, value =>
    if value / 128 = 0 then [to_byte (value % 128)]
    else to_byte (value % 128 + 128) :: uleb128_bytes_loop fuel (value / 128)

/-- Modelled from the spec: the ULEB128 encoding of `value`. -/
def uleb128_bytes (value : Nat) : Buffer := uleb128_bytes_loop value value

/-- Modelled from the spec: the loop of `gu::uleb128_encode` (gu_vlq.hpp, not
among the sources): one byte is stored per iteration, and the call throws as
soon as the next byte would fall outside the buffer. -/
def uleb128_encode_loop : Nat → Nat → Buffer → Nat → Buffer × Except Exn Nat
  | 0, _, buf, _ => (buf, .error .loop_bound)
  | fuel + 1, value, buf, offset =>
    if buf.length ≤ offset then (buf, .error .fatal)
    else if value / 128 = 0 then
      (buf.set offset (to_byte (value % 128)), .ok (offset + 1))
    else
      uleb128_encode_loop fuel (value / 128)
        (buf.set offset (to_byte (value % 128 + 128))) (offset + 1)

/-- Modelled from the spec: `gu::uleb128_encode(value, buf, buflen, offset)`
(gu_vlq.hpp, not among the sources): stores the ULEB128 encoding of `value`
at `offset` and returns the offset past it. -/
def uleb128_encode (value : Nat) (buf : Buffer) (offset : Nat) :
    Buffer × Except Exn Nat :=
  uleb128_encode_loop (value + 1) value buf offset

/-- Modelled from the spec: ULEB128 decoding of the bytes at a pointer: the
decoded value and the number of bytes read, or nothing when the bytes end
before a byte with bit 7 clear. -/
def uleb128_decode_from : Buffer → Option (Nat × Nat)
  | [] => none
  | b :: rest =>
    if b.val < 128 then some (b.val, 1)
    else
      match uleb128_decode_from rest with
      | none => none
      | some (v, k) => some (b.val % 128 + 128 * v, k + 1)

/-- Modelled from the spec: `gu::uleb128_decode(buf, buflen, offset, value)`
(gu_vlq.hpp, not among the sources): returns the offset past the encoding and
the decoded value, and throws when the encoding runs past the buffer. -/
def uleb128_decode (buf : Buffer) (offset : Nat) : Except Exn (Nat × Nat) :=
  match uleb128_decode_from (buf.drop offset) with
  | none => .error .fatal
  | some (v, k) => .ok (offset + k, v)

end gu

namespace galera

open gu

/-- Modelled from the spec: `serial_size<uint16_t>(const gu::Buffer&)`
(serialization.hpp, not among the sources): the "u16 total length" prefix
followed by the bytes. -/
def serial_size_u16 (b : Buffer) : Nat := 2 + b.length

/-- Modelled from the spec: the two bytes of a `uint16_t` length prefix. The
spec fixes the width only; the low byte is taken first. -/
def u16_bytes (n : Nat) : Buffer := [to_byte n, to_byte (n / 256)]

/-- Modelled from the spec: `serialize<uint16_t>(const gu::Buffer&, buf,
buflen, offset)` (serialization.hpp, not among the sources): writes the u16
length of the buffer and then its bytes, and throws when the length does not
fit the prefix or the bytes do not fit the output buffer. -/
def serialize_u16 (b : Buffer) (buf : Buffer) (offset : Nat) :
    Buffer × Except Exn Nat :=
  if 65535 < b.length then (buf, .error .fatal)
  else if buf.length < offset + serial_size_u16 b then (buf, .error .fatal)
  else
    (buf.take offset ++ u16_bytes b.length ++ b
        ++ buf.drop (offset + serial_size_u16 b),
      .ok (offset + serial_size_u16 b))

/-- Modelled from the spec: `unserialize<uint16_t>(buf, buflen, offset,
gu::Buffer&)` (serialization.hpp, not among the sources): reads the u16 length
and then that many bytes, and throws when either runs past the buffer. -/
def unserialize_u16 (buf : Buffer) (offset : Nat) : Except Exn (Buffer × Nat) :=
  match buf.drop offset with
  | lo :: hi :: rest =>
    let len := lo.val + 256 * hi.val
    if rest.length < len then .error .fatal
    else .ok (rest.take len, offset + 2 + len)
  | _ => .error .fatal

/-- One element of the `wsrep_key_t` array handed to the `Key` constructor:
the `key_len` bytes found at the pointer `key`. -/
structure wsrep_key_t where
  /-- The bytes at `key`. -/
  key : List byte_t
  deriving DecidableEq, Repr

/-- The field `key_len` of a `wsrep_key_t`. -/
def wsrep_key_t.key_len (k : wsrep_key_t) : Nat := k.key.length

/-- The class `Key` of key.hpp. -/
structure Key where
  /-- The key version. -/
  version_ : Int
  /-- The canonical byte form. -/
  keys_ : Buffer
  deriving DecidableEq, Repr

/-- The constructor `Key(int version)`. -/
def Key.empty (version : Int) : Key := ⟨version, []⟩

/-- The loop of `case 0` in `Key(int, const wsrep_key_t*, size_t)`: the second
argument is `keys_` so far. -/
def Key.append_parts0 : List wsrep_key_t → Buffer → Except Exn Buffer
  | [], keys_ => .ok keys_
  | k :: ks, keys_ =>
    if 256 < k.key_len then .error .EINVAL
    else
      let len : byte_t := to_byte k.key_len
      Key.append_parts0 ks ((keys_ ++ [len]) ++ k.key.take len.val)

/-- The loop of `case 1` in `Key(int, const wsrep_key_t*, size_t)`: the second
argument is `keys_` so far. -/
def Key.append_parts1 : List wsrep_key_t → Buffer → Except Exn Buffer
  | [], keys_ => .ok keys_
  | k :: ks, keys_ =>
    let len_size := uleb128_size k.key_len
    let offset := keys_.length
    let resized := keys_ ++ List.replicate len_size (0 : byte_t)
    match uleb128_encode k.key_len resized offset with
    | (_, .error e) => .error e
    | (encoded, .ok _) => Key.append_parts1 ks (encoded ++ k.key)

/-- The constructor `Key(int version, const wsrep_key_t* keys, size_t
keys_len)`. -/
def Key.new (version : Int) (keys : List wsrep_key_t) : Except Exn Key :=
  if 255 < keys.length then .error .EINVAL
  else if version = 0 then
    match Key.append_parts0 keys [] with
    | .ok keys_ => .ok ⟨version, keys_⟩
    | .error e => .error e
  else if version = 1 then
    match Key.append_parts1 keys [] with
    | .ok keys_ => .ok ⟨version, keys_⟩
    | .error e => .error e
  else .error .fatal

/-- The class `KeyPart0`: a pointer to the length byte of a part. -/
structure KeyPart0 where
  /-- The bytes from the pointer on. -/
  key_ : Buffer
  deriving DecidableEq, Repr

/-- The member `KeyPart0::key_len`. -/
def KeyPart0.key_len (kp : KeyPart0) : Nat := (kp.key_.headD 0).val

/-- The member `KeyPart0::size`. -/
def KeyPart0.size (kp : KeyPart0) : Nat := 1 + (kp.key_.headD 0).val

/-- The member `KeyPart0::key`, with the `key_len` bytes it points to. -/
def KeyPart0.key (kp : KeyPart0) : Buffer := (kp.key_.drop 1).take kp.key_len

/-- The loop of `Key::key_parts0`, followed by its final check; the first
argument bounds the number of iterations. -/
def key_parts0_loop (keys_ : Buffer) :
    Nat → Nat → List KeyPart0 → Except Exn (List KeyPart0)
  | 0, _, _ => .error .loop_bound
  | fuel + 1, i, ret =>
    if i < keys_.length then
      let kp : KeyPart0 := ⟨keys_.drop i⟩
      key_parts0_loop keys_ fuel (i + kp.size) (ret ++ [kp])
    else if i ≠ keys_.length then .error .fatal
    else .ok ret

/-- The member `Key::key_parts0`. Every iteration advances by one byte at
least, so `keys_.size() + 1` iterations are enough. -/
def Key.key_parts0 (k : Key) : Except Exn (List KeyPart0) :=
  key_parts0_loop k.keys_ (k.keys_.length + 1) 0 []

/-- The class `KeyPart1`: a pointer to the length prefix of a part and the
size of the part. -/
structure KeyPart1 where
  /-- The bytes from the pointer on. -/
  buf_ : Buffer
  /-- The size of the part. -/
  buf_size_ : Nat
  deriving DecidableEq, Repr

/-- The member `KeyPart1::size`. -/
def KeyPart1.size (kp : KeyPart1) : Nat := kp.buf_size_

/-- The member `KeyPart1::key_len`: the value decoded from the first
`buf_size_` bytes at `buf_`; an exception of the decoding leaves the member. -/
def KeyPart1.key_len (kp : KeyPart1) : Except Exn Nat :=
  match uleb128_decode (kp.buf_.take kp.buf_size_) 0 with
  | .ok (_, v) => .ok v
  | .error e => .error e

/-- The member `KeyPart1::key`: the pointer `buf_ + key_len()`. -/
def KeyPart1.key (kp : KeyPart1) : Except Exn Buffer :=
  match kp.key_len with
  | .ok len => .ok (kp.buf_.drop len)
  | .error e => .error e

/-- The bytes of a `KeyPart1`: `buf_size_` bytes from `buf_`. -/
def KeyPart1.bytes (kp : KeyPart1) : Buffer := kp.buf_.take kp.buf_size_

/-- The loop of `Key::key_parts1`, followed by its final check; the first
argument bounds the number of iterations. -/
def key_parts1_loop (keys_ : Buffer) :
    Nat → Nat → List KeyPart1 → Except Exn (List KeyPart1)
  | 0, _, _ => .error .loop_bound
  | fuel + 1, i, ret =>
    if i < keys_.length then
      match uleb128_decode keys_ i with
      | .error e => .error e
      | .ok (offset, key_len) =>
        let kp : KeyPart1 := ⟨keys_.drop i, key_len + (offset - i)⟩
        key_parts1_loop keys_ fuel (i + kp.size) (ret ++ [kp])
    else if i ≠ keys_.length then .error .fatal
    else .ok ret

/-- The member `Key::key_parts1`. Every iteration advances by one byte at
least, so `keys_.size() + 1` iterations are enough. -/
def Key.key_parts1 (k : Key) : Except Exn (List KeyPart1) :=
  key_parts1_loop k.keys_ (k.keys_.length + 1) 0 []

/-- The function `serial_size(const Key&)`. -/
def serial_size (key : Key) : Except Exn Nat :=
  if key.version_ = 0 then .ok (serial_size_u16 key.keys_)
  else if key.version_ = 1 then
    .ok (uleb128_size key.keys_.length + key.keys_.length)
  else .error .fatal

/-- The function `serialize(const Key&, gu::byte_t* buf, size_t buflen, size_t
offset)`: the buffer after the call and the returned offset. -/
def serialize (key : Key) (buf : Buffer) (offset : Nat) :
    Buffer × Except Exn Nat :=
  if key.version_ = 0 then serialize_u16 key.keys_ buf offset
  else if key.version_ = 1 then
    match uleb128_encode key.keys_.length buf offset with
    | (buf1, .error e) => (buf1, .error e)
    | (buf1, .ok offset1) =>
      if buf1.length < offset1 + key.keys_.length then (buf1, .error .fatal)
      else
        (buf1.take offset1 ++ key.keys_
            ++ buf1.drop (offset1 + key.keys_.length),
          .ok (offset1 + key.keys_.length))
  else (buf, .error .fatal)

/-- The function `unserialize(const gu::byte_t* buf, size_t buflen, size_t
offset, Key& key)`: the key after the call and the returned offset. The copy
of `case 1` is not guarded in the source; a copy that would read past the
buffer is the error `out_of_bounds`. -/
def unserialize (buf : Buffer) (offset : Nat) (key : Key) :
    Except Exn (Key × Nat) :=
  if key.version_ = 0 then
    match unserialize_u16 buf offset with
    | .ok (keys_, offset1) => .ok (⟨key.version_, keys_⟩, offset1)
    | .error e => .error e
  else if key.version_ = 1 then
    match uleb128_decode buf offset with
    | .error e => .error e
    | .ok (offset1, len) =>
      if buf.length < offset1 + len then .error .out_of_bounds
      else .ok (⟨key.version_, (buf.drop offset1).take len⟩, offset1 + len)
  else .error .fatal

/-- The bytes that one iteration of the version-0 loop of the `Key`
constructor appends for a part. -/
def part0_appended (k : wsrep_key_t) : Buffer :=
  to_byte k.key_len :: k.key.take (to_byte k.key_len).val

/-- One length byte followed by all the bytes of a part. -/
def part0_bytes (k : wsrep_key_t) : Buffer := to_byte k.key_len :: k.key

/-- The ULEB128 encoding of the length of a part followed by its bytes. -/
def part1_bytes (k : wsrep_key_t) : Buffer := uleb128_bytes k.key_len ++ k.key

/-- What `key_parts0` is to return for a part: its length and content. -/
def KeyPart0.holds (kp : KeyPart0) (k : wsrep_key_t) : Prop :=
  kp.key_len = k.key_len ∧ kp.size = 1 + k.key_len ∧ kp.key = k.key

/-- What `key_parts1` is to return for a part: its size, its decoded length
and its bytes. -/
def KeyPart1.holds (kp : KeyPart1) (k : wsrep_key_t) : Prop :=
  kp.size = uleb128_size k.key_len + k.key_len ∧ kp.key_len = .ok k.key_len ∧
    kp.bytes = part1_bytes k

end galera

namespace galera

open gu

/-- The values of `wsrep_status_t` (wsrep_api.h) that the replicator returns. -/
inductive wsrep_status_t where
  | WSREP_OK
  | WSREP_TRX_FAIL
  | WSREP_BF_ABORT
  | WSREP_CONN_FAIL
  | WSREP_NODE_FAIL
  | WSREP_FATAL
  | WSREP_PRECOMMIT_ABORT
  | WSREP_NOT_IMPLEMENTED
  deriving DecidableEq, Repr

/-- The values of `wsrep_cb_status_t` (wsrep_api.h) that a callback returns. -/
inductive wsrep_cb_status_t where
  | WSREP_CB_SUCCESS
  | WSREP_CB_FAILURE
  deriving DecidableEq, Repr

/-- The status code of a `wsrep_cb_status_t`, as carried by an
`ApplyException`: `WSREP_CB_SUCCESS` is 0 and `WSREP_CB_FAILURE` is 1 in
wsrep_api.h. -/
def wsrep_cb_status_t.code : wsrep_cb_status_t → Int
  | .WSREP_CB_SUCCESS => 0
  | .WSREP_CB_FAILURE => 1

/-- What the replicator code can end with instead of returning. -/
inductive Failure where
  /-- A `galera::ApplyException` with its status. -/
  | ApplyException (status : Int)
  /-- An exception thrown by `gu_throw_fatal`. -/
  | fatal
  /-- An exception other than `EINTR` raised by a monitor. -/
  | monitor_error
  /-- The exception `EINTR` of an interrupted monitor wait, where the code
  does not catch it. -/
  | monitor_interrupted
  /-- The process was ended by `abort()`. -/
  | process_abort
  /-- The iteration bound of a loop of the embedding was reached; no run of
  the source ends so. -/
  | loop_bound
  deriving DecidableEq, Repr

/-- The states of a transaction, `TrxHandle::State`. -/
inductive TrxState where
  | S_EXECUTING
  | S_MUST_ABORT
  | S_ABORTING
  | S_REPLICATING
  | S_CERTIFYING
  | S_MUST_CERT_AND_REPLAY
  | S_MUST_REPLAY_AM
  | S_MUST_REPLAY_CM
  | S_MUST_REPLAY
  | S_REPLAYING
  | S_APPLYING
  | S_COMMITTING
  | S_COMMITTED
  | S_ROLLED_BACK
  deriving DecidableEq, Repr

/-- The part of a `TrxHandle` that the replicator code reads and writes. The
transition table behind `TrxHandle::set_state` is not among the sources;
`set_state` is an assignment here. -/
structure TrxHandle where
  /-- The value of `state()`. -/
  state_ : TrxState
  /-- The value of `is_local()`. -/
  local_ : Bool
  /-- The value of `is_toi()`. -/
  toi_ : Bool
  /-- Whether `(flags() & F_COMMIT) != 0`. -/
  f_commit_ : Bool
  /-- The value of `local_seqno()`. -/
  local_seqno_ : Int
  /-- The value of `global_seqno()`. -/
  global_seqno_ : Int
  /-- The value of `depends_seqno()`. -/
  depends_seqno_ : Int
  /-- The value of `gcs_handle()`. -/
  gcs_handle_ : Int
  /-- The value of `is_interim_committed()`. -/
  interim_committed_ : Bool
  /-- The value of `last_seen_seqno()`. -/
  last_seen_seqno_ : Int
  /-- The value of `new_version()`. -/
  new_version_ : Bool
  deriving DecidableEq, Repr

/-- The member `TrxHandle::set_state`. -/
def TrxHandle.set_state (trx : TrxHandle) (s : TrxState) : TrxHandle :=
  { trx with state_ := s }

/-- The three monitors of the replicator. -/
inductive Monitor where
  | local_monitor_
  | apply_monitor_
  | commit_monitor_
  deriving DecidableEq, Repr

/-- The calls that the replicator code makes to its collaborators (monitors,
certification, write-set cache, group layer, application callbacks), in the
order in which they are made. A monitor call carries the seqno of the order
object: `local_seqno()` for a `LocalOrder`, `global_seqno()` for an
`ApplyOrder` and a `CommitOrder`. -/
inductive Event where
  /-- A call of `enter` that returned. -/
  | enter (m : Monitor) (seqno : Int)
  /-- A call of `enter` that threw `EINTR`. -/
  | enter_interrupted (m : Monitor) (seqno : Int)
  /-- A call of `enter` that threw another exception. -/
  | enter_failed (m : Monitor) (seqno : Int)
  /-- A call of `leave`. -/
  | leave (m : Monitor) (seqno : Int)
  /-- A call of `self_cancel`. -/
  | self_cancel (m : Monitor) (seqno : Int)
  /-- A call of `trx.apply`, which invokes the apply callback. -/
  | apply_cb
  /-- A call of the commit callback with its `commit` argument. -/
  | commit_cb (commit : Bool)
  /-- A call of `cert_.append_trx`. -/
  | cert_append_trx
  /-- A call of `cert_.test`. -/
  | cert_test
  /-- A call of `cert_.set_trx_committed`. -/
  | cert_set_trx_committed
  /-- A call of `report_last_committed`. -/
  | report_last_committed
  /-- A call of `trx->verify_checksum`. -/
  | verify_checksum
  /-- A call of `gcache_.seqno_assign`. -/
  | gcache_seqno_assign
  /-- A call of `gcache_.free`. -/
  | gcache_free
  /-- A call of `service_thd_.reset`. -/
  | service_thd_reset
  /-- A call of `gcs_.set_initial_position`. -/
  | gcs_set_initial_position
  /-- A call of `gcs_.connect`. -/
  | gcs_connect
  /-- A call of `state_.shift_to` that was carried out. -/
  | shift_to_connected
  /-- A call of `interrupt` on a monitor. -/
  | interrupt (m : Monitor) (seqno : Int)
  /-- A call of `gcs_.interrupt` with a handle. -/
  | gcs_interrupt (handle : Int)
  /-- A call of `gcs_.schedule`. -/
  | gcs_schedule
  /-- A call of `gcs_.repl`. -/
  | gcs_repl
  /-- A call of `gcs_.replv`. -/
  | gcs_replv
  /-- A call of `st_.mark_unsafe`. -/
  | st_mark_unsafe_
  /-- A call of `st_.mark_safe`. -/
  | st_mark_safe_
  /-- A call of `st_.mark_corrupt`. -/
  | st_mark_corrupt_
  /-- A call of `trx->unordered`, which hands the unordered data to the
  application. -/
  | unordered_cb
  deriving DecidableEq, Repr

/-- The states of the replicator, `ReplicatorSMM::State`. -/
inductive State where
  | S_DESTROYED
  | S_CLOSED
  | S_CLOSING
  | S_CONNECTED
  | S_JOINING
  | S_JOINED
  | S_SYNCED
  | S_DONOR
  deriving DecidableEq, Repr

/-- A `Transition` of the replicator state machine. -/
structure Transition where
  /-- The state left. -/
  from_ : State
  /-- The state reached. -/
  to_ : State
  deriving DecidableEq, Repr

/-- Modelled from the spec: the state machine `gu::FSM` (gu_fsm.hpp, not among
the sources) behind `state_`: the current state and the registered
transitions. -/
structure FSM where
  /-- The current state. -/
  state_ : State
  /-- The registered transitions. -/
  trans_ : List Transition
  deriving DecidableEq, Repr

/-- Modelled from the spec: `FSM::add_transition` (gu_fsm.hpp, not among the
sources) registers a transition. -/
def FSM.add_transition (fsm : FSM) (t : Transition) : FSM :=
  { fsm with trans_ := fsm.trans_ ++ [t] }

/-- Modelled from the spec: `FSM::shift_to` (gu_fsm.hpp, not among the
sources). The spec: "Each transition is guarded; an illegal transition is a
programming error and aborts the process." -/
def FSM.shift_to (fsm : FSM) (s : State) : Except Failure FSM :=
  if (⟨fsm.state_, s⟩ : Transition) ∈ fsm.trans_ then .ok { fsm with state_ := s }
  else .error .process_abort

/-- Modelled from the spec: the modes of `CommitOrder` (its declaration is
not among the sources), which the spec lists for the option `commit_order`;
the replicator code only tells `BYPASS` from the others. -/
inductive CommitOrderMode where
  | NORMAL
  | BYPASS
  | TRAILING
  | OOOC
  deriving DecidableEq, Repr

/-- The kinds of state transfer recorded in `last_st_type_`. -/
inductive StateTransferType where
  | ST_TYPE_NONE
  | ST_TYPE_SST
  | ST_TYPE_IST
  deriving DecidableEq, Repr

/-- The results of `Certification::append_trx` and `Certification::test`. -/
inductive TestResult where
  | TEST_OK
  | TEST_FAILED
  deriving DecidableEq, Repr

/-- The part of a `ReplicatorSMM` that the embedded code reads and writes,
with the record of the calls made to the collaborators. -/
structure ReplicatorSMM where
  /-- The replicator state machine. -/
  state_ : FSM
  /-- The commit order mode. -/
  co_mode_ : CommitOrderMode
  /-- The flag read from the state file. -/
  safe_to_bootstrap_ : Bool
  /-- The donor named in the last `connect`. -/
  sst_donor_ : String
  /-- The kind of the last state transfer. -/
  last_st_type_ : StateTransferType
  /-- The seqno of the last configuration change. -/
  cc_seqno_ : Int
  /-- The seqno of the last state snapshot. -/
  sst_seqno_ : Int
  /-- The counter `local_cert_failures_`. -/
  local_cert_failures_ : Nat
  /-- The counter `local_commits_`. -/
  local_commits_ : Nat
  /-- The counter `local_replays_`. -/
  local_replays_ : Nat
  /-- The calls made to the collaborators so far. -/
  calls_ : List Event
  /-- The counter `replicated_`. -/
  replicated_ : Nat
  /-- The counter `replicated_bytes_`. -/
  replicated_bytes_ : Nat
  deriving DecidableEq, Repr

/-- Appends a call to the record of calls. -/
def ReplicatorSMM.call (r : ReplicatorSMM) (e : Event) : ReplicatorSMM :=
  { r with calls_ := r.calls_ ++ [e] }

/-- The state machine that the `ReplicatorSMM` constructor sets up: `state_`
starts in `S_CLOSED` and the constructor body registers the transitions, in
this order. -/
def ReplicatorSMM.ctor_state_ : FSM :=
  ((((((((((((((((((((((⟨.S_CLOSED, []⟩ : FSM)
    |>.add_transition ⟨.S_CLOSED, .S_DESTROYED⟩)
    |>.add_transition ⟨.S_CLOSED, .S_CONNECTED⟩)
    |>.add_transition ⟨.S_CLOSING, .S_CLOSED⟩)
    |>.add_transition ⟨.S_CONNECTED, .S_CLOSING⟩)
    |>.add_transition ⟨.S_CONNECTED, .S_CONNECTED⟩)
    |>.add_transition ⟨.S_CONNECTED, .S_JOINING⟩)
    |>.add_transition ⟨.S_CONNECTED, .S_JOINED⟩)
    |>.add_transition ⟨.S_CONNECTED, .S_DONOR⟩)
    |>.add_transition ⟨.S_CONNECTED, .S_SYNCED⟩)
    |>.add_transition ⟨.S_JOINING, .S_CLOSING⟩)
    |>.add_transition ⟨.S_JOINING, .S_CONNECTED⟩)
    |>.add_transition ⟨.S_JOINING, .S_JOINED⟩)
    |>.add_transition ⟨.S_JOINED, .S_CLOSING⟩)
    |>.add_transition ⟨.S_JOINED, .S_CONNECTED⟩)
    |>.add_transition ⟨.S_JOINED, .S_SYNCED⟩)
    |>.add_transition ⟨.S_JOINED, .S_DONOR⟩)
    |>.add_transition ⟨.S_SYNCED, .S_CLOSING⟩)
    |>.add_transition ⟨.S_SYNCED, .S_CONNECTED⟩)
    |>.add_transition ⟨.S_SYNCED, .S_DONOR⟩)
    |>.add_transition ⟨.S_DONOR, .S_CLOSING⟩)
    |>.add_transition ⟨.S_DONOR, .S_CONNECTED⟩)
    |>.add_transition ⟨.S_DONOR, .S_JOINED⟩

/-- The transition table of section 4.5 of the spec: the states that may
follow a state. -/
def spec_transitions : State → List State
  | .S_CLOSED => [.S_DESTROYED, .S_CONNECTED]
  | .S_CONNECTED =>
    [.S_CLOSING, .S_CONNECTED, .S_JOINING, .S_JOINED, .S_DONOR, .S_SYNCED]
  | .S_JOINING => [.S_CLOSING, .S_CONNECTED, .S_JOINED]
  | .S_JOINED => [.S_CLOSING, .S_CONNECTED, .S_SYNCED, .S_DONOR]
  | .S_SYNCED => [.S_CLOSING, .S_CONNECTED, .S_DONOR]
  | .S_DONOR => [.S_CLOSING, .S_CONNECTED, .S_JOINED]
  | .S_CLOSING => [.S_CLOSED]
  | .S_DESTROYED => []

end galera

namespace galera

open gu

/-- What a call of `trx.apply` does: it returns, or it throws an
`ApplyException` with a status. -/
inductive ApplyReply where
  | returned
  | threw (status : Int)
  deriving DecidableEq, Repr

/-- The application callbacks as the replicator sees them: what the call of
`trx.apply` that follows `n` earlier ones does, and what the call of
`commit_cb` that follows `n` earlier ones returns. -/
structure Callbacks where
  /-- The apply callback, behind `trx.apply`. -/
  apply : Nat → ApplyReply
  /-- The commit callback. -/
  commit : Nat → wsrep_cb_status_t

/-- The number of calls of `trx.apply` in a record of calls. -/
def apply_calls (calls : List Event) : Nat := calls.count .apply_cb

/-- The number of calls of `commit_cb` in a record of calls. -/
def commit_calls (calls : List Event) : Nat :=
  calls.count (.commit_cb true) + calls.count (.commit_cb false)

/-- The constant `max_apply_attempts` of `apply_trx_ws`. -/
def max_apply_attempts : Nat := 4

/-- The `do ... while (attempts <= max_apply_attempts)` loop of
`apply_trx_ws`: the record of calls and the value of `attempts` after the
loop. The first argument bounds the number of iterations. -/
def apply_trx_ws_loop (cb : Callbacks) (trx : TrxHandle) :
    Nat → Nat → List Event → List Event × Except Failure Nat
  | 0, _, calls => (calls, .error .loop_bound)
  | fuel + 1, attempts, calls =>
    match cb.apply (apply_calls calls) with
    | .returned => (calls ++ [.apply_cb], .ok attempts)
    | .threw err =>
      if trx.toi_ then (calls ++ [.apply_cb], .ok attempts)
      else if 0 < err then
        if cb.commit (commit_calls calls) ≠ .WSREP_CB_SUCCESS then
          (calls ++ [.apply_cb] ++ [.commit_cb false], .error .fatal)
        else if attempts + 1 ≤ max_apply_attempts then
          apply_trx_ws_loop cb trx fuel (attempts + 1)
            (calls ++ [.apply_cb] ++ [.commit_cb false])
        else (calls ++ [.apply_cb] ++ [.commit_cb false], .ok (attempts + 1))
      else (calls ++ [.apply_cb], .error (.ApplyException err))

/-- The function `apply_trx_ws`: the record of calls after it and whether it
returned. `attempts` starts at 1 and the loop is left once it exceeds
`max_apply_attempts`, so `max_apply_attempts` iterations are enough. -/
def apply_trx_ws (cb : Callbacks) (trx : TrxHandle) (calls : List Event) :
    List Event × Except Failure Unit :=
  match apply_trx_ws_loop cb trx max_apply_attempts 1 calls with
  | (calls1, .error e) => (calls1, .error e)
  | (calls1, .ok attempts) =>
    if max_apply_attempts < attempts then
      (calls1, .error (.ApplyException wsrep_cb_status_t.WSREP_CB_FAILURE.code))
    else (calls1, .ok ())

/-- How a call of `Monitor::enter` ends. -/
inductive EnterResult where
  /-- The slot was entered. -/
  | entered
  /-- The wait was interrupted: `enter` threw `EINTR`. -/
  | interrupted
  /-- The call threw another exception. -/
  | failed
  deriving DecidableEq, Repr

/-- What happens during a call of `Monitor::enter`, which waits with the
transaction unlocked: how the call ends, and whether `abort_trx` has set the
transaction to `S_MUST_ABORT` in the meantime. -/
structure EnterReply where
  /-- How the call ends. -/
  result : EnterResult
  /-- Whether the transaction was set to `S_MUST_ABORT` during the wait. -/
  bf_aborted : Bool
  deriving DecidableEq, Repr

/-- What the collaborators do during one call of `pre_commit` or `cert`. -/
structure Env where
  /-- The call of `local_monitor_.enter`. -/
  local_enter : EnterReply
  /-- The call of `apply_monitor_.enter`. -/
  apply_enter : EnterReply
  /-- The call of `commit_monitor_.enter`. -/
  commit_enter : EnterReply
  /-- The result of `cert_.append_trx`. -/
  append_trx : TestResult
  /-- The result of `cert_.test`. -/
  test : TestResult
  /-- The value of `STATE_SEQNO()`, the last seqno that left the apply
  monitor. -/
  state_seqno : Int
  deriving DecidableEq, Repr

/-- A replicator together with the transaction that a call works on. -/
abbrev Ctx := ReplicatorSMM × TrxHandle

/-- A call of `enter` on a monitor: the call is recorded, and the transaction
is in `S_MUST_ABORT` afterwards when it was aborted during the wait. -/
def monitor_enter (c : Ctx) (m : Monitor) (seqno : Int) (reply : EnterReply) :
    Ctx :=
  let r := match reply.result with
    | .entered => c.1.call (.enter m seqno)
    | .interrupted => c.1.call (.enter_interrupted m seqno)
    | .failed => c.1.call (.enter_failed m seqno)
  (r, if reply.bf_aborted then c.2.set_state .S_MUST_ABORT else c.2)

/-- The member `ReplicatorSMM::cert_for_aborted`. -/
def cert_for_aborted (env : Env) (c : Ctx) : Ctx × Except Failure wsrep_status_t :=
  let r := c.1.call .cert_test
  match env.test with
  | .TEST_OK => ((r, c.2.set_state .S_MUST_CERT_AND_REPLAY), .ok .WSREP_BF_ABORT)
  | .TEST_FAILED =>
    let trx := if c.2.state_ ≠ .S_MUST_ABORT then c.2.set_state .S_MUST_ABORT else c.2
    (((r.call .verify_checksum).call .gcache_seqno_assign, trx), .ok .WSREP_TRX_FAIL)

/-- The branch `if (!applicable)` of `ReplicatorSMM::cert`, entered with
`interrupted` as given. -/
def cert_not_applicable (c : Ctx) (interrupted : Bool) :
    Ctx × Except Failure wsrep_status_t :=
  let r :=
    if c.1.last_st_type_ = .ST_TYPE_SST ∧ c.1.cc_seqno_ < c.2.global_seqno_
        ∧ c.2.global_seqno_ ≤ c.1.sst_seqno_ then
      (((c.1.call .cert_append_trx).call .verify_checksum).call
        .gcache_seqno_assign).call .cert_set_trx_committed
    else c.1.call .gcache_free
  let trx := c.2.set_state .S_MUST_ABORT
  let r :=
    if interrupted then r.call (.self_cancel .local_monitor_ trx.local_seqno_)
    else r.call (.leave .local_monitor_ trx.local_seqno_)
  ((r, trx), .ok .WSREP_TRX_FAIL)

/-- The end of `ReplicatorSMM::cert`: on `WSREP_TRX_FAIL` the apply monitor
and, unless bypassed, the commit monitor are self-cancelled. -/
def cert_cancel_on_fail (c : Ctx) (retval : wsrep_status_t) : Ctx :=
  if retval = .WSREP_TRX_FAIL then
    let r := c.1.call (.self_cancel .apply_monitor_ c.2.global_seqno_)
    let r :=
      if r.co_mode_ ≠ .BYPASS then
        r.call (.self_cancel .commit_monitor_ c.2.global_seqno_)
      else r
    (r, c.2)
  else c

/-- The member `ReplicatorSMM::cert`. -/
def cert (env : Env) (c0 : Ctx) : Ctx × Except Failure wsrep_status_t :=
  let c1 : Ctx := (c0.1, c0.2.set_state .S_CERTIFYING)
  let c := monitor_enter c1 .local_monitor_ c1.2.local_seqno_ env.local_enter
  match env.local_enter.result with
  | .failed => (c, .error .monitor_error)
  | res =>
    let interrupted : Bool := res = .interrupted
    let applicable : Bool := env.state_seqno < c.2.global_seqno_
    if ¬ applicable then cert_not_applicable c interrupted
    else if ¬ interrupted then
      let r := c.1.call .cert_append_trx
      let step : Ctx × wsrep_status_t :=
        match env.append_trx with
        | .TEST_OK =>
          if c.2.state_ = .S_CERTIFYING then ((r, c.2), .WSREP_OK)
          else ((r, c.2.set_state .S_MUST_REPLAY_AM), .WSREP_BF_ABORT)
        | .TEST_FAILED =>
          (({ r with local_cert_failures_ :=
                r.local_cert_failures_ + (if c.2.local_ then 1 else 0) },
            c.2.set_state .S_MUST_ABORT), .WSREP_TRX_FAIL)
      let r := step.1.1
      let r :=
        if step.2 = .WSREP_TRX_FAIL then
          (r.call .cert_set_trx_committed).call .report_last_committed
        else r
      let r := (r.call .verify_checksum).call .gcache_seqno_assign
      let r := r.call (.leave .local_monitor_ c.2.local_seqno_)
      (cert_cancel_on_fail (r, step.1.2) step.2, .ok step.2)
    else
      match cert_for_aborted env c with
      | (c2, .error e) => (c2, .error e)
      | (c2, .ok retval) =>
        let r :=
          if retval = .WSREP_TRX_FAIL then
            c2.1.call (.self_cancel .local_monitor_ c2.2.local_seqno_)
          else c2.1
        (cert_cancel_on_fail (r, c2.2) retval, .ok retval)

/-- The member `ReplicatorSMM::cert_and_catch`: an exception of `cert` ends
the process. -/
def cert_and_catch (env : Env) (c : Ctx) : Ctx × Except Failure wsrep_status_t :=
  match cert env c with
  | (c1, .error _) => (c1, .error .process_abort)
  | (c1, .ok retval) => (c1, .ok retval)

/-- The statements of `ReplicatorSMM::pre_commit` that follow a successful
certification. -/
def pre_commit_apply (env : Env) (c0 : Ctx) : Ctx × Except Failure wsrep_status_t :=
  let c1 : Ctx := (c0.1, c0.2.set_state .S_APPLYING)
  let c := monitor_enter c1 .apply_monitor_ c1.2.global_seqno_ env.apply_enter
  match env.apply_enter.result with
  | .failed => (c, .error .monitor_error)
  | res =>
    let interrupted : Bool := res = .interrupted
    if interrupted ∨ c.2.state_ = .S_MUST_ABORT then
      ((c.1, c.2.set_state
          (if interrupted then .S_MUST_REPLAY_AM else .S_MUST_REPLAY_CM)),
        .ok .WSREP_BF_ABORT)
    else if c.2.f_commit_ then
      let c2 : Ctx := (c.1, c.2.set_state .S_COMMITTING)
      if c2.1.co_mode_ ≠ .BYPASS then
        let c3 := monitor_enter c2 .commit_monitor_ c2.2.global_seqno_
          env.commit_enter
        match env.commit_enter.result with
        | .failed => (c3, .error .monitor_error)
        | res2 =>
          let interrupted2 : Bool := res2 = .interrupted
          if interrupted2 ∨ c3.2.state_ = .S_MUST_ABORT then
            ((c3.1, c3.2.set_state
                (if interrupted2 then .S_MUST_REPLAY_CM else .S_MUST_REPLAY)),
              .ok .WSREP_BF_ABORT)
          else (c3, .ok .WSREP_OK)
      else (c2, .ok .WSREP_OK)
    else ((c.1, c.2.set_state .S_EXECUTING), .ok .WSREP_OK)

/-- The member `ReplicatorSMM::pre_commit`. -/
def pre_commit (env : Env) (c : Ctx) : Ctx × Except Failure wsrep_status_t :=
  if c.2.state_ = .S_MUST_ABORT then
    match cert_for_aborted env c with
    | (c1, .error e) => (c1, .error e)
    | (c1, .ok retval) =>
      let r :=
        if retval ≠ .WSREP_BF_ABORT then
          let r := c1.1.call (.self_cancel .local_monitor_ c1.2.local_seqno_)
          let r := r.call (.self_cancel .apply_monitor_ c1.2.global_seqno_)
          if r.co_mode_ ≠ .BYPASS then
            r.call (.self_cancel .commit_monitor_ c1.2.global_seqno_)
          else r
        else c1.1
      let trx :=
        if c1.2.state_ = .S_MUST_ABORT then c1.2.set_state .S_ABORTING else c1.2
      ((r, trx), .ok retval)
  else
    match cert_and_catch env c with
    | (c1, .error e) => (c1, .error e)
    | (c1, .ok retval) =>
      if retval ≠ .WSREP_OK then
        let trx :=
          if c1.2.state_ = .S_MUST_ABORT then c1.2.set_state .S_ABORTING else c1.2
        ((c1.1, trx), .ok retval)
      else pre_commit_apply env c1

/-- The member `ReplicatorSMM::connect`. The arguments `err_init` and
`err_connect` are what `gcs_.set_initial_position` and `gcs_.connect` return
when they are called. -/
def connect (r0 : ReplicatorSMM) (cluster_url state_donor : String)
    (bootstrap : Bool) (err_init err_connect : Int) :
    ReplicatorSMM × Except Failure wsrep_status_t :=
  let r := ({ r0 with sst_donor_ := state_donor }).call .service_thd_reset
  let ret : wsrep_status_t :=
    if (bootstrap = true ∨ cluster_url = "gcomm://")
        ∧ r.safe_to_bootstrap_ = false then .WSREP_NODE_FAIL
    else .WSREP_OK
  let step1 : ReplicatorSMM × wsrep_status_t :=
    if ret = .WSREP_OK then
      (r.call .gcs_set_initial_position,
        if err_init ≠ 0 then .WSREP_NODE_FAIL else ret)
    else (r, ret)
  let step2 : ReplicatorSMM × wsrep_status_t :=
    if step1.2 = .WSREP_OK then
      (step1.1.call .gcs_connect,
        if err_connect ≠ 0 then .WSREP_NODE_FAIL else step1.2)
    else step1
  if step2.2 = .WSREP_OK then
    match step2.1.state_.shift_to .S_CONNECTED with
    | .ok fsm => (({ step2.1 with state_ := fsm }).call .shift_to_connected,
        .ok step2.2)
    | .error e => (step2.1, .error e)
  else (step2.1, .ok step2.2)

/-- The calls made by `k` failed attempts of `apply_trx_ws`: `k` times a call
of `trx.apply` followed by a call of `commit_cb` with `commit = false`. -/
def retry_calls : Nat → List Event
  | 0 => []
  | k + 1 => retry_calls k ++ [.apply_cb, .commit_cb false]

end galera

namespace galera

open gu

/-- The member `ReplicatorSMM::abort_trx`. -/
def abort_trx (c : Ctx) : Ctx × Except Failure Unit :=
  match c.2.state_ with
  | .S_MUST_ABORT => (c, .ok ())
  | .S_ABORTING => (c, .ok ())
  | .S_EXECUTING => ((c.1, c.2.set_state .S_MUST_ABORT), .ok ())
  | .S_REPLICATING =>
    let trx := c.2.set_state .S_MUST_ABORT
    let r :=
      if 0 < trx.gcs_handle_ then c.1.call (.gcs_interrupt trx.gcs_handle_)
      else c.1
    ((r, trx), .ok ())
  | .S_CERTIFYING =>
    let trx := c.2.set_state .S_MUST_ABORT
    ((c.1.call (.interrupt .local_monitor_ trx.local_seqno_), trx), .ok ())
  | .S_APPLYING =>
    let trx := c.2.set_state .S_MUST_ABORT
    ((c.1.call (.interrupt .apply_monitor_ trx.global_seqno_), trx), .ok ())
  | .S_COMMITTING =>
    let trx := c.2.set_state .S_MUST_ABORT
    let r :=
      if c.1.co_mode_ ≠ .BYPASS then
        c.1.call (.interrupt .commit_monitor_ trx.global_seqno_)
      else c.1
    ((r, trx), .ok ())
  | _ => (c, .error .fatal)

/-- The first statement of `interim_commit` and of `post_commit`: a
transaction found in `S_MUST_ABORT` is set to `S_MUST_REPLAY` and then to
`S_REPLAYING`. -/
def swallow_bf_abort (trx : TrxHandle) : TrxHandle :=
  if trx.state_ = .S_MUST_ABORT then
    (trx.set_state .S_MUST_REPLAY).set_state .S_REPLAYING
  else trx

/-- The member `ReplicatorSMM::interim_commit`. -/
def interim_commit (c : Ctx) : Ctx × Except Failure wsrep_status_t :=
  let trx := swallow_bf_abort c.2
  let r :=
    if c.1.co_mode_ ≠ .BYPASS then
      c.1.call (.leave .commit_monitor_ trx.global_seqno_)
    else c.1
  ((r, { trx with interim_committed_ := true }), .ok .WSREP_OK)

/-- The member `ReplicatorSMM::to_isolation_begin`. -/
def to_isolation_begin (env : Env) (c : Ctx) :
    Ctx × Except Failure wsrep_status_t :=
  match cert_and_catch env c with
  | (c1, .error e) => (c1, .error e)
  | (c1, .ok .WSREP_OK) =>
    let c2 := monitor_enter c1 .apply_monitor_ c1.2.global_seqno_ env.apply_enter
    match env.apply_enter.result with
    | .failed => (c2, .error .monitor_error)
    | .interrupted => (c2, .error .monitor_interrupted)
    | .entered =>
      if c2.1.co_mode_ ≠ .BYPASS then
        let c3 := monitor_enter c2 .commit_monitor_ c2.2.global_seqno_
          env.commit_enter
        match env.commit_enter.result with
        | .entered =>
          ((c3.1.call .st_mark_unsafe_, c3.2.set_state .S_APPLYING), .ok .WSREP_OK)
        | _ => (c3, .error .fatal)
      else
        ((c2.1.call .st_mark_unsafe_, c2.2.set_state .S_APPLYING), .ok .WSREP_OK)
  | (c1, .ok .WSREP_TRX_FAIL) =>
    ((c1.1, c1.2.set_state .S_ABORTING), .ok .WSREP_TRX_FAIL)
  | (c1, .ok _) => (c1, .ok .WSREP_FATAL)

/-- The member `ReplicatorSMM::to_isolation_end`. -/
def to_isolation_end (c : Ctx) : Ctx × Except Failure wsrep_status_t :=
  let r :=
    if c.1.co_mode_ ≠ .BYPASS then
      c.1.call (.leave .commit_monitor_ c.2.global_seqno_)
    else c.1
  let r := (r.call .cert_set_trx_committed).call .report_last_committed
  let r := r.call (.leave .apply_monitor_ c.2.global_seqno_)
  ((r.call .st_mark_safe_, c.2), .ok .WSREP_OK)

/-- The statements of `ReplicatorSMM::apply_trx` that follow the return of
`apply_trx_ws`. -/
def apply_trx_commit (env : Env) (cb : Callbacks) (c : Ctx) :
    Ctx × Except Failure Unit :=
  let ordered : Bool := c.1.co_mode_ ≠ .BYPASS ∧ c.2.toi_
  let c1 : Ctx :=
    if ordered then
      monitor_enter c .commit_monitor_ c.2.global_seqno_ env.commit_enter
    else c
  if ordered ∧ env.commit_enter.result = .failed then (c1, .error .monitor_error)
  else if ordered ∧ env.commit_enter.result = .interrupted then
    (c1, .error .monitor_interrupted)
  else
    let trx := c1.2.set_state .S_COMMITTING
    let rcode := cb.commit (commit_calls c1.1.calls_)
    let r := c1.1.call (.commit_cb true)
    if rcode ≠ .WSREP_CB_SUCCESS then ((r, trx), .error .fatal)
    else
      let r := if ordered then r.call (.leave .commit_monitor_ trx.global_seqno_) else r
      let trx := trx.set_state .S_COMMITTED
      let r :=
        if trx.local_seqno_ ≠ -1 then
          (r.call .cert_set_trx_committed).call .report_last_committed
        else r
      let r := r.call .unordered_cb
      let r := r.call (.leave .apply_monitor_ trx.global_seqno_)
      let r := if trx.toi_ then r.call .st_mark_safe_ else r
      ((r, trx), .ok ())

/-- The member `ReplicatorSMM::apply_trx`. -/
def apply_trx (env : Env) (cb : Callbacks) (c : Ctx) : Ctx × Except Failure Unit :=
  let c1 := monitor_enter c .apply_monitor_ c.2.global_seqno_ env.apply_enter
  match env.apply_enter.result with
  | .failed => (c1, .error .monitor_error)
  | .interrupted => (c1, .error .monitor_interrupted)
  | .entered =>
    let trx := c1.2.set_state .S_APPLYING
    let r := if trx.toi_ then c1.1.call .st_mark_unsafe_ else c1.1
    match apply_trx_ws cb trx r.calls_ with
    | (calls1, .error e) => (({ r with calls_ := calls1 }, trx), .error e)
    | (calls1, .ok _) => apply_trx_commit env cb ({ r with calls_ := calls1 }, trx)

end galera

namespace galera

open gu

/-- The position of a state in `enum State`, by which `state_() < S_JOINED`
compares; the declaration (replicator_smm.hpp) is not among the sources and
the order is the one in which `operator<<` lists the states. -/
def State.rank : State → Nat
  | .S_DESTROYED => 0
  | .S_CLOSED => 1
  | .S_CLOSING => 2
  | .S_CONNECTED => 3
  | .S_JOINING => 4
  | .S_JOINED => 5
  | .S_SYNCED => 6
  | .S_DONOR => 7

/-- What `gcs_.repl` or `gcs_.replv` returns: the size of the action when it
was sent, `-EAGAIN`, `-EINTR`, or another negative code. -/
inductive ReplCode where
  | sent (size : Nat)
  | EAGAIN
  | EINTR
  | failed
  deriving DecidableEq, Repr

/-- What the group layer does in one round of the send loop of `replicate`:
the handle that `gcs_.schedule` returns, what the send returns, whether
`abort_trx` has set the transaction to `S_MUST_ABORT` while it was unlocked
for the send, and the seqnos assigned to the action. -/
structure GcsRound where
  /-- The result of `gcs_.schedule`. -/
  handle : Int
  /-- The result of `gcs_.repl` or `gcs_.replv`. -/
  rcode : ReplCode
  /-- Whether the transaction was set to `S_MUST_ABORT` during the send. -/
  bf_aborted : Bool
  /-- The local seqno of the action. -/
  seqno_l : Int
  /-- The global seqno of the action. -/
  seqno_g : Int
  deriving DecidableEq, Repr

/-- The label `must_abort` of `ReplicatorSMM::replicate`. -/
def replicate_must_abort (c : Ctx) (retval : wsrep_status_t) :
    Ctx × Except Failure wsrep_status_t :=
  ((c.1, c.2.set_state .S_ABORTING), .ok retval)

/-- The `do ... while` loop of `ReplicatorSMM::replicate`; round `n` of the
group layer is `rounds n`. The result is nothing when `gcs_.schedule` failed
(the code jumps to `must_abort`), and the last round otherwise. The first
argument bounds the number of iterations: the loop of the source runs as long
as the group layer answers `-EAGAIN`. -/
def replicate_send (rounds : Nat → GcsRound) (last_committed : Int) :
    Nat → Nat → Ctx → Ctx × Except Failure (Option GcsRound)
  | 0, _, c => (c, .error .loop_bound)
  | fuel + 1, n, c =>
    let r := c.1.call .gcs_schedule
    if (rounds n).handle < 0 then ((r, c.2.set_state .S_MUST_ABORT), .ok none)
    else
      let trx : TrxHandle := { c.2 with gcs_handle_ := (rounds n).handle }
      let trx : TrxHandle :=
        if trx.new_version_ then { trx with last_seen_seqno_ := last_committed }
        else trx
      let r := r.call (if trx.new_version_ then .gcs_replv else .gcs_repl)
      let trx : TrxHandle :=
        if (rounds n).bf_aborted then trx.set_state .S_MUST_ABORT else trx
      if (rounds n).rcode = .EAGAIN ∧ trx.state_ ≠ .S_MUST_ABORT then
        replicate_send rounds last_committed fuel (n + 1) (r, trx)
      else ((r, trx), .ok (some (rounds n)))

/-- The statements of `ReplicatorSMM::replicate` that follow a successful
send of `size` bytes in the round `g`. -/
def replicate_sent (env : Env) (g : GcsRound) (size : Nat) (c : Ctx) :
    Ctx × Except Failure wsrep_status_t :=
  let r : ReplicatorSMM :=
    { c.1 with replicated_ := c.1.replicated_ + 1,
               replicated_bytes_ := c.1.replicated_bytes_ + size }
  let trx : TrxHandle :=
    { c.2 with gcs_handle_ := -1, local_seqno_ := g.seqno_l, global_seqno_ := g.seqno_g }
  if trx.state_ = .S_MUST_ABORT then
    match cert_for_aborted env (r, trx) with
    | (c2, .error e) => (c2, .error e)
    | (c2, .ok retval) =>
      let r2 :=
        if retval ≠ .WSREP_BF_ABORT then
          let r3 := c2.1.call (.self_cancel .local_monitor_ c2.2.local_seqno_)
          let r3 := r3.call (.self_cancel .apply_monitor_ c2.2.global_seqno_)
          if r3.co_mode_ ≠ .BYPASS then
            r3.call (.self_cancel .commit_monitor_ c2.2.global_seqno_)
          else r3
        else c2.1
      if c2.2.state_ = .S_MUST_ABORT then replicate_must_abort (r2, c2.2) retval
      else ((r2, c2.2), .ok retval)
  else ((r, trx), .ok .WSREP_OK)

/-- The statements of `ReplicatorSMM::replicate` between the first checks and
the send loop: the write set is gathered or flushed (a write set of the old
version records `last_seen_seqno` here) and the state becomes
`S_REPLICATING`. -/
def replicate_prepare (last_committed : Int) (trx : TrxHandle) : TrxHandle :=
  (if trx.new_version_ then trx
    else { trx with last_seen_seqno_ := last_committed }).set_state .S_REPLICATING

/-- The member `ReplicatorSMM::replicate`; `last_committed` is the value of
`last_committed()` and `fuel` bounds the rounds of the send loop. -/
def replicate (env : Env) (rounds : Nat → GcsRound) (last_committed : Int)
    (fuel : Nat) (c : Ctx) : Ctx × Except Failure wsrep_status_t :=
  if c.1.state_.state_.rank < State.S_JOINED.rank then (c, .ok .WSREP_TRX_FAIL)
  else if c.2.state_ = .S_MUST_ABORT then replicate_must_abort c .WSREP_TRX_FAIL
  else
    match replicate_send rounds last_committed fuel 0
        (c.1, replicate_prepare last_committed c.2) with
    | (c1, .error e) => (c1, .error e)
    | (c1, .ok none) => replicate_must_abort c1 .WSREP_TRX_FAIL
    | (c1, .ok (some g)) =>
      match g.rcode with
      | .sent size => replicate_sent env g size c1
      | _ =>
        let trx1 : TrxHandle :=
          if c1.2.state_ ≠ .S_MUST_ABORT then c1.2.set_state .S_MUST_ABORT
          else c1.2
        replicate_must_abort (c1.1, { trx1 with gcs_handle_ := -1 })
          .WSREP_TRX_FAIL

/-- The map `trx_map_` of `WsdbCertification`, a `std::map` from global seqno
to transaction: the list of its entries in the order of the keys. -/
abbrev TrxMap (α : Type) := List (Int × α)

/-- The keys of a `std::map` are strictly increasing. -/
def TrxMap.ordered {α : Type} (m : TrxMap α) : Prop :=
  m.Pairwise (fun a b => a.1 < b.1)

/-- The member `lower_bound` of `std::map`: the position of the first entry
whose key is not less than `seqno`. -/
def TrxMap.lower_bound {α : Type} (m : TrxMap α) (seqno : Int) : Nat :=
  (m.takeWhile (fun e => decide (e.1 < seqno))).length

/-- The member `WsdbCertification::purge_trxs_upto`: the transactions handed
to `Unref2nd` and the map after the call. -/
def WsdbCertification.purge_trxs_upto {α : Type} (trx_map_ : TrxMap α)
    (seqno : Int) : List α × TrxMap α :=
  let lower_bound := trx_map_.lower_bound seqno
  ((trx_map_.take lower_bound).map (fun e => e.2), trx_map_.drop lower_bound)

end galera

namespace galera

open gu

/-- A slot of a monitor is held after a sequence of calls when it has been
entered more often than left. -/
def slot_held (calls : List Event) (m : Monitor) (seqno : Int) : Prop :=
  calls.count (.leave m seqno) < calls.count (.enter m seqno)

/-- A slot of a monitor is free after a sequence of calls when it has been
left as often as entered. -/
def slot_free (calls : List Event) (m : Monitor) (seqno : Int) : Prop :=
  calls.count (.leave m seqno) = calls.count (.enter m seqno)

end galera

namespace galera

open gu

end galera

namespace galera

open gu

/-- The member `Key::operator==`: the canonical byte forms are compared, the
versions are not. -/
def Key.eq (k other : Key) : Bool := decide (k.keys_ = other.keys_)

/-- The member `KeyPart0::buf`. -/
def KeyPart0.buf (kp : KeyPart0) : Buffer := kp.key_

/-- The member `KeyPart1::buf`. -/
def KeyPart1.buf (kp : KeyPart1) : Buffer := kp.buf_

/-- The loop of the constructor `Key(int version, Ci begin, Ci end)` over
parts of class `KeyPart0`: the bytes `[i->buf(), i->buf() + i->size())` of each
part are appended to `keys_`, the second argument; a range that ends past the
buffer the part points into is the error `out_of_bounds`. -/
def Key.insert_parts0 : List KeyPart0 → Buffer → Except Exn Buffer
  | [], keys_ => .ok keys_
  | kp :: rest, keys_ =>
    if kp.buf.length < kp.size then .error .out_of_bounds
    else Key.insert_parts0 rest (keys_ ++ kp.buf.take kp.size)

/-- The loop of the constructor `Key(int version, Ci begin, Ci end)` over
parts of class `KeyPart1`. -/
def Key.insert_parts1 : List KeyPart1 → Buffer → Except Exn Buffer
  | [], keys_ => .ok keys_
  | kp :: rest, keys_ =>
    if kp.buf.length < kp.size then .error .out_of_bounds
    else Key.insert_parts1 rest (keys_ ++ kp.buf.take kp.size)

/-- The constructor `Key(int version, Ci begin, Ci end)` for an iterator over
`KeyPart0`. -/
def Key.new_from_parts0 (version : Int) (parts : List KeyPart0) : Except Exn Key :=
  match Key.insert_parts0 parts [] with
  | .ok keys_ => .ok ⟨version, keys_⟩
  | .error e => .error e

/-- The constructor `Key(int version, Ci begin, Ci end)` for an iterator over
`KeyPart1`. -/
def Key.new_from_parts1 (version : Int) (parts : List KeyPart1) : Except Exn Key :=
  match Key.insert_parts1 parts [] with
  | .ok keys_ => .ok ⟨version, keys_⟩
  | .error e => .error e

/-- The byte ranges of a list of `KeyPart0` are consecutive in `keys_` from the
index `i` on and end where `keys_` ends: each part points at the index where
the part before it ends. -/
def parts0_cover (keys_ : Buffer) : Nat → List KeyPart0 → Prop
  | i, [] => i = keys_.length
  | i, kp :: rest =>
    i < keys_.length ∧ kp.buf = keys_.drop i ∧ parts0_cover keys_ (i + kp.size) rest

/-- The byte ranges of a list of `KeyPart1` are consecutive in `keys_` from the
index `i` on and end where `keys_` ends. -/
def parts1_cover (keys_ : Buffer) : Nat → List KeyPart1 → Prop
  | i, [] => i = keys_.length
  | i, kp :: rest =>
    i < keys_.length ∧ kp.buf = keys_.drop i ∧ parts1_cover keys_ (i + kp.size) rest

end galera

namespace galera

open gu

/-- One element of the array `members` of a `wsrep_view_info_t`: the C string
in its field `incoming`, without the terminating zero. -/
structure wsrep_member_info_t where
  /-- The characters of `incoming`. -/
  incoming : List Char

/-- The part of a `wsrep_view_info_t` that `update_incoming_list` reads: the
number of members and the array of members by index. -/
structure wsrep_view_info_t where
  /-- The field `memb_num`. -/
  memb_num : Int
  /-- The array `members`. -/
  members : Nat → wsrep_member_info_t

/-- The constant `separator` of `update_incoming_list`. -/
def separator : Char := ','

/-- The first loop of `update_incoming_list`, which adds `strlen` of the
address of every member to `new_size`: the arguments are the number of
iterations left, the index `i` and `new_size`. -/
def incoming_sizes (view : wsrep_view_info_t) : Nat → Nat → Int → Int
  | 0, _, new_size => new_size
  | k + 1, i, new_size =>
    incoming_sizes view k (i + 1) (new_size + (view.members i).incoming.length)

/-- The second loop of `update_incoming_list`, which appends the separator and
the address of every member from the second on: the arguments are the number
of iterations left, the index `i` and `incoming_list_`. -/
def incoming_append (view : wsrep_view_info_t) : Nat → Nat → List Char → List Char
  | 0, _, incoming_list_ => incoming_list_
  | k + 1, i, incoming_list_ =>
    incoming_append view k (i + 1)
      ((incoming_list_ ++ [separator]) ++ (view.members i).incoming)

/-- The member `ReplicatorSMM::update_incoming_list`: the value of
`incoming_list_` after the call, the only field that it writes. -/
def update_incoming_list (view : wsrep_view_info_t) : List Char :=
  let new_size : Int :=
    if 0 < view.memb_num then
      incoming_sizes view view.memb_num.toNat 0 (view.memb_num - 1)
    else 0
  let incoming_list_ : List Char := List.replicate new_size.toNat (Char.ofNat 0)
  if new_size ≤ 0 then incoming_list_
  else
    incoming_append view (view.memb_num.toNat - 1) 1 (view.members 0).incoming

end galera

/-! ## Theorems -/

namespace gu

theorem to_byte_val (n : Nat) : (to_byte n).val = n % 256 := rfl

theorem uleb128_bytes_loop_length (fuel value : Nat) :
    (uleb128_bytes_loop fuel value).length = uleb128_size_loop fuel value := by
  induction fuel generalizing value with
  | zero => simp [uleb128_bytes_loop, uleb128_size_loop]
  | succ fuel ih =>
    unfold uleb128_bytes_loop uleb128_size_loop
    split
    · simp
    · simp [ih, Nat.add_comm]

theorem uleb128_bytes_length (value : Nat) :
    (uleb128_bytes value).length = uleb128_size value :=
  uleb128_bytes_loop_length value value

theorem uleb128_size_loop_pos (fuel value : Nat) :
    0 < uleb128_size_loop fuel value := by
  cases fuel with
  | zero => simp [uleb128_size_loop]
  | succ fuel =>
    unfold uleb128_size_loop
    split <;> omega

theorem uleb128_size_pos (value : Nat) : 0 < uleb128_size value :=
  uleb128_size_loop_pos value value

theorem uleb128_encode_loop_append (fuel : Nat) :
    ∀ (value : Nat) (pre mid post : Buffer), value ≤ fuel →
      mid.length = (uleb128_bytes_loop fuel value).length →
      uleb128_encode_loop (fuel + 1) value (pre ++ mid ++ post) pre.length
        = (pre ++ uleb128_bytes_loop fuel value ++ post,
            .ok (pre.length + mid.length)) := by
  induction fuel with
  | zero =>
    intro value pre mid post hv hmid
    have hv0 : value = 0 := by omega
    subst hv0
    simp only [uleb128_bytes_loop, List.length_singleton] at hmid
    obtain ⟨m, rfl⟩ := List.length_eq_one.mp hmid
    simp [uleb128_encode_loop, uleb128_bytes_loop]
  | succ fuel ih =>
    intro value pre mid post hv hmid
    unfold uleb128_encode_loop
    unfold uleb128_bytes_loop at hmid ⊢
    by_cases h0 : value / 128 = 0
    · simp only [h0, if_true, List.length_singleton] at hmid ⊢
      obtain ⟨m, rfl⟩ := List.length_eq_one.mp hmid
      simp
    · simp only [h0, if_false, List.length_cons] at hmid ⊢
      cases mid with
      | nil => simp at hmid
      | cons m mid =>
        have hlen : (pre ++ m :: mid ++ post).length ≤ pre.length ↔ False := by
          simp
        simp only [hlen, if_false]
        have hset : (pre ++ m :: mid ++ post).set pre.length
            (to_byte (value % 128 + 128))
            = (pre ++ [to_byte (value % 128 + 128)]) ++ mid ++ post := by
          simp [List.set_append]
        have hpl : pre.length + 1
            = (pre ++ [to_byte (value % 128 + 128)]).length := by simp
        rw [hset, hpl, ih (value / 128) _ mid post (by omega) (by simpa using hmid)]
        simp
        omega

theorem uleb128_encode_append (value : Nat) (pre mid post : Buffer)
    (hmid : mid.length = uleb128_size value) :
    uleb128_encode value (pre ++ mid ++ post) pre.length
      = (pre ++ uleb128_bytes value ++ post,
          .ok (pre.length + uleb128_size value)) := by
  have h := uleb128_encode_loop_append value value pre mid post (Nat.le_refl _)
    (by rw [hmid, uleb128_bytes_loop_length]; rfl)
  rw [hmid] at h
  exact h

theorem uleb128_decode_from_bytes_loop (fuel : Nat) :
    ∀ (value : Nat) (post : Buffer), value ≤ fuel →
      uleb128_decode_from (uleb128_bytes_loop fuel value ++ post)
        = some (value, (uleb128_bytes_loop fuel value).length) := by
  induction fuel with
  | zero =>
    intro value post hv
    have hv0 : value = 0 := by omega
    subst hv0
    simp [uleb128_bytes_loop, uleb128_decode_from, to_byte_val]
  | succ fuel ih =>
    intro value post hv
    unfold uleb128_bytes_loop
    by_cases h0 : value / 128 = 0
    · have hlt : value < 128 := by omega
      have h1 : value % 128 % 256 = value := by omega
      simp [h0, uleb128_decode_from, to_byte_val, h1, hlt]
    · have h1 : ¬ ((value % 128 + 128) % 256 < 128) := by omega
      simp only [h0, if_false, List.cons_append, uleb128_decode_from, to_byte_val,
        h1, ih (value / 128) post (by omega), List.length_cons]
      simp
      omega

theorem uleb128_decode_from_bytes (value : Nat) (post : Buffer) :
    uleb128_decode_from (uleb128_bytes value ++ post)
      = some (value, uleb128_size value) := by
  rw [← uleb128_bytes_length]
  exact uleb128_decode_from_bytes_loop value value post (Nat.le_refl _)

theorem uleb128_decode_append (value : Nat) (pre post : Buffer) :
    uleb128_decode (pre ++ uleb128_bytes value ++ post) pre.length
      = .ok (pre.length + uleb128_size value, value) := by
  unfold uleb128_decode
  simp [List.append_assoc, uleb128_decode_from_bytes]

end gu

namespace galera

open gu

theorem append_parts0_ok (ks : List wsrep_key_t) :
    ∀ (acc : Buffer), (∀ k ∈ ks, k.key_len ≤ 256) →
      Key.append_parts0 ks acc = .ok (acc ++ ks.flatMap part0_appended) := by
  induction ks with
  | nil => intro acc _; simp [Key.append_parts0]
  | cons k ks ih =>
    intro acc h
    have hk : ¬ 256 < k.key_len := by
      have := h k (List.mem_cons_self _ _)
      omega
    simp only [Key.append_parts0, hk, if_false]
    rw [ih _ (fun k' hk' => h k' (List.mem_cons_of_mem _ hk'))]
    simp [part0_appended, List.flatMap_cons]

theorem append_parts0_error (ks : List wsrep_key_t) :
    ∀ (acc : Buffer), (∃ k ∈ ks, 256 < k.key_len) →
      Key.append_parts0 ks acc = .error .EINVAL := by
  induction ks with
  | nil => intro acc h; simp at h
  | cons k ks ih =>
    intro acc h
    by_cases hk : 256 < k.key_len
    · simp [Key.append_parts0, hk]
    · simp only [Key.append_parts0, hk, if_false]
      apply ih
      obtain ⟨k', hk', hlen⟩ := h
      rcases List.mem_cons.mp hk' with rfl | hmem
      · exact absurd hlen hk
      · exact ⟨k', hmem, hlen⟩

theorem part0_appended_eq_bytes (k : wsrep_key_t) (h : k.key_len ≤ 255) :
    part0_appended k = part0_bytes k := by
  have hv : (to_byte k.key_len).val = k.key.length := by
    simp only [to_byte_val, wsrep_key_t.key_len] at h ⊢
    omega
  simp [part0_appended, part0_bytes, hv]

theorem flatMap_part0_appended_eq (ks : List wsrep_key_t)
    (h : ∀ k ∈ ks, k.key_len ≤ 255) :
    ks.flatMap part0_appended = ks.flatMap part0_bytes := by
  induction ks with
  | nil => rfl
  | cons k ks ih =>
    simp only [List.flatMap_cons]
    rw [part0_appended_eq_bytes k (h k (List.mem_cons_self _ _)),
      ih (fun k' hk' => h k' (List.mem_cons_of_mem _ hk'))]

theorem append_parts1_ok (ks : List wsrep_key_t) :
    ∀ (acc : Buffer),
      Key.append_parts1 ks acc = .ok (acc ++ ks.flatMap part1_bytes) := by
  induction ks with
  | nil => intro acc; simp [Key.append_parts1]
  | cons k ks ih =>
    intro acc
    have henc := uleb128_encode_append k.key_len acc
      (List.replicate (uleb128_size k.key_len) (0 : byte_t)) [] (by simp)
    simp only [List.append_nil] at henc
    simp only [Key.append_parts1, henc]
    rw [ih]
    simp [part1_bytes, List.flatMap_cons]

theorem part0_appended_length_le (k : wsrep_key_t) :
    (part0_appended k).length ≤ 256 := by
  have h := (to_byte k.key_len).isLt
  simp only [part0_appended, List.length_cons, List.length_take]
  omega

theorem flatMap_part0_appended_length_le (ks : List wsrep_key_t) :
    (ks.flatMap part0_appended).length ≤ 256 * ks.length := by
  induction ks with
  | nil => simp
  | cons k ks ih =>
    have := part0_appended_length_le k
    simp only [List.flatMap_cons, List.length_append, List.length_cons]
    omega

theorem key_parts0_loop_parts (ks : List wsrep_key_t) :
    ∀ (fuel : Nat) (pre : Buffer) (ret : List KeyPart0),
      (∀ k ∈ ks, k.key_len ≤ 255) → ks.length < fuel →
      ∃ kps, key_parts0_loop (pre ++ ks.flatMap part0_bytes) fuel pre.length ret
          = .ok (ret ++ kps) ∧ List.Forall₂ KeyPart0.holds kps ks := by
  induction ks with
  | nil =>
    intro fuel pre ret _ hfuel
    obtain ⟨f, rfl⟩ : ∃ f, fuel = f + 1 := ⟨fuel - 1, by simp at hfuel; omega⟩
    exact ⟨[], by simp [key_parts0_loop], List.Forall₂.nil⟩
  | cons k ks ih =>
    intro fuel pre ret hle hfuel
    obtain ⟨f, rfl⟩ : ∃ f, fuel = f + 1 := ⟨fuel - 1, by omega⟩
    have hk : k.key_len ≤ 255 := hle k (List.mem_cons_self _ _)
    have hb : (to_byte k.key_len).val = k.key.length := by
      simp only [to_byte_val, wsrep_key_t.key_len] at hk ⊢
      omega
    have hdrop : List.drop pre.length
        (pre ++ (k :: ks).flatMap part0_bytes)
        = to_byte k.key_len :: (k.key ++ ks.flatMap part0_bytes) := by
      simp [List.flatMap_cons, part0_bytes]
    have hlt : pre.length < (pre ++ (k :: ks).flatMap part0_bytes).length := by
      simp [List.flatMap_cons, part0_bytes]
    have hpre : pre.length + (1 + k.key.length) = (pre ++ part0_bytes k).length := by
      simp [part0_bytes]
      omega
    have hkeys : pre ++ (k :: ks).flatMap part0_bytes
        = (pre ++ part0_bytes k) ++ ks.flatMap part0_bytes := by
      simp [List.flatMap_cons]
    obtain ⟨kps, hrun, hall⟩ := ih f (pre ++ part0_bytes k)
      (ret ++ [⟨to_byte k.key_len :: (k.key ++ ks.flatMap part0_bytes)⟩])
      (fun k' hk' => hle k' (List.mem_cons_of_mem _ hk'))
      (by simp at hfuel; omega)
    refine ⟨⟨to_byte k.key_len :: (k.key ++ ks.flatMap part0_bytes)⟩ :: kps, ?_, ?_⟩
    · unfold key_parts0_loop
      simp only [hlt, if_true, hdrop, KeyPart0.size, List.headD_cons, hb, hpre]
      rw [hkeys, hrun]
      simp
    · refine List.Forall₂.cons ?_ hall
      have hb2 : (to_byte k.key.length).val = k.key.length := hb
      simp [KeyPart0.holds, KeyPart0.key_len, KeyPart0.size, KeyPart0.key, hb2,
        wsrep_key_t.key_len]

theorem key_parts1_loop_parts (ks : List wsrep_key_t) :
    ∀ (fuel : Nat) (pre : Buffer) (ret : List KeyPart1), ks.length < fuel →
      ∃ kps, key_parts1_loop (pre ++ ks.flatMap part1_bytes) fuel pre.length ret
          = .ok (ret ++ kps) ∧ List.Forall₂ KeyPart1.holds kps ks := by
  induction ks with
  | nil =>
    intro fuel pre ret hfuel
    obtain ⟨f, rfl⟩ : ∃ f, fuel = f + 1 := ⟨fuel - 1, by simp at hfuel; omega⟩
    exact ⟨[], by simp [key_parts1_loop], List.Forall₂.nil⟩
  | cons k ks ih =>
    intro fuel pre ret hfuel
    obtain ⟨f, rfl⟩ : ∃ f, fuel = f + 1 := ⟨fuel - 1, by omega⟩
    have hpos := uleb128_size_pos k.key_len
    have hdec : uleb128_decode (pre ++ (k :: ks).flatMap part1_bytes) pre.length
        = .ok (pre.length + uleb128_size k.key_len, k.key_len) := by
      have := uleb128_decode_append k.key_len pre (k.key ++ ks.flatMap part1_bytes)
      simpa [List.flatMap_cons, part1_bytes, List.append_assoc] using this
    have hdrop : List.drop pre.length (pre ++ (k :: ks).flatMap part1_bytes)
        = part1_bytes k ++ ks.flatMap part1_bytes := by
      simp [List.flatMap_cons]
    have hlt : pre.length < (pre ++ (k :: ks).flatMap part1_bytes).length := by
      simp [List.flatMap_cons, part1_bytes, uleb128_bytes_length]
      omega
    have hsize : k.key_len + (pre.length + uleb128_size k.key_len - pre.length)
        = (part1_bytes k).length := by
      simp [part1_bytes, uleb128_bytes_length, wsrep_key_t.key_len]
      omega
    have hpre : pre.length + (part1_bytes k).length = (pre ++ part1_bytes k).length := by
      simp
    have hkeys : pre ++ (k :: ks).flatMap part1_bytes
        = (pre ++ part1_bytes k) ++ ks.flatMap part1_bytes := by
      simp [List.flatMap_cons]
    obtain ⟨kps, hrun, hall⟩ := ih f (pre ++ part1_bytes k)
      (ret ++ [⟨part1_bytes k ++ ks.flatMap part1_bytes, (part1_bytes k).length⟩])
      (by simp at hfuel; omega)
    refine ⟨⟨part1_bytes k ++ ks.flatMap part1_bytes, (part1_bytes k).length⟩ :: kps,
      ?_, ?_⟩
    · unfold key_parts1_loop
      simp only [hlt, if_true, hdec, hdrop, KeyPart1.size, hsize, hpre]
      rw [hkeys, hrun]
      simp
    · refine List.Forall₂.cons ?_ hall
      have hd := uleb128_decode_append k.key_len [] k.key
      simp only [List.nil_append, List.length_nil, Nat.zero_add] at hd
      refine ⟨?_, ?_, ?_⟩
      · simp [KeyPart1.size, part1_bytes, uleb128_bytes_length, wsrep_key_t.key_len]
      · have hd2 : uleb128_decode (part1_bytes k) 0
            = .ok (uleb128_size k.key_len, k.key_len) := hd
        simp [KeyPart1.key_len, hd2]
      · simp [KeyPart1.bytes]

end galera

namespace gu

theorem take_set_of_le (l : Buffer) (a : byte_t) (o n : Nat) (h : o ≤ n) :
    (l.set n a).take o = l.take o := by
  rcases Nat.lt_or_ge o n with h1 | h1
  · exact List.take_set_of_lt a l h1
  · have : o = n := by omega
    subst this
    rw [List.set_eq_take_append_cons_drop]
    split
    · rw [List.take_append_of_le_length (by simp; omega)]
      simp
    · rfl

theorem uleb128_encode_loop_overflow (fuel : Nat) :
    ∀ (value : Nat) (buf : Buffer) (offset : Nat), value ≤ fuel →
      buf.length < offset + (uleb128_bytes_loop fuel value).length →
      (uleb128_encode_loop (fuel + 1) value buf offset).2 = .error .fatal ∧
      (uleb128_encode_loop (fuel + 1) value buf offset).1.length = buf.length ∧
      ∀ o, o ≤ offset →
        (uleb128_encode_loop (fuel + 1) value buf offset).1.take o = buf.take o := by
  induction fuel with
  | zero =>
    intro value buf offset hv hlen
    have hle : buf.length ≤ offset := by
      simp [uleb128_bytes_loop] at hlen
      omega
    simp [uleb128_encode_loop, hle]
  | succ fuel ih =>
    intro value buf offset hv hlen
    unfold uleb128_encode_loop
    unfold uleb128_bytes_loop at hlen
    by_cases hle : buf.length ≤ offset
    · simp [hle]
    · by_cases h0 : value / 128 = 0
      · simp [h0] at hlen
        omega
      · simp only [h0, if_false, List.length_cons] at hlen
        simp only [hle, h0, if_false]
        obtain ⟨h1, h2, h3⟩ := ih (value / 128)
          (buf.set offset (to_byte (value % 128 + 128))) (offset + 1) (by omega)
          (by rw [List.length_set]; omega)
        refine ⟨h1, by rw [h2, List.length_set], ?_⟩
        intro o ho
        rw [h3 o (by omega), take_set_of_le _ _ _ _ ho]

theorem uleb128_encode_overflow (value : Nat) (buf : Buffer) (offset : Nat)
    (h : buf.length < offset + uleb128_size value) :
    (uleb128_encode value buf offset).2 = .error .fatal ∧
    (uleb128_encode value buf offset).1.length = buf.length ∧
    (uleb128_encode value buf offset).1.take offset = buf.take offset := by
  obtain ⟨h1, h2, h3⟩ := uleb128_encode_loop_overflow value value buf offset
    (Nat.le_refl _) (by rw [uleb128_bytes_loop_length]; exact h)
  exact ⟨h1, h2, h3 offset (Nat.le_refl _)⟩

theorem uleb128_encode_fits (value : Nat) (buf : Buffer) (offset : Nat)
    (h : offset + uleb128_size value ≤ buf.length) :
    uleb128_encode value buf offset
      = (buf.take offset ++ uleb128_bytes value
          ++ buf.drop (offset + uleb128_size value),
          .ok (offset + uleb128_size value)) := by
  have hsplit : buf = buf.take offset
      ++ (buf.drop offset).take (uleb128_size value)
      ++ buf.drop (offset + uleb128_size value) := by
    rw [List.append_assoc, ← List.drop_drop, List.take_append_drop,
      List.take_append_drop]
  have hpre : (buf.take offset).length = offset := by
    rw [List.length_take]; omega
  have hmid : ((buf.drop offset).take (uleb128_size value)).length
      = uleb128_size value := by
    rw [List.length_take, List.length_drop]; omega
  have := uleb128_encode_append value (buf.take offset)
    ((buf.drop offset).take (uleb128_size value))
    (buf.drop (offset + uleb128_size value)) hmid
  rw [← hsplit, hpre] at this
  exact this

end gu

namespace galera

open gu

theorem Key.new_zero (keys : List wsrep_key_t) :
    Key.new 0 keys =
      if 255 < keys.length ∨ (∃ k ∈ keys, 256 < k.key_len) then .error .EINVAL
      else .ok ⟨0, keys.flatMap part0_appended⟩ := by
  unfold Key.new
  by_cases hlen : 255 < keys.length
  · simp [hlen]
  · by_cases hpart : ∃ k ∈ keys, 256 < k.key_len
    · simp [hlen, hpart, append_parts0_error keys [] hpart]
    · have hall : ∀ k ∈ keys, k.key_len ≤ 256 := by
        intro k hk
        by_contra hc
        exact hpart ⟨k, hk, by omega⟩
      rw [append_parts0_ok keys [] hall]
      simp only [hlen, hpart, or_self, if_false, if_true, List.nil_append]

theorem Key.new_one (keys : List wsrep_key_t) :
    Key.new 1 keys =
      if 255 < keys.length then .error .EINVAL
      else .ok ⟨1, keys.flatMap part1_bytes⟩ := by
  unfold Key.new
  by_cases hlen : 255 < keys.length
  · simp [hlen]
  · rw [append_parts1_ok keys []]
    simp [hlen]

theorem Key.new_ok_bytes (version : Int) (keys : List wsrep_key_t) (k : Key)
    (hk : Key.new version keys = .ok k) :
    k.version_ = version ∧ (version = 0 → k.keys_.length ≤ 65535) := by
  by_cases h0 : version = 0
  · subst h0
    rw [Key.new_zero] at hk
    split at hk
    · cases hk
    · rename_i hc
      have hlen : keys.length ≤ 255 := by
        by_contra hgt
        exact hc (Or.inl (by omega))
      have := flatMap_part0_appended_length_le keys
      injection hk with hk
      subst hk
      exact ⟨rfl, fun _ => by simp only; omega⟩
  · unfold Key.new at hk
    simp only [h0, if_false] at hk
    split at hk
    · cases hk
    · split at hk
      · split at hk
        · injection hk with hk
          subst hk
          exact ⟨rfl, fun h => absurd h h0⟩
        · cases hk
      · cases hk

theorem serialize_u16_fits (b buf : Buffer) (offset : Nat)
    (hb : b.length ≤ 65535) (hfit : offset + (2 + b.length) ≤ buf.length) :
    serialize_u16 b buf offset
      = (buf.take offset ++ u16_bytes b.length ++ b
          ++ buf.drop (offset + (2 + b.length)), .ok (offset + (2 + b.length))) := by
  unfold serialize_u16 serial_size_u16
  have h1 : ¬ 65535 < b.length := by omega
  have h2 : ¬ buf.length < offset + (2 + b.length) := by omega
  simp only [h1, h2, if_false]

theorem unserialize_u16_written (pre b post : Buffer) (hb : b.length ≤ 65535) :
    unserialize_u16 (pre ++ u16_bytes b.length ++ b ++ post) pre.length
      = .ok (b, pre.length + (2 + b.length)) := by
  have hdrop : List.drop pre.length (pre ++ u16_bytes b.length ++ b ++ post)
      = to_byte b.length :: to_byte (b.length / 256) :: (b ++ post) := by
    simp [u16_bytes, List.append_assoc]
  have hval : (to_byte b.length).val + 256 * (to_byte (b.length / 256)).val
      = b.length := by
    simp only [to_byte_val]
    omega
  unfold unserialize_u16
  rw [hdrop]
  simp only [hval]
  have h1 : ¬ (b ++ post).length < b.length := by simp
  simp only [h1, if_false, List.take_left]
  congr 2
  omega

theorem serialize_v1_fits (key : Key) (buf : Buffer) (offset : Nat)
    (hv : key.version_ = 1)
    (hfit : offset + (uleb128_size key.keys_.length + key.keys_.length) ≤ buf.length) :
    serialize key buf offset
      = (buf.take offset ++ uleb128_bytes key.keys_.length ++ key.keys_
          ++ buf.drop (offset + (uleb128_size key.keys_.length + key.keys_.length)),
          .ok (offset + (uleb128_size key.keys_.length + key.keys_.length))) := by
  have hpre : (buf.take offset).length = offset := by
    rw [List.length_take]; omega
  have hlen1 : (buf.take offset ++ uleb128_bytes key.keys_.length).length
      = offset + uleb128_size key.keys_.length := by
    rw [List.length_append, hpre, uleb128_bytes_length]
  unfold serialize
  have h0 : key.version_ ≠ 0 := by rw [hv]; decide
  simp only [h0, hv, if_false, if_true]
  rw [uleb128_encode_fits _ _ _ (by omega)]
  simp only
  have hlen : ¬ (buf.take offset ++ uleb128_bytes key.keys_.length
      ++ buf.drop (offset + uleb128_size key.keys_.length)).length
      < offset + uleb128_size key.keys_.length + key.keys_.length := by
    simp only [List.length_append, hpre, uleb128_bytes_length, List.length_drop]
    omega
  simp only [hlen, if_false]
  rw [← hlen1, List.take_left, List.drop_append, List.drop_drop, hlen1]
  simp [Nat.add_assoc]

theorem unserialize_v1_written (version : Int) (pre b post : Buffer)
    (hv : version = 1) :
    unserialize (pre ++ uleb128_bytes b.length ++ b ++ post) pre.length
        (Key.empty version)
      = .ok (⟨version, b⟩, pre.length + (uleb128_size b.length + b.length)) := by
  have hdec := uleb128_decode_append b.length pre (b ++ post)
  rw [← List.append_assoc] at hdec
  have hlen1 : (pre ++ uleb128_bytes b.length).length
      = pre.length + uleb128_size b.length := by
    rw [List.length_append, uleb128_bytes_length]
  unfold unserialize
  have h0 : (Key.empty version).version_ ≠ 0 := by rw [hv]; decide
  have h1 : (Key.empty version).version_ = 1 := hv
  simp only [h0, h1, if_false, if_true, hdec]
  have hlen : ¬ (pre ++ uleb128_bytes b.length ++ b ++ post).length
      < pre.length + uleb128_size b.length + b.length := by
    simp only [List.length_append, uleb128_bytes_length]
    omega
  simp only [hlen, if_false]
  rw [← hlen1, List.append_assoc _ b post, List.drop_left, List.take_left, hlen1]
  simp [Nat.add_assoc, hv]

/-- C6: constructing a version-0 `Key` throws `EINVAL` exactly when more than
255 parts are given or some part is longer than 256 bytes; in every other case
the constructor returns a key. -/
theorem C6_key0_einval_iff (keys : List wsrep_key_t) :
    ((255 < keys.length ∨ ∃ k ∈ keys, 256 < k.key_len) ∧
        Key.new 0 keys = .error .EINVAL) ∨
    (¬ (255 < keys.length ∨ ∃ k ∈ keys, 256 < k.key_len) ∧
        ∃ key, Key.new 0 keys = .ok key) := by
  rw [Key.new_zero]
  by_cases h : 255 < keys.length ∨ ∃ k ∈ keys, 256 < k.key_len
  · exact Or.inl ⟨h, by rw [if_pos h]⟩
  · exact Or.inr ⟨h, ⟨_, by rw [if_neg h]⟩⟩

set_option maxRecDepth 4096

/-- C7, at a part of 256 bytes: the constructor accepts the part, stores the
length byte 0 and none of the 256 bytes, and `key_parts0` returns a part of
length 0 with no content. -/
theorem C7_key0_part_of_256_bytes :
    wsrep_key_t.key_len ⟨List.replicate 256 7⟩ = 256 ∧
    Key.new 0 [⟨List.replicate 256 7⟩] = .ok ⟨0, [0]⟩ ∧
    Key.key_parts0 ⟨0, [0]⟩ = .ok [⟨[0]⟩] ∧
    KeyPart0.key_len ⟨[0]⟩ = 0 ∧ KeyPart0.key ⟨[0]⟩ = [] := by
  decide

/-- For parts of at most 255 bytes the version-0 constructor stores one length
byte followed by all the bytes of each part, and `key_parts0` returns the
parts with their lengths and contents. -/
theorem key0_canonical_form_of_short_parts (keys : List wsrep_key_t)
    (hlen : keys.length ≤ 255) (hparts : ∀ k ∈ keys, k.key_len ≤ 255) :
    Key.new 0 keys = .ok ⟨0, keys.flatMap part0_bytes⟩ ∧
    ∃ kps, Key.key_parts0 ⟨0, keys.flatMap part0_bytes⟩ = .ok kps ∧
      List.Forall₂ (fun kp k => kp.key_len = k.key_len ∧ kp.key = k.key)
        kps keys := by
  constructor
  · rw [Key.new_zero, if_neg, flatMap_part0_appended_eq keys hparts]
    rintro (h | ⟨k, hk, h⟩)
    · omega
    · have := hparts k hk
      omega
  · have hfuel : keys.length < (keys.flatMap part0_bytes).length + 1 := by
      have : keys.length ≤ (keys.flatMap part0_bytes).length := by
        clear hlen hparts
        induction keys with
        | nil => simp
        | cons k ks ih =>
          simp only [List.flatMap_cons, List.length_append, List.length_cons,
            part0_bytes]
          omega
      omega
    obtain ⟨kps, hrun, hall⟩ := key_parts0_loop_parts keys
      ((keys.flatMap part0_bytes).length + 1) [] [] hparts hfuel
    refine ⟨kps, by simpa [Key.key_parts0] using hrun, ?_⟩
    exact hall.imp (fun _ _ h => ⟨h.1, h.2.2⟩)

/-- C8: for at most 255 parts of any length the version-1 constructor returns
the key whose canonical bytes are, part by part, the ULEB128 encoding of the
length followed by the bytes of the part, and `key_parts1` returns one part
per given part, of size `uleb128_size len + len` and with `key_len` equal to
`len`. -/
theorem C8_key1_canonical_form (keys : List wsrep_key_t)
    (hlen : keys.length ≤ 255) :
    Key.new 1 keys
      = .ok ⟨1, keys.flatMap (fun k => uleb128_bytes k.key_len ++ k.key)⟩ ∧
    ∃ kps, Key.key_parts1
        ⟨1, keys.flatMap (fun k => uleb128_bytes k.key_len ++ k.key)⟩ = .ok kps ∧
      kps.length = keys.length ∧
      List.Forall₂ (fun kp k =>
          kp.size = uleb128_size k.key_len + k.key_len ∧
          kp.key_len = .ok k.key_len) kps keys := by
  have hfun : (fun k : wsrep_key_t => uleb128_bytes k.key_len ++ k.key)
      = part1_bytes := rfl
  rw [hfun]
  constructor
  · rw [Key.new_one, if_neg (by omega)]
  · have hfuel : keys.length < (keys.flatMap part1_bytes).length + 1 := by
      have : keys.length ≤ (keys.flatMap part1_bytes).length := by
        clear hlen
        induction keys with
        | nil => simp
        | cons k ks ih =>
          have := uleb128_size_pos k.key_len
          simp only [List.flatMap_cons, List.length_append, List.length_cons,
            part1_bytes, uleb128_bytes_length]
          omega
      omega
    obtain ⟨kps, hrun, hall⟩ := key_parts1_loop_parts keys
      ((keys.flatMap part1_bytes).length + 1) [] [] hfuel
    refine ⟨kps, by simpa [Key.key_parts1] using hrun, hall.length_eq, ?_⟩
    exact hall.imp (fun _ _ h => ⟨h.1, h.2.1⟩)

/-- Witness of C8 at the parts `[1, 2, 3]` and `[]`. -/
theorem C8_key1_canonical_form_witness :
    Key.new 1 [⟨[1, 2, 3]⟩, ⟨[]⟩] = .ok ⟨1, [3, 1, 2, 3, 0]⟩ ∧
    ∃ kps, Key.key_parts1 ⟨1, [3, 1, 2, 3, 0]⟩ = .ok kps ∧ kps.length = 2 :=
  have h := C8_key1_canonical_form [⟨[1, 2, 3]⟩, ⟨[]⟩] (by decide)
  ⟨h.1, h.2.imp (fun _ hk => ⟨hk.1, hk.2.1⟩)⟩

/-- C1: a key built by the constructor for version 0 or 1, serialized at any
offset of a buffer with at least `serial_size` bytes after the offset, is read
back by `unserialize` into a key of the same version as the same key, and
`unserialize` returns the offset that `serialize` returned. -/
theorem C1_key_serialize_roundtrip (version : Int) (keys : List wsrep_key_t)
    (k : Key) (s : Nat) (buf : Buffer) (offset : Nat)
    (hv : version = 0 ∨ version = 1)
    (hk : Key.new version keys = .ok k)
    (hs : serial_size k = .ok s)
    (hfit : offset + s ≤ buf.length) :
    ∃ buf1, serialize k buf offset = (buf1, .ok (offset + s)) ∧
      unserialize buf1 offset (Key.empty version) = .ok (k, offset + s) := by
  obtain ⟨hkv, hbound⟩ := Key.new_ok_bytes version keys k hk
  have hpre : (buf.take offset).length = offset := by
    rw [List.length_take]; omega
  rcases hv with h0 | h1
  · have hk0 : k.version_ = 0 := by rw [hkv, h0]
    have hs0 : s = 2 + k.keys_.length := by
      simp [serial_size, serial_size_u16, hk0] at hs
      exact hs.symm
    subst hs0
    have hn := hbound h0
    have hser : serialize k buf offset = serialize_u16 k.keys_ buf offset := by
      unfold serialize
      rw [if_pos hk0]
    refine ⟨_, by rw [hser, serialize_u16_fits _ _ _ hn hfit], ?_⟩
    have hun := unserialize_u16_written (buf.take offset) k.keys_
      (buf.drop (offset + (2 + k.keys_.length))) hn
    rw [hpre] at hun
    unfold unserialize
    have he : (Key.empty version).version_ = 0 := h0
    rw [if_pos he, hun]
    cases k
    simp_all
  · have hk1 : k.version_ = 1 := by rw [hkv, h1]
    have hk0 : k.version_ ≠ 0 := by rw [hk1]; decide
    have hs1 : s = uleb128_size k.keys_.length + k.keys_.length := by
      simp [serial_size, hk0, hk1] at hs
      exact hs.symm
    subst hs1
    refine ⟨_, serialize_v1_fits k buf offset hk1 hfit, ?_⟩
    have hun := unserialize_v1_written version (buf.take offset) k.keys_
      (buf.drop (offset + (uleb128_size k.keys_.length + k.keys_.length))) h1
    rw [hpre] at hun
    rw [hun]
    cases k
    simp_all

/-- Witness of C1 at the version-1 key of the parts `[1, 2]` and `[3]`,
serialized at offset 1 of a buffer of 8 bytes. -/
theorem C1_key_serialize_roundtrip_witness :
    ∃ buf1, serialize ⟨1, [2, 1, 2, 1, 3]⟩ [0, 0, 0, 0, 0, 0, 0, 0] 1
        = (buf1, .ok (1 + 6)) ∧
      unserialize buf1 1 (Key.empty 1) = .ok (⟨1, [2, 1, 2, 1, 3]⟩, 1 + 6) :=
  C1_key_serialize_roundtrip 1 [⟨[1, 2]⟩, ⟨[3]⟩] ⟨1, [2, 1, 2, 1, 3]⟩ 6
    [0, 0, 0, 0, 0, 0, 0, 0] 1 (Or.inr rfl) (by decide) (by decide) (by decide)

end galera

namespace galera

open gu

/-- C2: the transitions that the `ReplicatorSMM` constructor registers are
those of the table of section 4.5 of the spec and no others, each registered
once; no transition leaves `S_DESTROYED`, and `S_CONNECTED` is the only state
with a transition to itself. -/
theorem C2_registered_transitions_are_spec_table :
    (∀ a b : State, (⟨a, b⟩ : Transition) ∈ ReplicatorSMM.ctor_state_.trans_
      ↔ b ∈ spec_transitions a) ∧
    ReplicatorSMM.ctor_state_.trans_.Nodup ∧
    (∀ b : State, (⟨.S_DESTROYED, b⟩ : Transition)
      ∉ ReplicatorSMM.ctor_state_.trans_) ∧
    (∀ a : State, (⟨a, a⟩ : Transition) ∈ ReplicatorSMM.ctor_state_.trans_
      ↔ a = .S_CONNECTED) := by
  refine ⟨?_, by decide, ?_, ?_⟩
  · intro a b
    cases a <;> cases b <;> decide
  · intro b
    cases b <;> decide
  · intro a
    cases a <;> decide

theorem apply_trx_ws_loop_apply_calls (cb : Callbacks) (trx : TrxHandle)
    (fuel : Nat) :
    ∀ (attempts : Nat) (calls : List Event),
      apply_calls (apply_trx_ws_loop cb trx fuel attempts calls).1
        ≤ apply_calls calls + fuel := by
  induction fuel with
  | zero => intro attempts calls; simp [apply_trx_ws_loop]
  | succ fuel ih =>
    intro attempts calls
    unfold apply_trx_ws_loop
    split
    · simp [apply_calls]
    · split
      · simp [apply_calls]
      · split
        · split
          · simp [apply_calls]
          · split
            · refine Nat.le_trans (ih _ _) ?_
              simp [apply_calls]
              omega
            · simp [apply_calls]
        · simp [apply_calls]

theorem apply_trx_ws_calls_eq (cb : Callbacks) (trx : TrxHandle)
    (calls : List Event) :
    (apply_trx_ws cb trx calls).1
      = (apply_trx_ws_loop cb trx max_apply_attempts 1 calls).1 := by
  unfold apply_trx_ws
  split
  · rename_i h; rw [h]
  · rename_i h; rw [h]; split <;> rfl

end galera

namespace galera

open gu

theorem retry_calls_counts (k : Nat) :
    apply_calls (retry_calls k) = k ∧ commit_calls (retry_calls k) = k ∧
    (retry_calls k).count (.commit_cb false) = k := by
  induction k with
  | zero => simp [retry_calls, apply_calls, commit_calls]
  | succ k ih =>
    obtain ⟨h1, h2, h3⟩ := ih
    simp only [apply_calls, commit_calls] at h1 h2 ⊢
    simp [retry_calls, List.count_append, h1, h3] at h2 ⊢
    omega

theorem apply_trx_ws_loop_retry (cb : Callbacks) (trx : TrxHandle)
    (htoi : trx.toi_ = false) (fuel attempts k : Nat) (e : Int)
    (hle : attempts + 1 ≤ max_apply_attempts)
    (he : 0 < e) (happly : cb.apply k = .threw e)
    (hcommit : cb.commit k = .WSREP_CB_SUCCESS) :
    apply_trx_ws_loop cb trx (fuel + 1) attempts (retry_calls k)
      = apply_trx_ws_loop cb trx fuel (attempts + 1) (retry_calls (k + 1)) := by
  obtain ⟨h1, h2, _⟩ := retry_calls_counts k
  rw [apply_trx_ws_loop]
  simp [h1, h2, happly, htoi, he, hcommit, hle, retry_calls]

theorem apply_trx_ws_loop_return (cb : Callbacks) (trx : TrxHandle)
    (fuel attempts k : Nat) (happly : cb.apply k = .returned) :
    apply_trx_ws_loop cb trx (fuel + 1) attempts (retry_calls k)
      = (retry_calls k ++ [.apply_cb], .ok attempts) := by
  obtain ⟨h1, _, _⟩ := retry_calls_counts k
  rw [apply_trx_ws_loop]
  simp [h1, happly]

theorem apply_trx_ws_loop_last (cb : Callbacks) (trx : TrxHandle)
    (htoi : trx.toi_ = false) (fuel attempts k : Nat) (e : Int)
    (hle : ¬ attempts + 1 ≤ max_apply_attempts)
    (he : 0 < e) (happly : cb.apply k = .threw e)
    (hcommit : cb.commit k = .WSREP_CB_SUCCESS) :
    apply_trx_ws_loop cb trx (fuel + 1) attempts (retry_calls k)
      = (retry_calls (k + 1), .ok (attempts + 1)) := by
  obtain ⟨h1, h2, _⟩ := retry_calls_counts k
  rw [apply_trx_ws_loop]
  simp [h1, h2, happly, htoi, he, hcommit, hle, retry_calls]

/-- C3: for a transaction that is not TOI, `apply_trx_ws` calls `trx.apply`
at most 4 times; when the first `k - 1` calls throw an `ApplyException` of
positive status, each rollback succeeds and call `k <= 4` returns, it returns
after `k` applies and `k - 1` rollbacks, one after each failure; when the
first 4 calls throw with positive status it makes 4 applies and 4 rollbacks
and throws an `ApplyException` of status `WSREP_CB_FAILURE`. -/
theorem C3_apply_trx_ws_retries (cb : Callbacks) (trx : TrxHandle)
    (htoi : trx.toi_ = false) :
    apply_calls (apply_trx_ws cb trx []).1 ≤ 4 ∧
    (∀ k, 1 ≤ k → k ≤ 4 →
      (∀ j, j < k - 1 → ∃ e, 0 < e ∧ cb.apply j = .threw e) →
      (∀ j, j < k - 1 → cb.commit j = .WSREP_CB_SUCCESS) →
      cb.apply (k - 1) = .returned →
      apply_trx_ws cb trx [] = (retry_calls (k - 1) ++ [.apply_cb], .ok ()) ∧
      apply_calls (retry_calls (k - 1) ++ [Event.apply_cb]) = k ∧
      (retry_calls (k - 1) ++ [Event.apply_cb]).count (.commit_cb false)
        = k - 1) ∧
    ((∀ j, j < 4 → ∃ e, 0 < e ∧ cb.apply j = .threw e) →
      (∀ j, j < 4 → cb.commit j = .WSREP_CB_SUCCESS) →
      apply_trx_ws cb trx []
        = (retry_calls 4,
            .error (.ApplyException wsrep_cb_status_t.WSREP_CB_FAILURE.code)) ∧
      apply_calls (retry_calls 4) = 4 ∧
      (retry_calls 4).count (.commit_cb false) = 4) := by
  refine ⟨?_, ?_, ?_⟩
  · rw [apply_trx_ws_calls_eq]
    have := apply_trx_ws_loop_apply_calls cb trx max_apply_attempts 1 []
    simpa [apply_calls, max_apply_attempts] using this
  · intro k hk1 hk4 hthrew hcommit hret
    have hnil : ([] : List Event) = retry_calls 0 := rfl
    obtain ⟨c1, c2, c3⟩ := retry_calls_counts (k - 1)
    refine ⟨?_, ?_, ?_⟩
    · unfold apply_trx_ws
      rw [hnil, show max_apply_attempts = 3 + 1 from rfl]
      obtain rfl | rfl | rfl | rfl : k = 1 ∨ k = 2 ∨ k = 3 ∨ k = 4 := by omega
      · rw [apply_trx_ws_loop_return cb trx 3 1 0 hret]
        simp [max_apply_attempts, retry_calls]
      · obtain ⟨e0, he0, ha0⟩ := hthrew 0 (by omega)
        rw [apply_trx_ws_loop_retry cb trx htoi 3 1 0 e0 (by decide) he0 ha0
            (hcommit 0 (by omega)),
          apply_trx_ws_loop_return cb trx 2 2 1 hret]
        simp [max_apply_attempts, retry_calls]
      · obtain ⟨e0, he0, ha0⟩ := hthrew 0 (by omega)
        obtain ⟨e1, he1, ha1⟩ := hthrew 1 (by omega)
        rw [apply_trx_ws_loop_retry cb trx htoi 3 1 0 e0 (by decide) he0 ha0
            (hcommit 0 (by omega)),
          apply_trx_ws_loop_retry cb trx htoi 2 2 1 e1 (by decide) he1 ha1
            (hcommit 1 (by omega)),
          apply_trx_ws_loop_return cb trx 1 3 2 hret]
        simp [max_apply_attempts, retry_calls]
      · obtain ⟨e0, he0, ha0⟩ := hthrew 0 (by omega)
        obtain ⟨e1, he1, ha1⟩ := hthrew 1 (by omega)
        obtain ⟨e2, he2, ha2⟩ := hthrew 2 (by omega)
        rw [apply_trx_ws_loop_retry cb trx htoi 3 1 0 e0 (by decide) he0 ha0
            (hcommit 0 (by omega)),
          apply_trx_ws_loop_retry cb trx htoi 2 2 1 e1 (by decide) he1 ha1
            (hcommit 1 (by omega)),
          apply_trx_ws_loop_retry cb trx htoi 1 3 2 e2 (by decide) he2 ha2
            (hcommit 2 (by omega)),
          apply_trx_ws_loop_return cb trx 0 4 3 hret]
        simp [max_apply_attempts, retry_calls]
    · simp only [apply_calls] at c1 ⊢
      simp [List.count_append, c1]
      omega
    · simp [List.count_append, c3]
  · intro hthrew hcommit
    obtain ⟨e0, he0, ha0⟩ := hthrew 0 (by omega)
    obtain ⟨e1, he1, ha1⟩ := hthrew 1 (by omega)
    obtain ⟨e2, he2, ha2⟩ := hthrew 2 (by omega)
    obtain ⟨e3, he3, ha3⟩ := hthrew 3 (by omega)
    have hnil : ([] : List Event) = retry_calls 0 := rfl
    refine ⟨?_, (retry_calls_counts 4).1, (retry_calls_counts 4).2.2⟩
    unfold apply_trx_ws
    rw [hnil, show max_apply_attempts = 3 + 1 from rfl,
      apply_trx_ws_loop_retry cb trx htoi 3 1 0 e0 (by decide) he0 ha0
        (hcommit 0 (by omega)),
      apply_trx_ws_loop_retry cb trx htoi 2 2 1 e1 (by decide) he1 ha1
        (hcommit 1 (by omega)),
      apply_trx_ws_loop_retry cb trx htoi 1 3 2 e2 (by decide) he2 ha2
        (hcommit 2 (by omega)),
      apply_trx_ws_loop_last cb trx htoi 0 4 3 e3 (by decide) he3 ha3
        (hcommit 3 (by omega))]
    simp [max_apply_attempts, retry_calls]

end galera

namespace galera

open gu

/-- Witness of C3: the first call of `trx.apply` throws with status 1 and the
second returns. -/
theorem C3_apply_trx_ws_retries_witness :
    apply_trx_ws
        ⟨fun n => if n = 0 then .threw 1 else .returned,
          fun _ => .WSREP_CB_SUCCESS⟩
        ⟨.S_APPLYING, false, false, true, 1, 1, 0, 0, false, 0, false⟩ []
      = ([.apply_cb, .commit_cb false, .apply_cb], .ok ()) :=
  ((C3_apply_trx_ws_retries
      ⟨fun n => if n = 0 then .threw 1 else .returned,
        fun _ => .WSREP_CB_SUCCESS⟩
      ⟨.S_APPLYING, false, false, true, 1, 1, 0, 0, false, 0, false⟩ rfl).2.1 2 (by decide)
    (by decide) (fun j hj => ⟨1, by decide, by
      have : j = 0 := by omega
      subst this
      rfl⟩) (fun _ _ => rfl) rfl).1

/-- C10: when a bootstrap is requested (the flag is set or the URL is
`gcomm://`) and `safe_to_bootstrap_` is false, `connect` returns
`WSREP_NODE_FAIL`, calls neither `gcs_.set_initial_position` nor
`gcs_.connect` and leaves `state_` as it was; whenever `connect` returns, it
returns `WSREP_OK` if and only if it has shifted `state_` to `S_CONNECTED`;
and it returns whenever the transition to `S_CONNECTED` is registered. -/
theorem C10_connect_unsafe_bootstrap (r : ReplicatorSMM)
    (cluster_url state_donor : String) (bootstrap : Bool)
    (err_init err_connect : Int) :
    ((bootstrap = true ∨ cluster_url = "gcomm://") →
      r.safe_to_bootstrap_ = false →
      ∃ r1, connect r cluster_url state_donor bootstrap err_init err_connect
          = (r1, .ok .WSREP_NODE_FAIL) ∧
        r1.state_ = r.state_ ∧ r1.calls_ = r.calls_ ++ [.service_thd_reset]) ∧
    (∀ r1 ret, connect r cluster_url state_donor bootstrap err_init err_connect
        = (r1, .ok ret) →
      (ret = .WSREP_OK
        ↔ Event.shift_to_connected ∈ r1.calls_.drop r.calls_.length) ∧
      (ret = .WSREP_OK → r1.state_.state_ = .S_CONNECTED) ∧
      (ret ≠ .WSREP_OK → r1.state_ = r.state_)) ∧
    ((⟨r.state_.state_, .S_CONNECTED⟩ : Transition) ∈ r.state_.trans_ →
      ∃ r1 ret, connect r cluster_url state_donor bootstrap err_init err_connect
        = (r1, .ok ret)) := by
  by_cases hboot : (bootstrap = true ∨ cluster_url = "gcomm://")
      ∧ r.safe_to_bootstrap_ = false
  · have hc : connect r cluster_url state_donor bootstrap err_init err_connect
        = (({ r with sst_donor_ := state_donor }).call .service_thd_reset,
            .ok .WSREP_NODE_FAIL) := by
      simp [connect, ReplicatorSMM.call, hboot]
    rw [hc]
    refine ⟨fun _ _ => ⟨_, rfl, rfl, rfl⟩, ?_, fun _ => ⟨_, _, rfl⟩⟩
    intro r1 ret h
    injection h with h1 h2
    injection h2 with h2
    subst h1 h2
    simp [ReplicatorSMM.call]
  · refine ⟨fun h1 h2 => absurd ⟨h1, h2⟩ hboot, ?_, ?_⟩
    · intro r1 ret h
      by_cases h1 : err_init = 0 <;> by_cases h2 : err_connect = 0 <;>
        by_cases h3 : (⟨r.state_.state_, .S_CONNECTED⟩ : Transition) ∈ r.state_.trans_ <;>
        simp [connect, ReplicatorSMM.call, FSM.shift_to, hboot, h1, h2, h3] at h <;>
        obtain ⟨rfl, rfl⟩ := h <;> simp
    · intro h3
      by_cases h1 : err_init = 0 <;> by_cases h2 : err_connect = 0 <;>
        simp [connect, ReplicatorSMM.call, FSM.shift_to, hboot, h1, h2, h3]

/-- Witness of C10: a bootstrap with the URL `gcomm://` on a closed replicator
whose `safe_to_bootstrap_` is false. -/
theorem C10_connect_unsafe_bootstrap_witness :
    ∃ r1, connect
        ⟨ReplicatorSMM.ctor_state_, .NORMAL, false, "", .ST_TYPE_NONE, 0, 0, 0, 0,
          0, [], 0, 0⟩ "gcomm://" "" false 0 0 = (r1, .ok .WSREP_NODE_FAIL) ∧
      r1.state_ = ReplicatorSMM.ctor_state_ ∧ r1.calls_ = [] ++ [.service_thd_reset] :=
  (C10_connect_unsafe_bootstrap
    ⟨ReplicatorSMM.ctor_state_, .NORMAL, false, "", .ST_TYPE_NONE, 0, 0, 0, 0, 0,
      [], 0, 0⟩ "gcomm://" "" false 0 0).1 (Or.inr rfl) rfl

end galera

namespace galera

open gu

theorem cert_for_aborted_spec (env : Env) (c : Ctx) :
    (cert_for_aborted env c).1.2.f_commit_ = c.2.f_commit_ ∧
    (cert_for_aborted env c).1.1.co_mode_ = c.1.co_mode_ ∧
    (((cert_for_aborted env c).2 = .ok .WSREP_BF_ABORT ∧
        (cert_for_aborted env c).1.2.state_ = .S_MUST_CERT_AND_REPLAY) ∨
      ((cert_for_aborted env c).2 = .ok .WSREP_TRX_FAIL ∧
        (cert_for_aborted env c).1.2.state_ = .S_MUST_ABORT)) := by
  obtain ⟨r, trx⟩ := c
  cases htest : env.test <;> by_cases h : trx.state_ = .S_MUST_ABORT <;>
    simp [cert_for_aborted, htest, h, TrxHandle.set_state, ReplicatorSMM.call]

theorem cert_spec (env : Env) (c : Ctx)
    (hmon : env.local_enter.result ≠ .failed) :
    (cert env c).1.2.f_commit_ = c.2.f_commit_ ∧
    (cert env c).1.1.co_mode_ = c.1.co_mode_ ∧
    (((cert env c).2 = .ok .WSREP_OK ∧ (cert env c).1.2.state_ = .S_CERTIFYING) ∨
      ((cert env c).2 = .ok .WSREP_BF_ABORT ∧
        ((cert env c).1.2.state_ = .S_MUST_REPLAY_AM ∨
          (cert env c).1.2.state_ = .S_MUST_CERT_AND_REPLAY)) ∨
      ((cert env c).2 = .ok .WSREP_TRX_FAIL ∧
        (cert env c).1.2.state_ = .S_MUST_ABORT)) := by
  obtain ⟨r, trx⟩ := c
  obtain ⟨⟨lres, lab⟩, ae, ce, app, tst, ss⟩ := env
  by_cases happ : ss < trx.global_seqno_
  · cases lres
    · cases lab <;> cases app <;> by_cases hco : r.co_mode_ = .BYPASS <;>
        simp [cert, cert_cancel_on_fail, monitor_enter, ReplicatorSMM.call,
          TrxHandle.set_state, happ, hco]
    · cases lab <;> cases tst <;> by_cases hco : r.co_mode_ = .BYPASS <;>
        simp [cert, cert_for_aborted, cert_cancel_on_fail, monitor_enter,
          ReplicatorSMM.call, TrxHandle.set_state, happ, hco]
    · exact absurd rfl hmon
  · by_cases hsst : r.last_st_type_ = .ST_TYPE_SST ∧ r.cc_seqno_ < trx.global_seqno_
        ∧ trx.global_seqno_ ≤ r.sst_seqno_
    · cases lres
      · cases lab <;>
          simp [cert, cert_not_applicable, monitor_enter, ReplicatorSMM.call,
            TrxHandle.set_state, happ, hsst]
      · cases lab <;>
          simp [cert, cert_not_applicable, monitor_enter, ReplicatorSMM.call,
            TrxHandle.set_state, happ, hsst]
      · exact absurd rfl hmon
    · cases lres
      · cases lab <;>
          simp [cert, cert_not_applicable, monitor_enter, ReplicatorSMM.call,
            TrxHandle.set_state, happ, hsst]
      · cases lab <;>
          simp [cert, cert_not_applicable, monitor_enter, ReplicatorSMM.call,
            TrxHandle.set_state, happ, hsst]
      · exact absurd rfl hmon

end galera

namespace galera

open gu

/-- C4: a transaction that enters `pre_commit` in `S_REPLICATING` or
`S_MUST_ABORT`, with no monitor raising an exception other than `EINTR`:
`pre_commit` returns, with `WSREP_OK`, `WSREP_TRX_FAIL` or `WSREP_BF_ABORT`;
with `WSREP_OK` the transaction is in `S_COMMITTING` when the commit flag is
set and in `S_EXECUTING` when it is not; with `WSREP_TRX_FAIL` it is in
`S_ABORTING`; with `WSREP_BF_ABORT` it is in `S_MUST_CERT_AND_REPLAY`,
`S_MUST_REPLAY_AM`, `S_MUST_REPLAY_CM` or `S_MUST_REPLAY`. -/
theorem C4_pre_commit_results (env : Env) (r : ReplicatorSMM) (trx : TrxHandle)
    (hstate : trx.state_ = .S_REPLICATING ∨ trx.state_ = .S_MUST_ABORT)
    (hmon : env.local_enter.result ≠ .failed ∧ env.apply_enter.result ≠ .failed
      ∧ env.commit_enter.result ≠ .failed) :
    ∃ ret, (pre_commit env (r, trx)).2 = .ok ret ∧
      (ret = .WSREP_OK ∨ ret = .WSREP_TRX_FAIL ∨ ret = .WSREP_BF_ABORT) ∧
      (ret = .WSREP_OK →
        (trx.f_commit_ = true →
          (pre_commit env (r, trx)).1.2.state_ = .S_COMMITTING) ∧
        (trx.f_commit_ = false →
          (pre_commit env (r, trx)).1.2.state_ = .S_EXECUTING)) ∧
      (ret = .WSREP_TRX_FAIL →
        (pre_commit env (r, trx)).1.2.state_ = .S_ABORTING) ∧
      (ret = .WSREP_BF_ABORT →
        (pre_commit env (r, trx)).1.2.state_ = .S_MUST_CERT_AND_REPLAY ∨
        (pre_commit env (r, trx)).1.2.state_ = .S_MUST_REPLAY_AM ∨
        (pre_commit env (r, trx)).1.2.state_ = .S_MUST_REPLAY_CM ∨
        (pre_commit env (r, trx)).1.2.state_ = .S_MUST_REPLAY) := by
  obtain ⟨st, loc, toi, fc, ls, gs, ds, gh, ic, lss, nv⟩ := trx
  obtain ⟨⟨lres, lab⟩, ⟨ares, aab⟩, ⟨cres, cab⟩, app, tst, ss⟩ := env
  obtain ⟨hm1, hm2, hm3⟩ := hmon
  simp only at hstate hm1 hm2 hm3
  rcases hstate with rfl | rfl
  · by_cases happ : ss < gs
    · cases lres
      · cases lab
        · cases app
          · -- certified: the apply stage
            cases ares
            · cases aab
              · cases fc
                · simp [pre_commit, cert_and_catch, cert, cert_cancel_on_fail,
                    pre_commit_apply, monitor_enter, ReplicatorSMM.call,
                    TrxHandle.set_state, happ]
                · by_cases hco : r.co_mode_ = .BYPASS
                  · simp [pre_commit, cert_and_catch, cert, cert_cancel_on_fail,
                      pre_commit_apply, monitor_enter, ReplicatorSMM.call,
                      TrxHandle.set_state, happ, hco]
                  · cases cres
                    · cases cab <;>
                        simp [pre_commit, cert_and_catch, cert, cert_cancel_on_fail,
                          pre_commit_apply, monitor_enter, ReplicatorSMM.call,
                          TrxHandle.set_state, happ, hco]
                    · cases cab <;>
                        simp [pre_commit, cert_and_catch, cert, cert_cancel_on_fail,
                          pre_commit_apply, monitor_enter, ReplicatorSMM.call,
                          TrxHandle.set_state, happ, hco]
                    · exact absurd rfl hm3
              · simp [pre_commit, cert_and_catch, cert, cert_cancel_on_fail,
                  pre_commit_apply, monitor_enter, ReplicatorSMM.call,
                  TrxHandle.set_state, happ]
            · cases aab <;>
                simp [pre_commit, cert_and_catch, cert, cert_cancel_on_fail,
                  pre_commit_apply, monitor_enter, ReplicatorSMM.call,
                  TrxHandle.set_state, happ]
            · exact absurd rfl hm2
          · by_cases hco : r.co_mode_ = .BYPASS <;>
              simp [pre_commit, cert_and_catch, cert, cert_cancel_on_fail,
                monitor_enter, ReplicatorSMM.call, TrxHandle.set_state, happ, hco]
        · cases app <;> by_cases hco : r.co_mode_ = .BYPASS <;>
            simp [pre_commit, cert_and_catch, cert, cert_cancel_on_fail,
              monitor_enter, ReplicatorSMM.call, TrxHandle.set_state, happ, hco]
      · cases lab <;> cases tst <;> by_cases hco : r.co_mode_ = .BYPASS <;>
          simp [pre_commit, cert_and_catch, cert, cert_for_aborted,
            cert_cancel_on_fail, monitor_enter, ReplicatorSMM.call,
            TrxHandle.set_state, happ, hco]
      · exact absurd rfl hm1
    · by_cases hsst : r.last_st_type_ = .ST_TYPE_SST ∧ r.cc_seqno_ < gs
          ∧ gs ≤ r.sst_seqno_
      · cases lres
        · cases lab <;>
            simp [pre_commit, cert_and_catch, cert, cert_not_applicable,
              monitor_enter, ReplicatorSMM.call, TrxHandle.set_state, happ, hsst]
        · cases lab <;>
            simp [pre_commit, cert_and_catch, cert, cert_not_applicable,
              monitor_enter, ReplicatorSMM.call, TrxHandle.set_state, happ, hsst]
        · exact absurd rfl hm1
      · cases lres
        · cases lab <;>
            simp [pre_commit, cert_and_catch, cert, cert_not_applicable,
              monitor_enter, ReplicatorSMM.call, TrxHandle.set_state, happ, hsst]
        · cases lab <;>
            simp [pre_commit, cert_and_catch, cert, cert_not_applicable,
              monitor_enter, ReplicatorSMM.call, TrxHandle.set_state, happ, hsst]
        · exact absurd rfl hm1
  · cases tst <;> by_cases hco : r.co_mode_ = .BYPASS <;>
      simp [pre_commit, cert_for_aborted, ReplicatorSMM.call, TrxHandle.set_state,
        hco]

end galera

namespace galera

open gu

/-- Witness of C4: a transaction with the commit flag that is certified and
enters both monitors. -/
theorem C4_pre_commit_results_witness :
    ∃ ret, (pre_commit
        ⟨⟨.entered, false⟩, ⟨.entered, false⟩, ⟨.entered, false⟩, .TEST_OK,
          .TEST_OK, 4⟩
        (⟨ReplicatorSMM.ctor_state_, .NORMAL, true, "", .ST_TYPE_NONE, 0, 0, 0, 0,
          0, [], 0, 0⟩, ⟨.S_REPLICATING, true, false, true, 3, 5, 4, 0, false, 4, false⟩)).2 = .ok ret ∧
      (ret = .WSREP_OK ∨ ret = .WSREP_TRX_FAIL ∨ ret = .WSREP_BF_ABORT) :=
  (C4_pre_commit_results
    ⟨⟨.entered, false⟩, ⟨.entered, false⟩, ⟨.entered, false⟩, .TEST_OK, .TEST_OK, 4⟩
    ⟨ReplicatorSMM.ctor_state_, .NORMAL, true, "", .ST_TYPE_NONE, 0, 0, 0, 0, 0, [], 0, 0⟩
    ⟨.S_REPLICATING, true, false, true, 3, 5, 4, 0, false, 4, false⟩ (Or.inl rfl)
    ⟨by decide, by decide, by decide⟩).imp (fun _ h => ⟨h.1, h.2.1⟩)

/-- C5: for an applicable transaction in `S_REPLICATING` whose entry to the
local monitor is not interrupted and for which `append_trx` returns
`TEST_FAILED`, `pre_commit` returns `WSREP_TRX_FAIL` with the transaction in
`S_ABORTING`; it enters and leaves the `LocalOrder` slot, self-cancels the
`ApplyOrder` slot and, unless bypassed, the `CommitOrder` slot, and calls no
callback; `local_cert_failures_` grows by 1 for a local transaction, and for
a remote one the certification leaves it unchanged. -/
theorem C5_pre_commit_certification_failure (env : Env) (r : ReplicatorSMM)
    (trx : TrxHandle) (hstate : trx.state_ = .S_REPLICATING)
    (happ : env.state_seqno < trx.global_seqno_)
    (hent : env.local_enter.result = .entered)
    (hfail : env.append_trx = .TEST_FAILED) :
    (pre_commit env (r, trx)).2 = .ok .WSREP_TRX_FAIL ∧
    (pre_commit env (r, trx)).1.2.state_ = .S_ABORTING ∧
    (trx.local_ = true →
      (pre_commit env (r, trx)).1.1.local_cert_failures_
        = r.local_cert_failures_ + 1) ∧
    (pre_commit env (r, trx)).1.1.calls_
      = r.calls_ ++
        ([.enter .local_monitor_ trx.local_seqno_, .cert_append_trx,
          .cert_set_trx_committed, .report_last_committed, .verify_checksum,
          .gcache_seqno_assign, .leave .local_monitor_ trx.local_seqno_,
          .self_cancel .apply_monitor_ trx.global_seqno_]
        ++ (if r.co_mode_ = .BYPASS then []
            else [.self_cancel .commit_monitor_ trx.global_seqno_])) ∧
    (trx.local_ = false →
      (cert_and_catch env (r, trx)).2 = .ok .WSREP_TRX_FAIL ∧
      (cert_and_catch env (r, trx)).1.1.local_cert_failures_
        = r.local_cert_failures_) := by
  obtain ⟨st, loc, toi, fc, ls, gs, ds, gh, ic, lss, nv⟩ := trx
  obtain ⟨⟨lres, lab⟩, ae, ce, app, tst, ss⟩ := env
  simp only at hstate happ hent hfail
  subst hstate hent hfail
  cases lab <;> cases loc <;> by_cases hco : r.co_mode_ = .BYPASS <;>
    simp [pre_commit, cert_and_catch, cert, cert_cancel_on_fail, monitor_enter,
      ReplicatorSMM.call, TrxHandle.set_state, happ, hco]

/-- Witness of C5: a local transaction with local seqno 3 and global seqno 5
that fails certification. -/
theorem C5_pre_commit_certification_failure_witness :
    (pre_commit
        ⟨⟨.entered, false⟩, ⟨.entered, false⟩, ⟨.entered, false⟩, .TEST_FAILED,
          .TEST_OK, 4⟩
        (⟨ReplicatorSMM.ctor_state_, .NORMAL, true, "", .ST_TYPE_NONE, 0, 0, 7, 0,
          0, [], 0, 0⟩, ⟨.S_REPLICATING, true, false, true, 3, 5, 4, 0, false, 4, false⟩)).2
      = .ok .WSREP_TRX_FAIL ∧
    (pre_commit
        ⟨⟨.entered, false⟩, ⟨.entered, false⟩, ⟨.entered, false⟩, .TEST_FAILED,
          .TEST_OK, 4⟩
        (⟨ReplicatorSMM.ctor_state_, .NORMAL, true, "", .ST_TYPE_NONE, 0, 0, 7, 0,
          0, [], 0, 0⟩,
          ⟨.S_REPLICATING, true, false, true, 3, 5, 4, 0, false, 4, false⟩)).1.1.local_cert_failures_
      = 7 + 1 :=
  have h := C5_pre_commit_certification_failure
    ⟨⟨.entered, false⟩, ⟨.entered, false⟩, ⟨.entered, false⟩, .TEST_FAILED,
      .TEST_OK, 4⟩
    ⟨ReplicatorSMM.ctor_state_, .NORMAL, true, "", .ST_TYPE_NONE, 0, 0, 7, 0, 0, [], 0, 0⟩
    ⟨.S_REPLICATING, true, false, true, 3, 5, 4, 0, false, 4, false⟩ rfl (by decide) rfl rfl
  ⟨h.1, h.2.2.1 rfl⟩

end galera

namespace galera

open gu

theorem key_parts0_loop_bound (keys_ : Buffer) (fuel : Nat) :
    ∀ (i : Nat) (ret : List KeyPart0), 0 < fuel → keys_.length < i + fuel →
      key_parts0_loop keys_ fuel i ret ≠ .error .loop_bound := by
  induction fuel with
  | zero =>
    intro i ret h0 _
    omega
  | succ fuel ih =>
    intro i ret _ h
    unfold key_parts0_loop
    split
    · exact ih _ _ (by omega) (by simp only [KeyPart0.size]; omega)
    · split <;> simp

theorem uleb128_decode_from_pos (l : Buffer) (v k : Nat)
    (h : uleb128_decode_from l = some (v, k)) : 0 < k := by
  cases l with
  | nil => simp [uleb128_decode_from] at h
  | cons b rest =>
    unfold uleb128_decode_from at h
    by_cases hb : b.val < 128
    · simp [hb] at h
      omega
    · simp only [hb, if_false] at h
      cases hrest : uleb128_decode_from rest with
      | none => simp [hrest] at h
      | some p =>
        simp [hrest] at h
        omega

theorem key_parts1_loop_bound (keys_ : Buffer) (fuel : Nat) :
    ∀ (i : Nat) (ret : List KeyPart1), 0 < fuel → keys_.length < i + fuel →
      key_parts1_loop keys_ fuel i ret ≠ .error .loop_bound := by
  induction fuel with
  | zero =>
    intro i ret h0 _
    omega
  | succ fuel ih =>
    intro i ret _ h
    unfold key_parts1_loop
    split
    · unfold uleb128_decode
      cases hdec : uleb128_decode_from (keys_.drop i) with
      | none => simp
      | some p =>
        obtain ⟨v, k⟩ := p
        have hk := uleb128_decode_from_pos _ v k hdec
        exact ih _ _ (by omega) (by simp only [KeyPart1.size]; omega)
    · split <;> simp

/-- The loops of `key_parts0` and `key_parts1` end within the iteration bound
of the embedding, whatever the bytes of the key. -/
theorem key_parts_loop_bound (k : Key) :
    k.key_parts0 ≠ .error .loop_bound ∧ k.key_parts1 ≠ .error .loop_bound :=
  ⟨key_parts0_loop_bound k.keys_ _ 0 [] (by omega) (by omega),
    key_parts1_loop_bound k.keys_ _ 0 [] (by omega) (by omega)⟩

end galera

namespace gu

/-- The loop of `uleb128_encode` ends within the iteration bound of the
embedding. -/
theorem uleb128_encode_loop_bound (value : Nat) (buf : Buffer) (offset : Nat) :
    (uleb128_encode value buf offset).2 ≠ .error .loop_bound := by
  by_cases h : offset + uleb128_size value ≤ buf.length
  · rw [uleb128_encode_fits value buf offset h]
    simp
  · rw [(uleb128_encode_overflow value buf offset (by omega)).1]
    simp

end gu

namespace galera

open gu

theorem apply_trx_ws_loop_bound (cb : Callbacks) (trx : TrxHandle) (fuel : Nat) :
    ∀ (attempts : Nat) (calls : List Event), 0 < fuel →
      max_apply_attempts < attempts + fuel →
      (apply_trx_ws_loop cb trx fuel attempts calls).2 ≠ .error .loop_bound := by
  induction fuel with
  | zero =>
    intro attempts calls h0 _
    omega
  | succ fuel ih =>
    intro attempts calls _ h
    unfold apply_trx_ws_loop
    split
    · simp
    · split
      · simp
      · split
        · split
          · simp
          · split
            · exact ih _ _ (by omega) (by omega)
            · simp
        · simp

/-- The loop of `apply_trx_ws` ends within the iteration bound of the
embedding, whatever the callbacks do. -/
theorem apply_trx_ws_within_bound (cb : Callbacks) (trx : TrxHandle)
    (calls : List Event) :
    (apply_trx_ws cb trx calls).2 ≠ .error .loop_bound := by
  have h := apply_trx_ws_loop_bound cb trx max_apply_attempts 1 calls
    (by decide) (by decide)
  unfold apply_trx_ws
  split
  · rename_i heq
    rw [heq] at h
    simpa using h
  · split <;> simp

end galera

namespace galera

open gu

/-- C11: `abort_trx` by the state of the transaction. In `S_EXECUTING` it
sets `S_MUST_ABORT` and calls nothing; in `S_REPLICATING` it sets
`S_MUST_ABORT` and interrupts the group-layer send when `gcs_handle()` is
positive; in `S_CERTIFYING`, `S_APPLYING` and `S_COMMITTING` it sets
`S_MUST_ABORT` and interrupts the `LocalOrder`, the `ApplyOrder` and, unless
commit order is bypassed, the `CommitOrder` slot of the transaction; in
`S_MUST_ABORT` and `S_ABORTING` it changes nothing and calls nothing; in every
other state it throws a fatal error. -/
theorem C11_abort_trx_by_state (r : ReplicatorSMM) (trx : TrxHandle) :
    (trx.state_ = .S_EXECUTING →
      abort_trx (r, trx) = ((r, trx.set_state .S_MUST_ABORT), .ok ())) ∧
    (trx.state_ = .S_REPLICATING →
      abort_trx (r, trx)
        = ((if 0 < trx.gcs_handle_ then r.call (.gcs_interrupt trx.gcs_handle_)
            else r, trx.set_state .S_MUST_ABORT), .ok ())) ∧
    (trx.state_ = .S_CERTIFYING →
      abort_trx (r, trx)
        = ((r.call (.interrupt .local_monitor_ trx.local_seqno_),
            trx.set_state .S_MUST_ABORT), .ok ())) ∧
    (trx.state_ = .S_APPLYING →
      abort_trx (r, trx)
        = ((r.call (.interrupt .apply_monitor_ trx.global_seqno_),
            trx.set_state .S_MUST_ABORT), .ok ())) ∧
    (trx.state_ = .S_COMMITTING →
      abort_trx (r, trx)
        = ((if r.co_mode_ = .BYPASS then r
            else r.call (.interrupt .commit_monitor_ trx.global_seqno_),
            trx.set_state .S_MUST_ABORT), .ok ())) ∧
    (trx.state_ = .S_MUST_ABORT ∨ trx.state_ = .S_ABORTING →
      abort_trx (r, trx) = ((r, trx), .ok ())) ∧
    (trx.state_ ≠ .S_EXECUTING → trx.state_ ≠ .S_REPLICATING →
      trx.state_ ≠ .S_CERTIFYING → trx.state_ ≠ .S_APPLYING →
      trx.state_ ≠ .S_COMMITTING → trx.state_ ≠ .S_MUST_ABORT →
      trx.state_ ≠ .S_ABORTING →
      abort_trx (r, trx) = ((r, trx), .error .fatal)) := by
  obtain ⟨st, loc, toi, fc, ls, gs, ds, gh, ic, lss, nv⟩ := trx
  refine ⟨?_, ?_, ?_, ?_, ?_, ?_, ?_⟩
  · rintro ⟨⟩
    simp [abort_trx]
  · rintro ⟨⟩
    simp [abort_trx, TrxHandle.set_state]
  · rintro ⟨⟩
    simp [abort_trx, TrxHandle.set_state]
  · rintro ⟨⟩
    simp [abort_trx, TrxHandle.set_state]
  · rintro ⟨⟩
    by_cases hco : r.co_mode_ = .BYPASS <;>
      simp [abort_trx, TrxHandle.set_state, hco]
  · intro h
    simp only at h
    rcases h with rfl | rfl <;> simp [abort_trx]
  · intro h1 h2 h3 h4 h5 h6 h7
    cases st <;> simp_all [abort_trx]

/-- Witness of C11: a transaction in `S_COMMITTING` with global seqno 5, commit
order not bypassed. -/
theorem C11_abort_trx_by_state_witness :
    abort_trx
        (⟨ReplicatorSMM.ctor_state_, .NORMAL, true, "", .ST_TYPE_NONE, 0, 0, 0, 0,
          0, [], 0, 0⟩,
          ⟨.S_COMMITTING, true, false, true, 3, 5, 4, -1, false, 4, false⟩)
      = ((⟨ReplicatorSMM.ctor_state_, .NORMAL, true, "", .ST_TYPE_NONE, 0, 0, 0, 0,
            0, [.interrupt .commit_monitor_ 5], 0, 0⟩,
          ⟨.S_MUST_ABORT, true, false, true, 3, 5, 4, -1, false, 4, false⟩),
          .ok ()) :=
  (C11_abort_trx_by_state
    ⟨ReplicatorSMM.ctor_state_, .NORMAL, true, "", .ST_TYPE_NONE, 0, 0, 0, 0, 0, [],
      0, 0⟩
    ⟨.S_COMMITTING, true, false, true, 3, 5, 4, -1, false, 4, false⟩).2.2.2.2.1 rfl

end galera

namespace galera

open gu

/-- C18, as stated, fails: a transaction that enters `pre_commit` in
`S_MUST_ABORT` and passes the certification test gets `WSREP_BF_ABORT`, not
`WSREP_PRECOMMIT_ABORT`. -/
theorem C18_pre_commit_must_abort_counterexample :
    (pre_commit
        ⟨⟨.entered, false⟩, ⟨.entered, false⟩, ⟨.entered, false⟩, .TEST_OK,
          .TEST_OK, 4⟩
        (⟨ReplicatorSMM.ctor_state_, .NORMAL, true, "", .ST_TYPE_NONE, 0, 0, 0, 0,
          0, [], 0, 0⟩,
          ⟨.S_MUST_ABORT, true, false, true, 3, 5, 4, -1, false, 4, false⟩)).2
      = .ok .WSREP_BF_ABORT ∧
    (pre_commit
        ⟨⟨.entered, false⟩, ⟨.entered, false⟩, ⟨.entered, false⟩, .TEST_OK,
          .TEST_OK, 4⟩
        (⟨ReplicatorSMM.ctor_state_, .NORMAL, true, "", .ST_TYPE_NONE, 0, 0, 0, 0,
          0, [], 0, 0⟩,
          ⟨.S_MUST_ABORT, true, false, true, 3, 5, 4, -1, false, 4, false⟩)).2
      ≠ .ok .WSREP_PRECOMMIT_ABORT := by
  decide

/-- C18, amended: a transaction that enters `pre_commit` in `S_MUST_ABORT`
gets the verdict of `cert_for_aborted`. When the certification test passes,
`pre_commit` returns `WSREP_BF_ABORT` with the transaction in
`S_MUST_CERT_AND_REPLAY` and cancels no slot; when the test fails, it returns
`WSREP_TRX_FAIL` with the transaction in `S_ABORTING` and self-cancels the
`LocalOrder`, the `ApplyOrder` and, unless bypassed, the `CommitOrder` slot.
It never returns `WSREP_PRECOMMIT_ABORT`. -/
theorem C18_pre_commit_must_abort_amended (env : Env) (r : ReplicatorSMM)
    (trx : TrxHandle) (h : trx.state_ = .S_MUST_ABORT) :
    (env.test = .TEST_OK →
      (pre_commit env (r, trx)).2 = .ok .WSREP_BF_ABORT ∧
      (pre_commit env (r, trx)).1.2.state_ = .S_MUST_CERT_AND_REPLAY ∧
      (pre_commit env (r, trx)).1.1.calls_ = r.calls_ ++ [.cert_test]) ∧
    (env.test = .TEST_FAILED →
      (pre_commit env (r, trx)).2 = .ok .WSREP_TRX_FAIL ∧
      (pre_commit env (r, trx)).1.2.state_ = .S_ABORTING ∧
      (pre_commit env (r, trx)).1.1.calls_
        = r.calls_ ++
          ([.cert_test, .verify_checksum, .gcache_seqno_assign,
            .self_cancel .local_monitor_ trx.local_seqno_,
            .self_cancel .apply_monitor_ trx.global_seqno_]
          ++ (if r.co_mode_ = .BYPASS then []
              else [.self_cancel .commit_monitor_ trx.global_seqno_]))) ∧
    (pre_commit env (r, trx)).2 ≠ .ok .WSREP_PRECOMMIT_ABORT := by
  obtain ⟨st, loc, toi, fc, ls, gs, ds, gh, ic, lss, nv⟩ := trx
  obtain ⟨le, ae, ce, app, tst, ss⟩ := env
  simp only at h
  subst h
  cases tst <;> by_cases hco : r.co_mode_ = .BYPASS <;>
    simp [pre_commit, cert_for_aborted, ReplicatorSMM.call, TrxHandle.set_state, hco]

/-- Witness of C18, amended: the certification test fails for an aborted
transaction with local seqno 3 and global seqno 5. -/
theorem C18_pre_commit_must_abort_amended_witness :
    (pre_commit
        ⟨⟨.entered, false⟩, ⟨.entered, false⟩, ⟨.entered, false⟩, .TEST_OK,
          .TEST_FAILED, 4⟩
        (⟨ReplicatorSMM.ctor_state_, .NORMAL, true, "", .ST_TYPE_NONE, 0, 0, 0, 0,
          0, [], 0, 0⟩,
          ⟨.S_MUST_ABORT, true, false, true, 3, 5, 4, -1, false, 4, false⟩)).2
      = .ok .WSREP_TRX_FAIL :=
  ((C18_pre_commit_must_abort_amended
    ⟨⟨.entered, false⟩, ⟨.entered, false⟩, ⟨.entered, false⟩, .TEST_OK,
      .TEST_FAILED, 4⟩
    ⟨ReplicatorSMM.ctor_state_, .NORMAL, true, "", .ST_TYPE_NONE, 0, 0, 0, 0, 0, [],
      0, 0⟩
    ⟨.S_MUST_ABORT, true, false, true, 3, 5, 4, -1, false, 4, false⟩ rfl).2.1 rfl).1

end galera

namespace galera

open gu

/-- C13, as stated, fails: the send returns, the transaction was aborted
meanwhile and passes the certification test; `replicate` returns
`WSREP_BF_ABORT` and has cancelled no slot: its calls are `gcs_.schedule`,
`gcs_.repl` and `cert_.test` only. -/
theorem C13_replicate_bf_abort_counterexample :
    (replicate
        ⟨⟨.entered, false⟩, ⟨.entered, false⟩, ⟨.entered, false⟩, .TEST_OK,
          .TEST_OK, 4⟩
        (fun _ => ⟨1, .sent 10, true, 3, 5⟩) 4 1
        (⟨{ ReplicatorSMM.ctor_state_ with state_ := .S_SYNCED }, .NORMAL, true, "",
            .ST_TYPE_NONE, 0, 0, 0, 0, 0, [], 0, 0⟩,
          ⟨.S_EXECUTING, true, false, true, -1, -1, -1, -1, false, -1, false⟩)).2
      = .ok .WSREP_BF_ABORT ∧
    (replicate
        ⟨⟨.entered, false⟩, ⟨.entered, false⟩, ⟨.entered, false⟩, .TEST_OK,
          .TEST_OK, 4⟩
        (fun _ => ⟨1, .sent 10, true, 3, 5⟩) 4 1
        (⟨{ ReplicatorSMM.ctor_state_ with state_ := .S_SYNCED }, .NORMAL, true, "",
            .ST_TYPE_NONE, 0, 0, 0, 0, 0, [], 0, 0⟩,
          ⟨.S_EXECUTING, true, false, true, -1, -1, -1, -1, false, -1,
            false⟩)).1.1.calls_
      = [.gcs_schedule, .gcs_repl, .cert_test] := by
  decide

/-- C13, amended: when the send has returned successfully and `replicate`
finds the transaction in `S_MUST_ABORT`, it asks `cert_for_aborted`. When the
certification test fails, it self-cancels the `LocalOrder`, the `ApplyOrder`
and, unless bypassed, the `CommitOrder` slot at the seqnos just assigned and
returns `WSREP_TRX_FAIL` with the transaction in `S_ABORTING`; when the test
passes, it returns `WSREP_BF_ABORT` with the transaction in
`S_MUST_CERT_AND_REPLAY` and cancels no slot. -/
theorem C13_replicate_bf_abort_amended (env : Env) (rounds : Nat → GcsRound)
    (last_committed : Int) (fuel : Nat) (r : ReplicatorSMM) (trx : TrxHandle)
    (c1 : Ctx) (g : GcsRound) (size : Nat)
    (hjoined : State.S_JOINED.rank ≤ r.state_.state_.rank)
    (hstate : trx.state_ ≠ .S_MUST_ABORT)
    (hsend : replicate_send rounds last_committed fuel 0
      (r, replicate_prepare last_committed trx) = (c1, .ok (some g)))
    (hsent : g.rcode = .sent size)
    (haborted : c1.2.state_ = .S_MUST_ABORT) :
    (env.test = .TEST_FAILED →
      (replicate env rounds last_committed fuel (r, trx)).2 = .ok .WSREP_TRX_FAIL ∧
      (replicate env rounds last_committed fuel (r, trx)).1.2.state_ = .S_ABORTING ∧
      (replicate env rounds last_committed fuel (r, trx)).1.1.calls_
        = c1.1.calls_ ++
          ([.cert_test, .verify_checksum, .gcache_seqno_assign,
            .self_cancel .local_monitor_ g.seqno_l,
            .self_cancel .apply_monitor_ g.seqno_g]
          ++ (if c1.1.co_mode_ = .BYPASS then []
              else [.self_cancel .commit_monitor_ g.seqno_g]))) ∧
    (env.test = .TEST_OK →
      (replicate env rounds last_committed fuel (r, trx)).2 = .ok .WSREP_BF_ABORT ∧
      (replicate env rounds last_committed fuel (r, trx)).1.2.state_
        = .S_MUST_CERT_AND_REPLAY ∧
      (replicate env rounds last_committed fuel (r, trx)).1.1.calls_
        = c1.1.calls_ ++ [.cert_test]) := by
  have hrank : ¬ r.state_.state_.rank < State.S_JOINED.rank := by omega
  have hrep : replicate env rounds last_committed fuel (r, trx)
      = replicate_sent env g size c1 := by
    unfold replicate
    simp only [hrank, hstate, if_false, hsend, hsent]
  rw [hrep]
  obtain ⟨r1, trx1⟩ := c1
  obtain ⟨st, loc, toi, fc, ls, gs, ds, gh, ic, lss, nv⟩ := trx1
  obtain ⟨le, ae, ce, app, tst, ss⟩ := env
  simp only at haborted
  subst haborted
  cases tst <;> by_cases hco : r1.co_mode_ = .BYPASS <;>
    simp [replicate_sent, replicate_must_abort, cert_for_aborted,
      ReplicatorSMM.call, TrxHandle.set_state, hco]

/-- Witness of C13, amended: a send of 10 bytes during which the transaction
is aborted, followed by a failing certification test. -/
theorem C13_replicate_bf_abort_amended_witness :
    (replicate
        ⟨⟨.entered, false⟩, ⟨.entered, false⟩, ⟨.entered, false⟩, .TEST_OK,
          .TEST_FAILED, 4⟩
        (fun _ => ⟨1, .sent 10, true, 3, 5⟩) 4 1
        (⟨{ ReplicatorSMM.ctor_state_ with state_ := .S_SYNCED }, .NORMAL, true, "",
            .ST_TYPE_NONE, 0, 0, 0, 0, 0, [], 0, 0⟩,
          ⟨.S_EXECUTING, true, false, true, -1, -1, -1, -1, false, -1, false⟩)).2
      = .ok .WSREP_TRX_FAIL :=
  ((C13_replicate_bf_abort_amended
    ⟨⟨.entered, false⟩, ⟨.entered, false⟩, ⟨.entered, false⟩, .TEST_OK,
      .TEST_FAILED, 4⟩
    (fun _ => ⟨1, .sent 10, true, 3, 5⟩) 4 1
    ⟨{ ReplicatorSMM.ctor_state_ with state_ := .S_SYNCED }, .NORMAL, true, "",
      .ST_TYPE_NONE, 0, 0, 0, 0, 0, [], 0, 0⟩
    ⟨.S_EXECUTING, true, false, true, -1, -1, -1, -1, false, -1, false⟩
    (⟨{ ReplicatorSMM.ctor_state_ with state_ := .S_SYNCED }, .NORMAL, true, "",
        .ST_TYPE_NONE, 0, 0, 0, 0, 0, [.gcs_schedule, .gcs_repl], 0, 0⟩,
      ⟨.S_MUST_ABORT, true, false, true, -1, -1, -1, 1, false, 4, false⟩)
    ⟨1, .sent 10, true, 3, 5⟩ 10 (by decide) (by decide) (by decide) rfl rfl).1
    rfl).1

end galera

namespace galera

open gu

theorem TrxMap.purge_mem_iff {α : Type} (m : TrxMap α) (seqno : Int)
    (h : m.ordered) (e : Int × α) :
    e ∈ (WsdbCertification.purge_trxs_upto m seqno).2 ↔ e ∈ m ∧ seqno ≤ e.1 := by
  induction m with
  | nil => simp [WsdbCertification.purge_trxs_upto]
  | cons e0 rest ih =>
    have hrest : TrxMap.ordered rest := (List.pairwise_cons.mp h).2
    have hlt : ∀ x ∈ rest, e0.1 < x.1 := (List.pairwise_cons.mp h).1
    by_cases h0 : e0.1 < seqno
    · have hstep : (WsdbCertification.purge_trxs_upto (e0 :: rest) seqno).2
          = (WsdbCertification.purge_trxs_upto rest seqno).2 := by
        simp [WsdbCertification.purge_trxs_upto, TrxMap.lower_bound,
          List.takeWhile_cons, h0]
      rw [hstep, ih hrest]
      constructor
      · rintro ⟨hm, hle⟩
        exact ⟨List.mem_cons_of_mem _ hm, hle⟩
      · rintro ⟨hm, hle⟩
        rcases List.mem_cons.mp hm with rfl | hm
        · omega
        · exact ⟨hm, hle⟩
    · have hstep : (WsdbCertification.purge_trxs_upto (e0 :: rest) seqno).2
          = e0 :: rest := by
        simp [WsdbCertification.purge_trxs_upto, TrxMap.lower_bound,
          List.takeWhile_cons, h0]
      rw [hstep]
      constructor
      · intro hm
        refine ⟨hm, ?_⟩
        rcases List.mem_cons.mp hm with rfl | hm
        · omega
        · have := hlt e hm
          omega
      · exact fun hm => hm.1

/-- C14, as stated, fails: in the map with the single entry of global seqno 5,
`purge_trxs_upto(5)` keeps that entry. -/
theorem C14_purge_trxs_upto_counterexample :
    ((5, 0) : Int × Nat) ∈ (WsdbCertification.purge_trxs_upto [(5, 0)] 5).2 ∧
    ((5 : Int) ≤ 5) := by
  decide

/-- C14, amended: after `purge_trxs_upto(seqno)` the map holds exactly the
entries it held before whose global seqno is not less than `seqno`, unchanged
and in their order: no entry below `seqno` is left, every entry at or above
`seqno` is still there, and the transactions unreferenced are those of the
entries removed. -/
theorem C14_purge_trxs_upto_amended {α : Type} (trx_map_ : TrxMap α)
    (seqno : Int) (h : trx_map_.ordered) :
    (∀ e, e ∈ (WsdbCertification.purge_trxs_upto trx_map_ seqno).2
      ↔ e ∈ trx_map_ ∧ seqno ≤ e.1) ∧
    (WsdbCertification.purge_trxs_upto trx_map_ seqno).2 <:+ trx_map_ ∧
    TrxMap.ordered (WsdbCertification.purge_trxs_upto trx_map_ seqno).2 ∧
    (trx_map_.take (trx_map_.lower_bound seqno)
        ++ (WsdbCertification.purge_trxs_upto trx_map_ seqno).2 = trx_map_) ∧
    (WsdbCertification.purge_trxs_upto trx_map_ seqno).1
      = (trx_map_.take (trx_map_.lower_bound seqno)).map (fun e => e.2) := by
  refine ⟨fun e => TrxMap.purge_mem_iff trx_map_ seqno h e, ?_, ?_, ?_, rfl⟩
  · exact List.drop_suffix _ _
  · exact List.Pairwise.sublist (List.drop_sublist _ _) h
  · exact List.take_append_drop _ _

/-- Witness of C14, amended: the map with the global seqnos 3, 5 and 8, purged
up to 5, keeps the entries 5 and 8. -/
theorem C14_purge_trxs_upto_amended_witness :
    TrxMap.ordered [((3 : Int), "a"), (5, "b"), (8, "c")] ∧
    (WsdbCertification.purge_trxs_upto [((3 : Int), "a"), (5, "b"), (8, "c")] 5).2
      <:+ [((3 : Int), "a"), (5, "b"), (8, "c")] :=
  ⟨by simp [TrxMap.ordered],
    (C14_purge_trxs_upto_amended [((3 : Int), "a"), (5, "b"), (8, "c")] 5
      (by simp [TrxMap.ordered])).2.1⟩

end galera

namespace galera

open gu

/-- C16, as stated, fails: `to_isolation_begin` returns `WSREP_OK` for a TOI
transaction with local seqno 3 and global seqno 5, commit order not bypassed,
and the `LocalOrder` slot is not held on return: `cert` has left it. -/
theorem C16_to_isolation_begin_counterexample :
    (to_isolation_begin
        ⟨⟨.entered, false⟩, ⟨.entered, false⟩, ⟨.entered, false⟩, .TEST_OK,
          .TEST_OK, 4⟩
        (⟨ReplicatorSMM.ctor_state_, .NORMAL, true, "", .ST_TYPE_NONE, 0, 0, 0, 0,
          0, [], 0, 0⟩,
          ⟨.S_REPLICATING, true, true, true, 3, 5, 4, -1, false, 4, false⟩)).2
      = .ok .WSREP_OK ∧
    ¬ slot_held
      (to_isolation_begin
        ⟨⟨.entered, false⟩, ⟨.entered, false⟩, ⟨.entered, false⟩, .TEST_OK,
          .TEST_OK, 4⟩
        (⟨ReplicatorSMM.ctor_state_, .NORMAL, true, "", .ST_TYPE_NONE, 0, 0, 0, 0,
          0, [], 0, 0⟩,
          ⟨.S_REPLICATING, true, true, true, 3, 5, 4, -1, false, 4,
            false⟩)).1.1.calls_
      .local_monitor_ 3 := by
  unfold slot_held
  decide

/-- C16, amended: when `to_isolation_begin` returns `WSREP_OK` with commit
order not bypassed, it has entered and left the `LocalOrder` slot (inside
`cert`) and then entered the `ApplyOrder` and the `CommitOrder` slot, which
are held on return while the `LocalOrder` slot is free again;
`to_isolation_end` then leaves the `CommitOrder` slot first and the
`ApplyOrder` slot after the report to the certification, and both are free
again (the slots being free before the call). -/
theorem C16_to_isolation_amended (env : Env) (r : ReplicatorSMM) (trx : TrxHandle)
    (hco : r.co_mode_ ≠ .BYPASS)
    (hok : (to_isolation_begin env (r, trx)).2 = .ok .WSREP_OK) :
    (to_isolation_begin env (r, trx)).1.1.calls_
      = r.calls_ ++
        [.enter .local_monitor_ trx.local_seqno_, .cert_append_trx,
          .verify_checksum, .gcache_seqno_assign,
          .leave .local_monitor_ trx.local_seqno_,
          .enter .apply_monitor_ trx.global_seqno_,
          .enter .commit_monitor_ trx.global_seqno_, .st_mark_unsafe_] ∧
    (to_isolation_end (to_isolation_begin env (r, trx)).1).1.1.calls_
      = (to_isolation_begin env (r, trx)).1.1.calls_ ++
        [.leave .commit_monitor_ trx.global_seqno_, .cert_set_trx_committed,
          .report_last_committed, .leave .apply_monitor_ trx.global_seqno_,
          .st_mark_safe_] ∧
    (to_isolation_begin env (r, trx)).1.2.state_ = .S_APPLYING ∧
    (slot_free r.calls_ .local_monitor_ trx.local_seqno_ →
      slot_free r.calls_ .apply_monitor_ trx.global_seqno_ →
      slot_free r.calls_ .commit_monitor_ trx.global_seqno_ →
      slot_free (to_isolation_begin env (r, trx)).1.1.calls_
        .local_monitor_ trx.local_seqno_ ∧
      slot_held (to_isolation_begin env (r, trx)).1.1.calls_
        .apply_monitor_ trx.global_seqno_ ∧
      slot_held (to_isolation_begin env (r, trx)).1.1.calls_
        .commit_monitor_ trx.global_seqno_ ∧
      slot_free (to_isolation_end (to_isolation_begin env (r, trx)).1).1.1.calls_
        .apply_monitor_ trx.global_seqno_ ∧
      slot_free (to_isolation_end (to_isolation_begin env (r, trx)).1).1.1.calls_
        .commit_monitor_ trx.global_seqno_) := by
  obtain ⟨st, loc, toi, fc, ls, gs, ds, gh, ic, lss, nv⟩ := trx
  obtain ⟨⟨lres, lab⟩, ⟨ares, aab⟩, ⟨cres, cab⟩, app, tst, ss⟩ := env
  by_cases happ : ss < gs
  · cases lres
    · cases lab
      · cases app
        · cases ares
          · cases cres <;> cases aab <;> cases cab <;>
              simp [to_isolation_begin, to_isolation_end, cert_and_catch, cert,
                cert_cancel_on_fail, monitor_enter, ReplicatorSMM.call,
                TrxHandle.set_state, slot_held, slot_free, happ, hco] at hok ⊢ <;>
              (intros; omega)
          · simp [to_isolation_begin, cert_and_catch, cert, cert_cancel_on_fail,
              monitor_enter, ReplicatorSMM.call, TrxHandle.set_state, happ, hco]
              at hok
          · simp [to_isolation_begin, cert_and_catch, cert, cert_cancel_on_fail,
              monitor_enter, ReplicatorSMM.call, TrxHandle.set_state, happ, hco]
              at hok
        · simp [to_isolation_begin, cert_and_catch, cert, cert_cancel_on_fail,
            monitor_enter, ReplicatorSMM.call, TrxHandle.set_state, happ, hco]
            at hok
      · cases app <;>
          simp [to_isolation_begin, cert_and_catch, cert, cert_cancel_on_fail,
            monitor_enter, ReplicatorSMM.call, TrxHandle.set_state, happ, hco]
            at hok
    · cases lab <;> cases tst <;>
        simp [to_isolation_begin, cert_and_catch, cert, cert_for_aborted,
          cert_cancel_on_fail, monitor_enter, ReplicatorSMM.call,
          TrxHandle.set_state, happ, hco] at hok
    · simp [to_isolation_begin, cert_and_catch, cert, monitor_enter] at hok
  · cases lres <;> cases lab <;>
      simp [to_isolation_begin, cert_and_catch, cert, cert_not_applicable,
        monitor_enter, ReplicatorSMM.call, TrxHandle.set_state, happ] at hok

end galera

namespace galera

open gu

/-- Witness of C16, amended: a TOI transaction with local seqno 3 and global
seqno 5 that is certified and enters the apply and the commit monitor. -/
theorem C16_to_isolation_amended_witness :
    (to_isolation_begin
        ⟨⟨.entered, false⟩, ⟨.entered, false⟩, ⟨.entered, false⟩, .TEST_OK,
          .TEST_OK, 4⟩
        (⟨ReplicatorSMM.ctor_state_, .NORMAL, true, "", .ST_TYPE_NONE, 0, 0, 0, 0,
          0, [], 0, 0⟩,
          ⟨.S_REPLICATING, true, true, true, 3, 5, 4, -1, false, 4,
            false⟩)).1.1.calls_
      = [] ++ [.enter .local_monitor_ 3, .cert_append_trx, .verify_checksum,
          .gcache_seqno_assign, .leave .local_monitor_ 3, .enter .apply_monitor_ 5,
          .enter .commit_monitor_ 5, .st_mark_unsafe_] :=
  (C16_to_isolation_amended
    ⟨⟨.entered, false⟩, ⟨.entered, false⟩, ⟨.entered, false⟩, .TEST_OK, .TEST_OK, 4⟩
    ⟨ReplicatorSMM.ctor_state_, .NORMAL, true, "", .ST_TYPE_NONE, 0, 0, 0, 0, 0, [],
      0, 0⟩
    ⟨.S_REPLICATING, true, true, true, 3, 5, 4, -1, false, 4, false⟩
    (by decide) (by decide)).1

/-- C17, as stated, fails: a certified remote transaction with local seqno
`-1` (it comes from a state transfer) is applied and committed, and
`apply_trx` leaves the apply monitor without a call of
`cert_.set_trx_committed`. -/
theorem C17_apply_trx_counterexample :
    apply_trx
        ⟨⟨.entered, false⟩, ⟨.entered, false⟩, ⟨.entered, false⟩, .TEST_OK,
          .TEST_OK, 4⟩
        ⟨fun _ => .returned, fun _ => .WSREP_CB_SUCCESS⟩
        (⟨ReplicatorSMM.ctor_state_, .NORMAL, true, "", .ST_TYPE_NONE, 0, 0, 0, 0,
          0, [], 0, 0⟩,
          ⟨.S_CERTIFYING, false, false, true, -1, 5, 4, -1, false, 4, false⟩)
      = ((⟨ReplicatorSMM.ctor_state_, .NORMAL, true, "", .ST_TYPE_NONE, 0, 0, 0, 0,
            0, [.enter .apply_monitor_ 5, .apply_cb, .commit_cb true,
              .unordered_cb, .leave .apply_monitor_ 5], 0, 0⟩,
          ⟨.S_COMMITTED, false, false, true, -1, 5, 4, -1, false, 4, false⟩),
          .ok ()) ∧
    Event.cert_set_trx_committed ∉
      ([.enter .apply_monitor_ 5, .apply_cb, .commit_cb true, .unordered_cb,
        .leave .apply_monitor_ 5] : List Event) := by
  decide

/-- C17, amended: for a transaction whose callbacks succeed at the first
call and whose monitor entries return, `apply_trx` enters the `ApplyOrder`
slot first, calls `trx.apply` once and `commit_cb` with `commit = true` once,
enters the `CommitOrder` slot before the commit exactly when the transaction
is TOI and commit order is not bypassed and leaves it after the commit
exactly then, reports `set_trx_committed` unless the local seqno is `-1`,
and leaves the `ApplyOrder` slot after all these calls, with the transaction
in `S_COMMITTED`; for a TOI transaction the state file is marked unsafe after
the entry and safe after the exit. -/
theorem C17_apply_trx_amended (env : Env) (cb : Callbacks) (r : ReplicatorSMM)
    (trx : TrxHandle)
    (happly_enter : env.apply_enter.result = .entered)
    (hcommit_enter : trx.toi_ = true → r.co_mode_ ≠ .BYPASS →
      env.commit_enter.result = .entered)
    (happly : cb.apply (apply_calls r.calls_) = .returned)
    (hcommit : cb.commit (commit_calls r.calls_) = .WSREP_CB_SUCCESS) :
    (apply_trx env cb (r, trx)).2 = .ok () ∧
    (apply_trx env cb (r, trx)).1.2.state_ = .S_COMMITTED ∧
    (apply_trx env cb (r, trx)).1.1.calls_
      = r.calls_ ++
        ([.enter .apply_monitor_ trx.global_seqno_]
        ++ (if trx.toi_ = true then [.st_mark_unsafe_] else [])
        ++ [.apply_cb]
        ++ (if trx.toi_ = true ∧ r.co_mode_ ≠ .BYPASS then
              [.enter .commit_monitor_ trx.global_seqno_] else [])
        ++ [.commit_cb true]
        ++ (if trx.toi_ = true ∧ r.co_mode_ ≠ .BYPASS then
              [.leave .commit_monitor_ trx.global_seqno_] else [])
        ++ (if trx.local_seqno_ = -1 then []
            else [.cert_set_trx_committed, .report_last_committed])
        ++ [.unordered_cb, .leave .apply_monitor_ trx.global_seqno_]
        ++ (if trx.toi_ = true then [.st_mark_safe_] else [])) := by
  obtain ⟨st, loc, toi, fc, ls, gs, ds, gh, ic, lss, nv⟩ := trx
  obtain ⟨⟨lres, lab⟩, ⟨ares, aab⟩, ⟨cres, cab⟩, app, tst, ss⟩ := env
  simp only at happly_enter hcommit_enter
  subst happly_enter
  simp only [apply_calls, commit_calls] at happly hcommit
  cases toi
  · by_cases hls : ls = -1 <;> cases aab <;>
      simp [apply_trx, apply_trx_commit, apply_trx_ws, apply_trx_ws_loop,
        max_apply_attempts, apply_calls, commit_calls, monitor_enter,
        ReplicatorSMM.call, TrxHandle.set_state, happly, hcommit, hls]
  · by_cases hco : r.co_mode_ = .BYPASS
    · by_cases hls : ls = -1 <;> cases aab <;>
        simp [apply_trx, apply_trx_commit, apply_trx_ws, apply_trx_ws_loop,
          max_apply_attempts, apply_calls, commit_calls, monitor_enter,
          ReplicatorSMM.call, TrxHandle.set_state, happly, hcommit, hls, hco]
    · have hc := hcommit_enter rfl hco
      subst hc
      by_cases hls : ls = -1 <;> cases aab <;> cases cab <;>
        simp [apply_trx, apply_trx_commit, apply_trx_ws, apply_trx_ws_loop,
          max_apply_attempts, apply_calls, commit_calls, monitor_enter,
          ReplicatorSMM.call, TrxHandle.set_state, happly, hcommit, hls, hco]

end galera

namespace galera

open gu

/-- Witness of C17, amended: a remote transaction with local seqno 3 and
global seqno 5, not TOI. -/
theorem C17_apply_trx_amended_witness :
    (apply_trx
        ⟨⟨.entered, false⟩, ⟨.entered, false⟩, ⟨.entered, false⟩, .TEST_OK,
          .TEST_OK, 4⟩
        ⟨fun _ => .returned, fun _ => .WSREP_CB_SUCCESS⟩
        (⟨ReplicatorSMM.ctor_state_, .NORMAL, true, "", .ST_TYPE_NONE, 0, 0, 0, 0,
          0, [], 0, 0⟩,
          ⟨.S_CERTIFYING, false, false, true, 3, 5, 4, -1, false, 4, false⟩)).2
      = .ok () :=
  (C17_apply_trx_amended
    ⟨⟨.entered, false⟩, ⟨.entered, false⟩, ⟨.entered, false⟩, .TEST_OK, .TEST_OK, 4⟩
    ⟨fun _ => .returned, fun _ => .WSREP_CB_SUCCESS⟩
    ⟨ReplicatorSMM.ctor_state_, .NORMAL, true, "", .ST_TYPE_NONE, 0, 0, 0, 0, 0, [],
      0, 0⟩
    ⟨.S_CERTIFYING, false, false, true, 3, 5, 4, -1, false, 4, false⟩
    rfl (fun h => absurd h (by decide)) rfl rfl).1

end galera

namespace galera

open gu

end galera

namespace galera

open gu

end galera

namespace galera

open gu

/-- The member `cert` returns `WSREP_TRX_FAIL` when the certification reports a
failure, on every path on which the entry to the local monitor returns. -/
theorem cert_fail_of_test_failed (env : Env) (c : Ctx)
    (happ : env.append_trx = .TEST_FAILED) (htest : env.test = .TEST_FAILED)
    (hmon : env.local_enter.result ≠ .failed) :
    (cert env c).2 = .ok .WSREP_TRX_FAIL := by
  obtain ⟨⟨lres, lab⟩, ae, ce, app, tst, ss⟩ := env
  obtain ⟨r, trx⟩ := c
  simp only at happ htest hmon
  subst happ htest
  by_cases happl : ss < trx.global_seqno_ <;> cases lres <;> cases lab <;>
    simp [cert, cert_for_aborted, cert_not_applicable, cert_cancel_on_fail,
      monitor_enter, TrxHandle.set_state, ReplicatorSMM.call, happl] at hmon ⊢

end galera

namespace galera

open gu

/-- C21: the apply callback throws an `ApplyException` at the first call of
`apply_trx_ws`. For a TOI transaction, whatever the status, `apply_trx_ws`
returns normally having called `trx.apply` once and nothing else: no rollback
(`commit_cb` with `commit = false`) and no second attempt. For a transaction
that is not TOI and a status of 0 or less, the exception leaves `apply_trx_ws`
at once with its status, also after one call of `trx.apply` and nothing
else. -/
theorem C21_apply_trx_ws_toi (cb : Callbacks) (trx : TrxHandle)
    (calls : List Event) (status : Int)
    (hthrow : cb.apply (apply_calls calls) = .threw status) :
    (trx.toi_ = true →
      apply_trx_ws cb trx calls = (calls ++ [.apply_cb], .ok ())) ∧
    (trx.toi_ = false → status ≤ 0 →
      apply_trx_ws cb trx calls
        = (calls ++ [.apply_cb], .error (.ApplyException status))) := by
  refine ⟨?_, ?_⟩
  · intro htoi
    simp [apply_trx_ws, apply_trx_ws_loop, max_apply_attempts, hthrow, htoi]
  · intro htoi hle
    have hnot : ¬ 0 < status := by omega
    simp [apply_trx_ws, apply_trx_ws_loop, max_apply_attempts, hthrow, htoi, hnot]

/-- Witness of C21: a TOI transaction whose apply callback throws with status
1 at every call. -/
theorem C21_apply_trx_ws_toi_witness :
    apply_trx_ws ⟨fun _ => .threw 1, fun _ => .WSREP_CB_SUCCESS⟩
        ⟨.S_APPLYING, false, true, true, 3, 5, 4, -1, false, 4, false⟩ []
      = ([.apply_cb], .ok ()) :=
  (C21_apply_trx_ws_toi ⟨fun _ => .threw 1, fun _ => .WSREP_CB_SUCCESS⟩
    ⟨.S_APPLYING, false, true, true, 3, 5, 4, -1, false, 4, false⟩ [] 1 rfl).1 rfl

/-- C29: the limit of 255 key parts is checked before the version is looked
at. For every version, the constructor throws `EINVAL` for more than 255
parts; for at most 255 parts, the empty list included, a version other than 0
and 1 makes it throw a fatal error. -/
theorem C29_key_parts_limit_first (version : Int) (keys : List wsrep_key_t) :
    (255 < keys.length → Key.new version keys = .error .EINVAL) ∧
    (keys.length ≤ 255 → version ≠ 0 → version ≠ 1 →
      Key.new version keys = .error .fatal) ∧
    (version ≠ 0 → version ≠ 1 → Key.new version [] = .error .fatal) := by
  refine ⟨?_, ?_, ?_⟩
  · intro h
    simp [Key.new, h]
  · intro h h0 h1
    have hnot : ¬ 255 < keys.length := by omega
    simp [Key.new, hnot, h0, h1]
  · intro h0 h1
    simp [Key.new, h0, h1]

/-- Witness of C29: 256 empty parts under the unsupported version 7. -/
theorem C29_key_parts_limit_first_witness :
    Key.new 7 (List.replicate 256 ⟨[]⟩) = .error .EINVAL :=
  (C29_key_parts_limit_first 7 (List.replicate 256 ⟨[]⟩)).1
    (by rw [List.length_replicate]; decide)

end galera

namespace galera

open gu

/-- When `cert_and_catch` returns `WSREP_OK`, the local monitor was entered
and left around the certification, and the transaction is in `S_CERTIFYING`
and otherwise as before. -/
theorem cert_and_catch_ok (env : Env) (c : Ctx)
    (h : (cert_and_catch env c).2 = .ok .WSREP_OK) :
    (cert_and_catch env c).1.2 = c.2.set_state .S_CERTIFYING ∧
    (cert_and_catch env c).1.1.co_mode_ = c.1.co_mode_ ∧
    (cert_and_catch env c).1.1.calls_
      = c.1.calls_ ++ [.enter .local_monitor_ c.2.local_seqno_, .cert_append_trx,
          .verify_checksum, .gcache_seqno_assign,
          .leave .local_monitor_ c.2.local_seqno_] := by
  obtain ⟨r, trx⟩ := c
  obtain ⟨⟨lres, lab⟩, ae, ce, app, tst, ss⟩ := env
  by_cases happ : ss < trx.global_seqno_
  · cases lres
    · cases lab <;> cases app <;> by_cases hco : r.co_mode_ = .BYPASS <;>
        simp [cert_and_catch, cert, cert_cancel_on_fail, monitor_enter,
          ReplicatorSMM.call, TrxHandle.set_state, happ, hco] at h ⊢
    · cases lab <;> cases tst <;> by_cases hco : r.co_mode_ = .BYPASS <;>
        simp [cert_and_catch, cert, cert_for_aborted, cert_cancel_on_fail,
          monitor_enter, ReplicatorSMM.call, TrxHandle.set_state, happ, hco] at h ⊢
    · simp [cert_and_catch, cert, monitor_enter] at h
  · cases lres <;> cases lab <;>
      simp [cert_and_catch, cert, cert_not_applicable, monitor_enter,
        ReplicatorSMM.call, TrxHandle.set_state, happ] at h ⊢

/-- After a certification that returned `WSREP_OK`, `pre_commit` goes on with
the entry to the apply monitor. -/
theorem pre_commit_eq_apply (env : Env) (c : Ctx)
    (hstate : c.2.state_ ≠ .S_MUST_ABORT)
    (hcert : (cert_and_catch env c).2 = .ok .WSREP_OK) :
    pre_commit env c = pre_commit_apply env (cert_and_catch env c).1 := by
  unfold pre_commit
  rw [if_neg hstate]
  generalize cert_and_catch env c = res at *
  obtain ⟨c1, ret⟩ := res
  simp only at hcert
  subst hcert
  simp

/-- C22: in `pre_commit`, after a certification that returned `WSREP_OK`.
When the entry to the apply monitor is interrupted, `pre_commit` returns
`WSREP_BF_ABORT` with the transaction in `S_MUST_REPLAY_AM`, and its only call
after the certification is that entry: the commit monitor is not entered.
When the apply monitor is entered and the transaction is found in
`S_MUST_ABORT`, it returns `WSREP_BF_ABORT` with the transaction in
`S_MUST_REPLAY_CM`, again without a call to the commit monitor. When the apply
monitor is entered, the transaction commits and commit order is not bypassed:
an interrupted entry to the commit monitor gives `WSREP_BF_ABORT` and
`S_MUST_REPLAY_CM`, and a transaction found in `S_MUST_ABORT` after the entry
to the commit monitor gives `WSREP_BF_ABORT` and `S_MUST_REPLAY`. -/
theorem C22_pre_commit_interrupted (env : Env) (r : ReplicatorSMM)
    (trx : TrxHandle) (hstate : trx.state_ ≠ .S_MUST_ABORT)
    (hcert : (cert_and_catch env (r, trx)).2 = .ok .WSREP_OK) :
    (env.apply_enter.result = .interrupted →
      (pre_commit env (r, trx)).2 = .ok .WSREP_BF_ABORT ∧
      (pre_commit env (r, trx)).1.2.state_ = .S_MUST_REPLAY_AM ∧
      (pre_commit env (r, trx)).1.1.calls_
        = (cert_and_catch env (r, trx)).1.1.calls_
          ++ [.enter_interrupted .apply_monitor_ trx.global_seqno_]) ∧
    (env.apply_enter = ⟨.entered, true⟩ →
      (pre_commit env (r, trx)).2 = .ok .WSREP_BF_ABORT ∧
      (pre_commit env (r, trx)).1.2.state_ = .S_MUST_REPLAY_CM ∧
      (pre_commit env (r, trx)).1.1.calls_
        = (cert_and_catch env (r, trx)).1.1.calls_
          ++ [.enter .apply_monitor_ trx.global_seqno_]) ∧
    (env.apply_enter = ⟨.entered, false⟩ → trx.f_commit_ = true →
      r.co_mode_ ≠ .BYPASS →
      (env.commit_enter.result = .interrupted →
        (pre_commit env (r, trx)).2 = .ok .WSREP_BF_ABORT ∧
        (pre_commit env (r, trx)).1.2.state_ = .S_MUST_REPLAY_CM ∧
        (pre_commit env (r, trx)).1.1.calls_
          = (cert_and_catch env (r, trx)).1.1.calls_
            ++ [.enter .apply_monitor_ trx.global_seqno_,
              .enter_interrupted .commit_monitor_ trx.global_seqno_]) ∧
      (env.commit_enter = ⟨.entered, true⟩ →
        (pre_commit env (r, trx)).2 = .ok .WSREP_BF_ABORT ∧
        (pre_commit env (r, trx)).1.2.state_ = .S_MUST_REPLAY ∧
        (pre_commit env (r, trx)).1.1.calls_
          = (cert_and_catch env (r, trx)).1.1.calls_
            ++ [.enter .apply_monitor_ trx.global_seqno_,
              .enter .commit_monitor_ trx.global_seqno_])) := by
  obtain ⟨htrx, hco, _⟩ := cert_and_catch_ok env (r, trx) hcert
  rw [pre_commit_eq_apply env (r, trx) hstate hcert]
  generalize cert_and_catch env (r, trx) = res at *
  obtain ⟨⟨r1, trx1⟩, ret⟩ := res
  simp only at htrx hco
  subst htrx
  obtain ⟨le, ⟨ares, aab⟩, ⟨cres, cab⟩, app, tst, ss⟩ := env
  refine ⟨?_, ?_, ?_⟩
  · intro ha
    simp only at ha
    subst ha
    cases aab <;>
      simp [pre_commit_apply, monitor_enter, ReplicatorSMM.call,
        TrxHandle.set_state]
  · intro ha
    simp only [EnterReply.mk.injEq] at ha
    obtain ⟨rfl, rfl⟩ := ha
    simp [pre_commit_apply, monitor_enter, ReplicatorSMM.call, TrxHandle.set_state]
  · intro ha hf hby
    simp only [EnterReply.mk.injEq] at ha
    obtain ⟨rfl, rfl⟩ := ha
    have hby1 : r1.co_mode_ ≠ .BYPASS := by rw [hco]; exact hby
    refine ⟨?_, ?_⟩
    · intro hc
      simp only at hc
      subst hc
      cases cab <;>
        simp [pre_commit_apply, monitor_enter, ReplicatorSMM.call,
          TrxHandle.set_state, hf, hby1]
    · intro hc
      simp only [EnterReply.mk.injEq] at hc
      obtain ⟨rfl, rfl⟩ := hc
      simp [pre_commit_apply, monitor_enter, ReplicatorSMM.call,
        TrxHandle.set_state, hf, hby1]

/-- Witness of C22: the certification passes and the entry to the apply
monitor is interrupted. -/
theorem C22_pre_commit_interrupted_witness :
    (pre_commit
        ⟨⟨.entered, false⟩, ⟨.interrupted, true⟩, ⟨.entered, false⟩, .TEST_OK,
          .TEST_OK, 4⟩
        (⟨ReplicatorSMM.ctor_state_, .NORMAL, true, "", .ST_TYPE_NONE, 0, 0, 0, 0,
          0, [], 0, 0⟩,
          ⟨.S_REPLICATING, true, false, true, 3, 5, 4, -1, false, 4, false⟩)).2
      = .ok .WSREP_BF_ABORT :=
  ((C22_pre_commit_interrupted
    ⟨⟨.entered, false⟩, ⟨.interrupted, true⟩, ⟨.entered, false⟩, .TEST_OK,
      .TEST_OK, 4⟩
    ⟨ReplicatorSMM.ctor_state_, .NORMAL, true, "", .ST_TYPE_NONE, 0, 0, 0, 0, 0, [],
      0, 0⟩
    ⟨.S_REPLICATING, true, false, true, 3, 5, 4, -1, false, 4, false⟩
    (by decide) (by decide)).1 rfl).1

end galera

namespace galera

open gu

/-- C23, as stated, fails: the entry to the local monitor is interrupted and
the aborted transaction passes the certification test; `cert` returns
`WSREP_BF_ABORT` and has called neither `leave` nor `self_cancel` on the
`LocalOrder` slot. -/
theorem C23_cert_local_order_counterexample :
    (cert
        ⟨⟨.interrupted, true⟩, ⟨.entered, false⟩, ⟨.entered, false⟩, .TEST_OK,
          .TEST_OK, 4⟩
        (⟨ReplicatorSMM.ctor_state_, .NORMAL, true, "", .ST_TYPE_NONE, 0, 0, 0, 0,
          0, [], 0, 0⟩,
          ⟨.S_REPLICATING, true, false, true, 3, 5, 4, -1, false, 4, false⟩)).2
      = .ok .WSREP_BF_ABORT ∧
    (cert
        ⟨⟨.interrupted, true⟩, ⟨.entered, false⟩, ⟨.entered, false⟩, .TEST_OK,
          .TEST_OK, 4⟩
        (⟨ReplicatorSMM.ctor_state_, .NORMAL, true, "", .ST_TYPE_NONE, 0, 0, 0, 0,
          0, [], 0, 0⟩,
          ⟨.S_REPLICATING, true, false, true, 3, 5, 4, -1, false, 4,
            false⟩)).1.1.calls_
      = [.enter_interrupted .local_monitor_ 3, .cert_test] := by
  decide

/-- C23, amended: on every path through `cert` on which the entry to the
local monitor does not throw an exception other than `EINTR`, `cert` returns.
When the `LocalOrder` slot was entered, `cert` calls `leave` on it once and
`self_cancel` never. When the entry was interrupted, `cert` never calls
`leave` on it, and calls `self_cancel` on it once unless it returns
`WSREP_BF_ABORT`, which it does exactly when the transaction is applicable and
passes the certification test of `cert_for_aborted`: then it calls neither. -/
theorem C23_cert_local_order_amended (env : Env) (r : ReplicatorSMM)
    (trx : TrxHandle) (hmon : env.local_enter.result ≠ .failed) :
    (∃ ret, (cert env (r, trx)).2 = .ok ret) ∧
    (env.local_enter.result = .entered →
      (cert env (r, trx)).1.1.calls_.count (.leave .local_monitor_ trx.local_seqno_)
        = r.calls_.count (.leave .local_monitor_ trx.local_seqno_) + 1 ∧
      (cert env (r, trx)).1.1.calls_.count
          (.self_cancel .local_monitor_ trx.local_seqno_)
        = r.calls_.count (.self_cancel .local_monitor_ trx.local_seqno_)) ∧
    (env.local_enter.result = .interrupted →
      (cert env (r, trx)).1.1.calls_.count (.leave .local_monitor_ trx.local_seqno_)
        = r.calls_.count (.leave .local_monitor_ trx.local_seqno_) ∧
      (cert env (r, trx)).1.1.calls_.count
          (.self_cancel .local_monitor_ trx.local_seqno_)
        = r.calls_.count (.self_cancel .local_monitor_ trx.local_seqno_)
          + (if (cert env (r, trx)).2 = .ok .WSREP_BF_ABORT then 0 else 1) ∧
      ((cert env (r, trx)).2 = .ok .WSREP_BF_ABORT
        ↔ env.state_seqno < trx.global_seqno_ ∧ env.test = .TEST_OK)) := by
  obtain ⟨⟨lres, lab⟩, ae, ce, app, tst, ss⟩ := env
  by_cases happ : ss < trx.global_seqno_
  · cases lres
    · cases lab <;> cases app <;> by_cases hco : r.co_mode_ = .BYPASS <;>
        simp [cert, cert_cancel_on_fail, monitor_enter, ReplicatorSMM.call,
          TrxHandle.set_state, happ, hco, List.count_append]
    · cases lab <;> cases tst <;> by_cases hco : r.co_mode_ = .BYPASS <;>
        simp [cert, cert_for_aborted, cert_cancel_on_fail, monitor_enter,
          ReplicatorSMM.call, TrxHandle.set_state, happ, hco, List.count_append]
    · exact absurd rfl hmon
  · by_cases hsst : r.last_st_type_ = .ST_TYPE_SST ∧ r.cc_seqno_ < trx.global_seqno_
        ∧ trx.global_seqno_ ≤ r.sst_seqno_
    · cases lres
      · cases lab <;>
          simp [cert, cert_not_applicable, monitor_enter, ReplicatorSMM.call,
            TrxHandle.set_state, happ, hsst, List.count_append]
      · cases lab <;>
          simp [cert, cert_not_applicable, monitor_enter, ReplicatorSMM.call,
            TrxHandle.set_state, happ, hsst, List.count_append]
      · exact absurd rfl hmon
    · cases lres
      · cases lab <;>
          simp [cert, cert_not_applicable, monitor_enter, ReplicatorSMM.call,
            TrxHandle.set_state, happ, hsst, List.count_append]
      · cases lab <;>
          simp [cert, cert_not_applicable, monitor_enter, ReplicatorSMM.call,
            TrxHandle.set_state, happ, hsst, List.count_append]
      · exact absurd rfl hmon

/-- Witness of C23, amended: the entry to the local monitor is interrupted and
the certification test fails, so the slot is self-cancelled. -/
theorem C23_cert_local_order_amended_witness :
    (cert
        ⟨⟨.interrupted, true⟩, ⟨.entered, false⟩, ⟨.entered, false⟩, .TEST_OK,
          .TEST_FAILED, 4⟩
        (⟨ReplicatorSMM.ctor_state_, .NORMAL, true, "", .ST_TYPE_NONE, 0, 0, 0, 0,
          0, [], 0, 0⟩,
          ⟨.S_REPLICATING, true, false, true, 3, 5, 4, -1, false, 4,
            false⟩)).1.1.calls_.count (.leave .local_monitor_ 3) = 0 :=
  ((C23_cert_local_order_amended
    ⟨⟨.interrupted, true⟩, ⟨.entered, false⟩, ⟨.entered, false⟩, .TEST_OK,
      .TEST_FAILED, 4⟩
    ⟨ReplicatorSMM.ctor_state_, .NORMAL, true, "", .ST_TYPE_NONE, 0, 0, 0, 0, 0, [],
      0, 0⟩
    ⟨.S_REPLICATING, true, false, true, 3, 5, 4, -1, false, 4, false⟩
    (by decide)).2.2 rfl).1

end galera

namespace galera

open gu

/-- C24, as stated, fails: `gcs_.schedule` returns the handle 0, which
`replicate` accepts and stores in the transaction; `abort_trx`, called while
the transaction is in `S_REPLICATING` under this handle, sets `S_MUST_ABORT`
and does not call `gcs_.interrupt`. -/
theorem C24_abort_trx_handle_counterexample :
    (replicate_send (fun _ => ⟨0, .sent 10, false, 3, 5⟩) 4 1 0
        (⟨ReplicatorSMM.ctor_state_, .NORMAL, true, "", .ST_TYPE_NONE, 0, 0, 0, 0,
          0, [], 0, 0⟩,
          ⟨.S_REPLICATING, true, false, true, -1, -1, -1, -1, false, 4,
            false⟩)).2
      = .ok (some ⟨0, .sent 10, false, 3, 5⟩) ∧
    (replicate_send (fun _ => ⟨0, .sent 10, false, 3, 5⟩) 4 1 0
        (⟨ReplicatorSMM.ctor_state_, .NORMAL, true, "", .ST_TYPE_NONE, 0, 0, 0, 0,
          0, [], 0, 0⟩,
          ⟨.S_REPLICATING, true, false, true, -1, -1, -1, -1, false, 4,
            false⟩)).1.2
      = ⟨.S_REPLICATING, true, false, true, -1, -1, -1, 0, false, 4, false⟩ ∧
    (abort_trx
        (replicate_send (fun _ => ⟨0, .sent 10, false, 3, 5⟩) 4 1 0
          (⟨ReplicatorSMM.ctor_state_, .NORMAL, true, "", .ST_TYPE_NONE, 0, 0, 0, 0,
            0, [], 0, 0⟩,
            ⟨.S_REPLICATING, true, false, true, -1, -1, -1, -1, false, 4,
              false⟩)).1).1.2.state_
      = .S_MUST_ABORT ∧
    (abort_trx
        (replicate_send (fun _ => ⟨0, .sent 10, false, 3, 5⟩) 4 1 0
          (⟨ReplicatorSMM.ctor_state_, .NORMAL, true, "", .ST_TYPE_NONE, 0, 0, 0, 0,
            0, [], 0, 0⟩,
            ⟨.S_REPLICATING, true, false, true, -1, -1, -1, -1, false, 4,
              false⟩)).1).1.1.calls_
      = [.gcs_schedule, .gcs_repl] := by
  decide

/-- C24, amended: a transaction in `S_REPLICATING` whose send was scheduled
under a handle `h >= 0`: `replicate` accepts the handle and stores it in the
transaction, which stays in `S_REPLICATING` during the send. `abort_trx`,
called then, sets `S_MUST_ABORT`; for `h > 0` its only call is
`gcs_.interrupt(h)`, and for `h = 0` it makes no call. -/
theorem C24_abort_trx_handle_amended (rounds : Nat → GcsRound)
    (last_committed : Int) (fuel n : Nat) (r : ReplicatorSMM) (trx : TrxHandle)
    (hst : trx.state_ = .S_REPLICATING)
    (hh : 0 ≤ (rounds n).handle)
    (hab : (rounds n).bf_aborted = false)
    (hrc : (rounds n).rcode ≠ .EAGAIN) :
    (replicate_send rounds last_committed (fuel + 1) n (r, trx)).2
      = .ok (some (rounds n)) ∧
    (replicate_send rounds last_committed (fuel + 1) n (r, trx)).1.2.state_
      = .S_REPLICATING ∧
    (replicate_send rounds last_committed (fuel + 1) n (r, trx)).1.2.gcs_handle_
      = (rounds n).handle ∧
    (abort_trx
        (replicate_send rounds last_committed (fuel + 1) n (r, trx)).1).2
      = .ok () ∧
    (abort_trx
        (replicate_send rounds last_committed (fuel + 1) n (r, trx)).1).1.2.state_
      = .S_MUST_ABORT ∧
    (abort_trx
        (replicate_send rounds last_committed (fuel + 1) n (r, trx)).1).1.1.calls_
      = (replicate_send rounds last_committed (fuel + 1) n (r, trx)).1.1.calls_
        ++ (if 0 < (rounds n).handle then [.gcs_interrupt (rounds n).handle]
            else []) := by
  have hneg : ¬ (rounds n).handle < 0 := by omega
  obtain ⟨st, loc, toi, fc, ls, gs, ds, gh, ic, lss, nv⟩ := trx
  simp only at hst
  subst hst
  by_cases hpos : 0 < (rounds n).handle <;> cases nv <;>
    simp [replicate_send, abort_trx, hneg, hab, hrc, hpos, TrxHandle.set_state,
      ReplicatorSMM.call]

/-- Witness of C24, amended: a send scheduled under the handle 7. -/
theorem C24_abort_trx_handle_amended_witness :
    (abort_trx
        (replicate_send (fun _ => ⟨7, .sent 10, false, 3, 5⟩) 4 1 0
          (⟨ReplicatorSMM.ctor_state_, .NORMAL, true, "", .ST_TYPE_NONE, 0, 0, 0, 0,
            0, [], 0, 0⟩,
            ⟨.S_REPLICATING, true, false, true, -1, -1, -1, -1, false, 4,
              false⟩)).1).1.2.state_
      = .S_MUST_ABORT :=
  (C24_abort_trx_handle_amended (fun _ => ⟨7, .sent 10, false, 3, 5⟩) 4 0 0
    ⟨ReplicatorSMM.ctor_state_, .NORMAL, true, "", .ST_TYPE_NONE, 0, 0, 0, 0, 0, [],
      0, 0⟩
    ⟨.S_REPLICATING, true, false, true, -1, -1, -1, -1, false, 4, false⟩
    rfl (by decide) rfl (by decide)).2.2.2.2.1

end galera

namespace galera

open gu

/-- The version-1 canonical form determines the list of parts. -/
theorem flatMap_part1_bytes_injective (ks1 : List wsrep_key_t) :
    ∀ ks2 : List wsrep_key_t,
      ks1.flatMap part1_bytes = ks2.flatMap part1_bytes → ks1 = ks2 := by
  induction ks1 with
  | nil =>
    intro ks2 h
    cases ks2 with
    | nil => rfl
    | cons k ks =>
      have hlen := congrArg List.length h
      have := uleb128_size_pos k.key_len
      simp only [List.flatMap_nil, List.flatMap_cons, List.length_nil,
        List.length_append, part1_bytes, uleb128_bytes_length] at hlen
      omega
  | cons k ks ih =>
    intro ks2 h
    cases ks2 with
    | nil =>
      have hlen := congrArg List.length h
      have := uleb128_size_pos k.key_len
      simp only [List.flatMap_nil, List.flatMap_cons, List.length_nil,
        List.length_append, part1_bytes, uleb128_bytes_length] at hlen
      omega
    | cons k2 ks2 =>
      simp only [List.flatMap_cons, part1_bytes, List.append_assoc] at h
      have hdec := congrArg uleb128_decode_from h
      rw [uleb128_decode_from_bytes, uleb128_decode_from_bytes] at hdec
      have hlen : k.key_len = k2.key_len := by
        simp only [Option.some.injEq, Prod.mk.injEq] at hdec
        exact hdec.1
      rw [hlen] at h
      have h2 := List.append_cancel_left h
      have hkl : k.key.length = k2.key.length := hlen
      obtain ⟨hkey, hrest⟩ := List.append_inj h2 hkl
      have hk : k = k2 := by
        cases k
        cases k2
        simp only at hkey
        rw [hkey]
      rw [hk, ih ks2 hrest]

/-- The version-0 canonical form determines the list of parts when no part is
longer than 255 bytes. -/
theorem flatMap_part0_bytes_injective (ks1 : List wsrep_key_t) :
    ∀ ks2 : List wsrep_key_t,
      (∀ k ∈ ks1, k.key_len ≤ 255) → (∀ k ∈ ks2, k.key_len ≤ 255) →
      ks1.flatMap part0_bytes = ks2.flatMap part0_bytes → ks1 = ks2 := by
  induction ks1 with
  | nil =>
    intro ks2 _ _ h
    cases ks2 with
    | nil => rfl
    | cons k ks => simp [part0_bytes] at h
  | cons k ks ih =>
    intro ks2 h1 h2 h
    cases ks2 with
    | nil => simp [part0_bytes] at h
    | cons k2 ks2 =>
      simp only [List.flatMap_cons, part0_bytes, List.cons_append,
        List.cons.injEq] at h
      obtain ⟨hhead, htail⟩ := h
      have hk1 := h1 k (List.mem_cons_self _ _)
      have hk2 := h2 k2 (List.mem_cons_self _ _)
      have hlen : k.key_len = k2.key_len := by
        have := congrArg Fin.val hhead
        simp only [to_byte_val] at this
        omega
      have hkl : k.key.length = k2.key.length := hlen
      obtain ⟨hkey, hrest⟩ := List.append_inj htail hkl
      have hk : k = k2 := by
        cases k
        cases k2
        simp only at hkey
        rw [hkey]
      rw [hk, ih ks2 (fun x hx => h1 x (List.mem_cons_of_mem _ hx))
        (fun x hx => h2 x (List.mem_cons_of_mem _ hx)) hrest]

/-- Two version-1 keys built by the constructor compare equal exactly when
they were built from the same parts in the same order. -/
theorem key1_eq_iff (keys1 keys2 : List wsrep_key_t) (k1 k2 : Key)
    (h1 : Key.new 1 keys1 = .ok k1) (h2 : Key.new 1 keys2 = .ok k2) :
    k1.eq k2 = true ↔ keys1 = keys2 := by
  rw [Key.new_one] at h1 h2
  split at h1
  · cases h1
  · split at h2
    · cases h2
    · cases h1
      cases h2
      simp only [Key.eq, decide_eq_true_eq]
      exact ⟨flatMap_part1_bytes_injective keys1 keys2, fun h => by rw [h]⟩

/-- Two version-0 keys built by the constructor from parts of at most 255
bytes compare equal exactly when they were built from the same parts in the
same order. -/
theorem key0_eq_iff_of_short_parts (keys1 keys2 : List wsrep_key_t) (k1 k2 : Key)
    (hs1 : ∀ k ∈ keys1, k.key_len ≤ 255) (hs2 : ∀ k ∈ keys2, k.key_len ≤ 255)
    (h1 : Key.new 0 keys1 = .ok k1) (h2 : Key.new 0 keys2 = .ok k2) :
    k1.eq k2 = true ↔ keys1 = keys2 := by
  rw [Key.new_zero] at h1 h2
  split at h1
  · cases h1
  · split at h2
    · cases h2
    · cases h1
      cases h2
      simp only [Key.eq, decide_eq_true_eq]
      rw [flatMap_part0_appended_eq keys1 hs1, flatMap_part0_appended_eq keys2 hs2]
      exact ⟨flatMap_part0_bytes_injective keys1 keys2 hs1 hs2, fun h => by rw [h]⟩

set_option maxRecDepth 4096

/-- C25, at a part of 256 bytes: the version-0 constructor accepts the list
with one part of 256 bytes and the list with one empty part, the two lists
differ, and the two keys have the same canonical form and compare equal. -/
theorem C25_key0_256_bytes_equal_empty :
    Key.new 0 [⟨List.replicate 256 7⟩] = .ok ⟨0, [0]⟩ ∧
    Key.new 0 [⟨[]⟩] = .ok ⟨0, [0]⟩ ∧
    ([⟨List.replicate 256 7⟩] : List wsrep_key_t) ≠ [⟨[]⟩] ∧
    Key.eq ⟨0, [0]⟩ ⟨0, [0]⟩ = true := by
  decide

/-- C26, at the buffer `[5, 1, 2]`: the length decoded at offset 0 is 5 and
the offset after it is 1, two bytes remain, and `unserialize` of a version-1
key goes on to the copy, which reads past the end of the buffer. -/
theorem C26_unserialize_v1_reads_past_end :
    uleb128_decode [5, 1, 2] 0 = .ok (1, 5) ∧
    ([5, 1, 2] : Buffer).length < 1 + 5 ∧
    unserialize [5, 1, 2] 0 (Key.empty 1) = .error .out_of_bounds := by
  decide

/-- C27, at a part of 3 bytes: the version-1 key of the part `[10, 20, 30]`
has the canonical form `[3, 10, 20, 30]`, `key_parts1` returns the part at
offset 0 with size 4 and `key_len` 3, the payload starts at offset
`size - key_len = 1`, and `key` points at offset 3, where a single byte of the
part is left. -/
theorem C27_keypart1_key_offset :
    Key.new 1 [⟨[10, 20, 30]⟩] = .ok ⟨1, [3, 10, 20, 30]⟩ ∧
    Key.key_parts1 ⟨1, [3, 10, 20, 30]⟩ = .ok [⟨[3, 10, 20, 30], 4⟩] ∧
    KeyPart1.key_len ⟨[3, 10, 20, 30], 4⟩ = .ok 3 ∧
    (KeyPart1.buf ⟨[3, 10, 20, 30], 4⟩).drop (4 - 3) = [10, 20, 30] ∧
    KeyPart1.key ⟨[3, 10, 20, 30], 4⟩ = .ok [30] := by
  decide

end galera

namespace galera

open gu

/-- A list of parts that covers `keys_` from an index starts inside `keys_`
or at its end. -/
theorem parts0_cover_le (keys_ : Buffer) (i : Nat) (kps : List KeyPart0)
    (h : parts0_cover keys_ i kps) : i ≤ keys_.length := by
  cases kps with
  | nil => exact le_of_eq h
  | cons kp rest => exact le_of_lt h.1

/-- A list of parts that covers `keys_` from an index starts inside `keys_`
or at its end. -/
theorem parts1_cover_le (keys_ : Buffer) (i : Nat) (kps : List KeyPart1)
    (h : parts1_cover keys_ i kps) : i ≤ keys_.length := by
  cases kps with
  | nil => exact le_of_eq h
  | cons kp rest => exact le_of_lt h.1

/-- The parts that the loop of `key_parts0` returns are consecutive and end
where `keys_` ends. -/
theorem key_parts0_loop_cover (keys_ : Buffer) (fuel : Nat) :
    ∀ (i : Nat) (ret out : List KeyPart0),
      key_parts0_loop keys_ fuel i ret = .ok out →
      ∃ kps, out = ret ++ kps ∧ parts0_cover keys_ i kps := by
  induction fuel with
  | zero =>
    intro i ret out h
    simp [key_parts0_loop] at h
  | succ n ih =>
    intro i ret out h
    unfold key_parts0_loop at h
    by_cases hi : i < keys_.length
    · simp only [hi, if_true] at h
      obtain ⟨kps, hout, hcov⟩ := ih _ _ _ h
      refine ⟨⟨keys_.drop i⟩ :: kps, ?_, hi, rfl, hcov⟩
      rw [hout, List.append_assoc]
      rfl
    · simp only [hi, if_false] at h
      by_cases he : i = keys_.length
      · simp only [he, ne_eq, not_true_eq_false, if_false, Except.ok.injEq] at h
        exact ⟨[], by simp [h], he⟩
      · simp [he] at h

/-- The parts that the loop of `key_parts1` returns are consecutive and end
where `keys_` ends. -/
theorem key_parts1_loop_cover (keys_ : Buffer) (fuel : Nat) :
    ∀ (i : Nat) (ret out : List KeyPart1),
      key_parts1_loop keys_ fuel i ret = .ok out →
      ∃ kps, out = ret ++ kps ∧ parts1_cover keys_ i kps := by
  induction fuel with
  | zero =>
    intro i ret out h
    simp [key_parts1_loop] at h
  | succ n ih =>
    intro i ret out h
    unfold key_parts1_loop at h
    by_cases hi : i < keys_.length
    · simp only [hi, if_true] at h
      cases hdec : uleb128_decode keys_ i with
      | error e => simp [hdec] at h
      | ok res =>
        obtain ⟨offset, key_len⟩ := res
        simp only [hdec] at h
        obtain ⟨kps, hout, hcov⟩ := ih _ _ _ h
        refine ⟨⟨keys_.drop i, key_len + (offset - i)⟩ :: kps, ?_, hi, rfl, hcov⟩
        rw [hout, List.append_assoc]
        rfl
    · simp only [hi, if_false] at h
      by_cases he : i = keys_.length
      · simp only [he, ne_eq, not_true_eq_false, if_false, Except.ok.injEq] at h
        exact ⟨[], by simp [h], he⟩
      · simp [he] at h

/-- The iterator constructor, given parts that cover `keys_` from an index,
appends the bytes of `keys_` from that index on, and reads no byte outside
`keys_`. -/
theorem insert_parts0_of_cover (keys_ : Buffer) (kps : List KeyPart0) :
    ∀ (i : Nat) (acc : Buffer), parts0_cover keys_ i kps →
      Key.insert_parts0 kps acc = .ok (acc ++ keys_.drop i) := by
  induction kps with
  | nil =>
    intro i acc h
    have hi : i = keys_.length := h
    simp [Key.insert_parts0, hi]
  | cons kp rest ih =>
    intro i acc h
    obtain ⟨hi, hbuf, hcov⟩ := h
    have hle := parts0_cover_le keys_ _ rest hcov
    have hfit : ¬ kp.buf.length < kp.size := by
      rw [hbuf, List.length_drop]
      omega
    unfold Key.insert_parts0
    rw [if_neg hfit, ih _ _ hcov, hbuf, List.append_assoc]
    congr 2
    have h1 := List.take_append_drop kp.size (keys_.drop i)
    rw [List.drop_drop] at h1
    exact h1

/-- The iterator constructor, given parts that cover `keys_` from an index,
appends the bytes of `keys_` from that index on, and reads no byte outside
`keys_`. -/
theorem insert_parts1_of_cover (keys_ : Buffer) (kps : List KeyPart1) :
    ∀ (i : Nat) (acc : Buffer), parts1_cover keys_ i kps →
      Key.insert_parts1 kps acc = .ok (acc ++ keys_.drop i) := by
  induction kps with
  | nil =>
    intro i acc h
    have hi : i = keys_.length := h
    simp [Key.insert_parts1, hi]
  | cons kp rest ih =>
    intro i acc h
    obtain ⟨hi, hbuf, hcov⟩ := h
    have hle := parts1_cover_le keys_ _ rest hcov
    have hfit : ¬ kp.buf.length < kp.size := by
      rw [hbuf, List.length_drop]
      omega
    unfold Key.insert_parts1
    rw [if_neg hfit, ih _ _ hcov, hbuf, List.append_assoc]
    congr 2
    have h1 := List.take_append_drop kp.size (keys_.drop i)
    rw [List.drop_drop] at h1
    exact h1

/-- The bytes that the version-0 constructor stores for parts of at most 256
bytes are the canonical form of as many parts of at most 255 bytes: the stored
part of a part of 256 bytes is the empty part. -/
theorem flatMap_part0_appended_short (ks : List wsrep_key_t)
    (h : ∀ k ∈ ks, k.key_len ≤ 256) :
    ∃ ks2 : List wsrep_key_t, ks2.length = ks.length ∧
      (∀ k ∈ ks2, k.key_len ≤ 255) ∧
      ks.flatMap part0_appended = ks2.flatMap part0_bytes := by
  induction ks with
  | nil => exact ⟨[], rfl, by simp, rfl⟩
  | cons k ks ih =>
    obtain ⟨ks2, hlen, hshort, heq⟩ :=
      ih (fun x hx => h x (List.mem_cons_of_mem _ hx))
    have hk := h k (List.mem_cons_self _ _)
    have hval : (to_byte k.key_len).val ≤ k.key.length := by
      rw [to_byte_val]
      exact le_trans (Nat.mod_le _ _) (le_refl _)
    have hlt : (to_byte k.key_len).val < 256 := (to_byte k.key_len).isLt
    have hklen : wsrep_key_t.key_len ⟨k.key.take (to_byte k.key_len).val⟩
        = (to_byte k.key_len).val := by
      simp only [wsrep_key_t.key_len, List.length_take] at hval ⊢
      omega
    refine ⟨⟨k.key.take (to_byte k.key_len).val⟩ :: ks2, by simp [hlen], ?_, ?_⟩
    · intro x hx
      rcases List.mem_cons.mp hx with rfl | hx
      · rw [hklen]
        omega
      · exact hshort x hx
    · simp only [List.flatMap_cons, heq]
      congr 1
      unfold part0_appended part0_bytes
      rw [hklen]
      congr 1
      apply Fin.ext
      exact (Nat.mod_mod _ _).symm

/-- Every part takes one byte at least in the version-0 canonical form. -/
theorem length_le_flatMap_part0_bytes (ks : List wsrep_key_t) :
    ks.length ≤ (ks.flatMap part0_bytes).length := by
  induction ks with
  | nil => simp
  | cons a as ih =>
    simp only [List.flatMap_cons, List.length_append, List.length_cons,
      part0_bytes]
    omega

/-- Every part takes one byte at least in the version-1 canonical form. -/
theorem length_le_flatMap_part1_bytes (ks : List wsrep_key_t) :
    ks.length ≤ (ks.flatMap part1_bytes).length := by
  induction ks with
  | nil => simp
  | cons a as ih =>
    have := uleb128_size_pos a.key_len
    simp only [List.flatMap_cons, List.length_append, List.length_cons,
      part1_bytes, uleb128_bytes_length]
    omega

/-- C28: a key built by the constructor for version 0 or 1 from any list of
parts that it accepts. `key_parts0`, for version 0, and `key_parts1`, for
version 1, return: the loop ends without the fatal error of an overrun. The
parts returned are consecutive and cover the canonical form exactly: the
first points at index 0, each next one at the index where the one before
ends, and the last ends where the canonical form ends. The iterator
constructor, given these parts, reads no byte outside the key and builds the
same key again. -/
theorem C28_key_parts_rebuild (version : Int) (keys : List wsrep_key_t) (k : Key)
    (hk : Key.new version keys = .ok k) :
    (version = 0 ∨ version = 1) ∧
    (version = 0 →
      ∃ kps, k.key_parts0 = .ok kps ∧ parts0_cover k.keys_ 0 kps ∧
        Key.new_from_parts0 version kps = .ok k ∧
        ∀ k2, Key.new_from_parts0 version kps = .ok k2 → k2.eq k = true) ∧
    (version = 1 →
      ∃ kps, k.key_parts1 = .ok kps ∧ parts1_cover k.keys_ 0 kps ∧
        Key.new_from_parts1 version kps = .ok k ∧
        ∀ k2, Key.new_from_parts1 version kps = .ok k2 → k2.eq k = true) := by
  have hver : version = 0 ∨ version = 1 := by
    by_contra hne
    push_neg at hne
    unfold Key.new at hk
    simp only [hne.1, hne.2, if_false] at hk
    split at hk <;> cases hk
  refine ⟨hver, ?_, ?_⟩
  · intro hv
    subst hv
    rw [Key.new_zero] at hk
    split at hk
    · cases hk
    · rename_i hacc
      push_neg at hacc
      cases hk
      obtain ⟨ks2, hlen2, hshort, heq⟩ :=
        flatMap_part0_appended_short keys (fun x hx => hacc.2 x hx)
      have hfuel : ks2.length < (ks2.flatMap part0_bytes).length + 1 :=
        Nat.lt_succ_of_le (length_le_flatMap_part0_bytes ks2)
      obtain ⟨kps, hrun, _⟩ := key_parts0_loop_parts ks2
        ((ks2.flatMap part0_bytes).length + 1) [] [] hshort hfuel
      simp only [List.nil_append, List.length_nil] at hrun
      rw [← heq] at hrun
      obtain ⟨kps2, hout, hcov⟩ := key_parts0_loop_cover _ _ _ _ _ hrun
      simp only [List.nil_append] at hout
      subst hout
      have hins := insert_parts0_of_cover _ kps 0 [] hcov
      simp only [List.nil_append, List.drop_zero] at hins
      refine ⟨kps, hrun, hcov, ?_, ?_⟩
      · simp [Key.new_from_parts0, hins]
      · intro k2 h2
        simp only [Key.new_from_parts0, hins, Except.ok.injEq] at h2
        subst h2
        simp [Key.eq]
  · intro hv
    subst hv
    rw [Key.new_one] at hk
    split at hk
    · cases hk
    · cases hk
      have hfuel : keys.length < (keys.flatMap part1_bytes).length + 1 :=
        Nat.lt_succ_of_le (length_le_flatMap_part1_bytes keys)
      obtain ⟨kps, hrun, _⟩ := key_parts1_loop_parts keys
        ((keys.flatMap part1_bytes).length + 1) [] [] hfuel
      simp only [List.nil_append, List.length_nil] at hrun
      obtain ⟨kps2, hout, hcov⟩ := key_parts1_loop_cover _ _ _ _ _ hrun
      simp only [List.nil_append] at hout
      subst hout
      have hins := insert_parts1_of_cover _ kps 0 [] hcov
      simp only [List.nil_append, List.drop_zero] at hins
      refine ⟨kps, hrun, hcov, ?_, ?_⟩
      · simp [Key.new_from_parts1, hins]
      · intro k2 h2
        simp only [Key.new_from_parts1, hins, Except.ok.injEq] at h2
        subst h2
        simp [Key.eq]

set_option maxRecDepth 4096

/-- Witness of C28: the version-0 key of a part of 256 bytes and the part
`[1, 2]`. -/
theorem C28_key_parts_rebuild_witness :
    Key.new 0 [⟨List.replicate 256 7⟩, ⟨[1, 2]⟩] = .ok ⟨0, [0, 2, 1, 2]⟩ ∧
    ∃ kps, Key.key_parts0 ⟨0, [0, 2, 1, 2]⟩ = .ok kps ∧
      parts0_cover [0, 2, 1, 2] 0 kps ∧
      Key.new_from_parts0 0 kps = .ok ⟨0, [0, 2, 1, 2]⟩ :=
  ⟨by decide,
    ((C28_key_parts_rebuild 0 [⟨List.replicate 256 7⟩, ⟨[1, 2]⟩] ⟨0, [0, 2, 1, 2]⟩
      (by decide)).2.1 rfl).imp (fun _ h => ⟨h.1, h.2.1, h.2.2.1⟩)⟩

end galera

namespace galera

open gu

/-- The first loop of `update_incoming_list` adds the lengths of the addresses
of the members it visits. -/
theorem incoming_sizes_eq (view : wsrep_view_info_t) (k : Nat) :
    ∀ (i : Nat) (s : Int),
      incoming_sizes view k i s
        = s + (((List.range' i k).map
            (fun j => (view.members j).incoming.length)).sum : Nat) := by
  induction k with
  | zero =>
    intro i s
    simp [incoming_sizes]
  | succ n ih =>
    intro i s
    rw [incoming_sizes, ih, List.range'_succ]
    simp only [List.map_cons, List.sum_cons, Nat.cast_add]
    omega

/-- The second loop of `update_incoming_list` appends, for every member it
visits, the separator and the address. -/
theorem incoming_append_eq (view : wsrep_view_info_t) (k : Nat) :
    ∀ (i : Nat) (l : List Char),
      incoming_append view k i l
        = l ++ (List.range' i k).flatMap
            (fun j => separator :: (view.members j).incoming) := by
  induction k with
  | zero =>
    intro i l
    simp [incoming_append]
  | succ n ih =>
    intro i l
    rw [incoming_append, ih, List.range'_succ]
    simp [List.flatMap_cons, List.append_assoc]

/-- Joining a non-empty list of strings with a separator: the first string,
and the separator before each of the others. -/
theorem intercalate_cons_eq (sep : Char) (xs : List (List Char)) :
    ∀ x : List Char,
      [sep].intercalate (x :: xs) = x ++ xs.flatMap (fun y => sep :: y) := by
  induction xs with
  | nil =>
    intro x
    simp [List.intercalate, List.intersperse]
  | cons y ys ih =>
    intro x
    have h := ih y
    simp only [List.intercalate, List.intersperse, List.flatten_cons,
      List.flatMap_cons] at h ⊢
    rw [h]
    simp

/-- C30: for a view with `memb_num >= 0`, `update_incoming_list` leaves in
`incoming_list_` the addresses of the members, in the order of the members,
joined with a single separator `,` between consecutive members; without
members this is the empty string, and with members its length is the sum of
the lengths of the addresses plus `memb_num - 1`. -/
theorem C30_update_incoming_list (view : wsrep_view_info_t)
    (h : 0 ≤ view.memb_num) :
    update_incoming_list view
      = [separator].intercalate
          ((List.range view.memb_num.toNat).map
            (fun i => (view.members i).incoming)) ∧
    (view.memb_num = 0 → update_incoming_list view = []) ∧
    (0 < view.memb_num →
      ((update_incoming_list view).length : Int)
        = (((List.range view.memb_num.toNat).map
              (fun i => (view.members i).incoming.length)).sum : Nat)
          + view.memb_num - 1) := by
  obtain ⟨memb_num, members⟩ := view
  simp only at h ⊢
  obtain ⟨n, rfl⟩ := Int.eq_ofNat_of_zero_le h
  simp only [Int.toNat_ofNat]
  cases n with
  | zero => simp [update_incoming_list, List.intercalate]
  | succ m =>
    have hpos : (0 : Int) < ((m + 1 : Nat) : Int) := by omega
    have hrange : List.range (m + 1) = 0 :: List.range' 1 m := by
      rw [List.range_eq_range', List.range'_succ]
    have hsize : incoming_sizes ⟨((m + 1 : Nat) : Int), members⟩ (m + 1) 0
          (((m + 1 : Nat) : Int) - 1)
        = (m : Int) + (((members 0).incoming.length
            + ((List.range' 1 m).map
                (fun j => (members j).incoming.length)).sum : Nat) : Int) := by
      rw [incoming_sizes_eq, List.range'_succ]
      simp only [Nat.zero_add, List.map_cons, List.sum_cons, Nat.cast_add]
      omega
    have hjoin : [separator].intercalate
          ((List.range (m + 1)).map (fun i => (members i).incoming))
        = (members 0).incoming
          ++ (List.range' 1 m).flatMap
              (fun j => separator :: (members j).incoming) := by
      rw [hrange, List.map_cons, intercalate_cons_eq]
      simp [List.flatMap_map]
    have hlen : ((members 0).incoming
          ++ (List.range' 1 m).flatMap
              (fun j => separator :: (members j).incoming)).length
        = (members 0).incoming.length
          + ((List.range' 1 m).map
              (fun j => (members j).incoming.length)).sum + m := by
      rw [List.length_append]
      have hgen : ∀ (l : List Nat),
          (l.flatMap (fun j => separator :: (members j).incoming)).length
            = (l.map (fun j => (members j).incoming.length)).sum + l.length := by
        intro l
        induction l with
        | nil => simp
        | cons a as ih =>
          simp only [List.flatMap_cons, List.length_append, List.length_cons,
            List.map_cons, List.sum_cons, ih]
          omega
      rw [hgen, List.length_range']
      omega
    have hupd : update_incoming_list ⟨((m + 1 : Nat) : Int), members⟩
        = (members 0).incoming
          ++ (List.range' 1 m).flatMap
              (fun j => separator :: (members j).incoming) := by
      unfold update_incoming_list
      simp only [hpos, if_true, Int.toNat_ofNat, hsize, Nat.add_sub_cancel]
      by_cases hz : (m : Int) + (((members 0).incoming.length
            + ((List.range' 1 m).map
                (fun j => (members j).incoming.length)).sum : Nat) : Int) ≤ 0
      · rw [if_pos hz]
        have hm : m = 0 := by omega
        have h0 : (members 0).incoming.length = 0 := by omega
        subst hm
        have hnil : (members 0).incoming = [] := List.eq_nil_of_length_eq_zero h0
        simp [hnil]
      · rw [if_neg hz, incoming_append_eq]
    refine ⟨?_, ?_, ?_⟩
    · rw [hupd, hjoin]
    · intro hzero
      omega
    · intro _
      rw [hupd, hlen, hrange]
      simp only [List.map_cons, List.sum_cons, Nat.cast_add]
      omega

/-- Witness of C30: a view of two members with the addresses `a:1` and `b`. -/
theorem C30_update_incoming_list_witness :
    update_incoming_list
        ⟨2, fun i => if i = 0 then ⟨['a', ':', '1']⟩ else ⟨['b']⟩⟩
      = [separator].intercalate
          ((List.range (2 : Int).toNat).map
            (fun i => (if i = 0 then (⟨['a', ':', '1']⟩ : wsrep_member_info_t)
              else ⟨['b']⟩).incoming)) :=
  (C30_update_incoming_list
    ⟨2, fun i => if i = 0 then ⟨['a', ':', '1']⟩ else ⟨['b']⟩⟩ (by decide)).1

end galera
